import Mathlib

/-!
# b1Exchange: the control loop of the trading robot

A shallow embedding of `pkg/exchange/exchange.go`, `pkg/exchange/schedule.go` and of
the records and the validation of `pkg/model/model.go`.

Conventions of the embedding.

* A finite `float64` value is the rational it denotes (`ℚ`), and every arithmetic
  operation of the source is the exact operation followed by the rounding `fl` to the
  nearest `float64`, ties to even.  Infinities and NaN are not values of the model: a
  result beyond the largest `float64` is rounded as if the exponent had no upper bound,
  and the one division by a variable, in `CheckOneLimitation`, treats a divisor of zero
  apart (`quotaReached`).
* A worker takes the renderings of `fmt.Sprintf` from the `World`; the function
  `Sprintf` gives them for the formats `NewExchange` builds.
* `time.NewTicker` panics on a duration that is not positive; a worker that reaches such
  a call ends there with the `panicked` flag set.
* `int`, `int64` values are integers (`Int`), `int` being 64 bits wide; where a
  result can leave the 64-bit range and is used, it is wrapped explicitly (`wrap64`).
* A Go pointer that may be nil is an `Option`; dereferencing `none` is a runtime
  panic, recorded in the `panicked` flag of a `Run`.
* A call that returns `(value, err)` is an `Option` (`none` when `err != nil`), except
  `strconv.ParseFloat`, whose value is assigned by the code even when it fails and is
  therefore a pair (value, failed).
* Everything a worker does to the outside world (API calls, channel sends, waits) is
  recorded, in program order, in a trace of `Event`s.  A worker is run in isolation:
  the interleaving with other goroutines is not part of the model.
-/

set_option linter.dupNamespace false

namespace B1Exchange

/-! ## Constants of `exchange.go` -/

def NormalExchangeType : Int := 0
def BalanceExchangeType : Int := 1
def BidExchangeType : Int := 2
def AskExchangeType : Int := 3

def AskOrderTypeName : String := "ASK"
def BidOrderTypeName : String := "BID"

def BidOrderType : Int := 0
def AskOrderType : Int := 1
def AllOrderType : Int := 2

def CheckLimitationType : Int := 0
def KeepRunningType : Int := 1

/-! ## Records of `model.go` -/

structure Configuration where
  EndPoint : String
  AppKey : String
  AppSecret : String
  SymbolPair : String
  OneHourlyLimitationPercent : Int
  CheckLimitationInterval : Int
  EnableCheckLimitation : Bool
  ExchangeAmount : ℚ
  ExchangeInterval : Int
  RequestTimeout : Int
  BalanceAccountBalance : Bool
  BalancePercent : Int
  BalanceExchange : Bool
  BalanceExchangePercent : Int
  ExpectDiffrentValue : ℚ
  CheckOrderInterval : Int
  CheckOrderNumber : Int
  CancelOrderDiffrentTime : Int
  CancelOrderTypes : Option (List String)
  CancelOrderInterval : Int
  CancelOrderLockExchange : Bool
  CheckBalanceRelayTime : Int
  CreateExchangeClientWaitTime : Int
  BalanceLockCancelOrder : Bool
  LogFile : String
  LogLevel : String
deriving DecidableEq

structure Balance where
  AssetUUID : String
  Balance : String
  LockedBalance : String
deriving DecidableEq

structure AccountResponeBody where
  Data : List Balance
deriving DecidableEq

structure PriceAmount where
  Price : String
  Amount : String
deriving DecidableEq

structure Ticker where
  MarketUUID : String
  Bid : Option PriceAmount
  Ask : Option PriceAmount
deriving DecidableEq

structure MarketTickerResponeBody where
  Data : Option Ticker
deriving DecidableEq

structure Asset where
  UUID : String
  Symbol : String
  Name : String
deriving DecidableEq

structure SymbolPair where
  UUID : String
  QuoteScale : Int
  QuoteAsset : Asset
  Name : String
  BaseScale : Int
  BaseAsset : Asset
deriving DecidableEq

/-- Order as returned by the exchange; `InsertedAt` is the value of
`InsertedAt.UnixNano()`. -/
structure Order where
  Id : String
  Side : String
  State : String
  InsertedAt : Int
deriving DecidableEq

structure Edge where
  Node : Option Order
  Cursor : String
deriving DecidableEq

structure OrderList where
  Edges : List Edge
deriving DecidableEq

structure OrderListResponeBody where
  Data : Option OrderList
deriving DecidableEq

structure OneHourlyLimitation where
  TradeMineOne : ℚ
  TotalFeeBtc : ℚ
  StatTime : String
  InviteMineOne : ℚ
deriving DecidableEq

structure OneHourlyLimitationResponeBody where
  Data : Option OneHourlyLimitation
deriving DecidableEq

/-! ## The shared state -/

/-- The Go map `currentBalances`, as an association list with at most one entry per
key. -/
abbrev BalanceMap := List (String × Balance)

/-- Map read `m[k]`; `none` is the nil pointer a missing key yields. -/
def mapGet (m : BalanceMap) (k : String) : Option Balance :=
  match m with
  | [] => none
  | (k', v) :: rest => if k' = k then some v else mapGet rest k

/-- Map write `m[k] = v`. -/
def mapSet (m : BalanceMap) (k : String) (v : Balance) : BalanceMap :=
  (k, v) :: m.filter (fun e => decide (e.1 ≠ k))

/-- The fields of `Exchange` other than the client and the channels. -/
structure Exchange where
  symbolPair : SymbolPair
  priceFormat : String
  amountFormat : String
  balancePercent : ℚ
  baseBalance : ℚ
  quoteBalance : ℚ
  baseAvaiable : ℚ
  quoteAvaiable : ℚ
  askPrice : ℚ
  bidPrice : ℚ
  currentBalances : BalanceMap
  currentTicker : Option MarketTickerResponeBody
  config : Configuration
  limitation : ℚ
  keepRunning : Bool
  stat : OneHourlyLimitationResponeBody
deriving DecidableEq

/-! ## Observable events -/

/-- The five trigger channels of `Exchange`. -/
inductive Chan where
  | checkBalanceChan
  | balanceChan
  | exchangeChan
  | cancelOrderChan
  | checkLimitationChan
deriving DecidableEq

/-- Event of a worker: an API call, a send on one of the channels of `Exchange`, or a
wait on a ticker. -/
inductive Event where
  | GetAccounts
  | GetTicker
  | GetOrders (state : String)
  | Ping
  | CreateOrder (side : String) (nonce : Int) (market price amount : String)
  | CancelOrder (id : String)
  | OneHourlyStatistic
  | send (c : Chan) (v : Int)
  | exchangeLockChan (b : Bool)
  | cancelOrderLockChan (b : Bool)
  | checkBalanceTimeChan
  | balanceTimeChan
  | exchangeTimeChan
  | cancelOrderTimeChan
  | wait
deriving DecidableEq

/-- Sends on the five trigger channels. -/
def Event.isSignal : Event → Bool
  | .send _ _ => true
  | _ => false

/-- Sends on the channel `c`. -/
def Event.isSendOn (c : Chan) : Event → Bool
  | .send c' _ => decide (c' = c)
  | _ => false

/-- Calls of the exchange API client. -/
def Event.isApiCall : Event → Bool
  | .GetAccounts => true
  | .GetTicker => true
  | .GetOrders _ => true
  | .Ping => true
  | .CreateOrder _ _ _ _ _ => true
  | .CancelOrder _ => true
  | .OneHourlyStatistic => true
  | _ => false

/-- The trigger signals of a trace, in order. -/
def signals (tr : List Event) : List Event := tr.filter Event.isSignal

/-- The API calls of a trace, in order. -/
def apiCalls (tr : List Event) : List Event := tr.filter Event.isApiCall

/-- Result of running a worker: the shared state it leaves, what it did, and whether
it ended in a nil-pointer panic. -/
structure Run where
  state : Exchange
  trace : List Event
  panicked : Bool
deriving DecidableEq

/-! ## The outside world -/

/-- Replies of the outside world to one worker. -/
structure World where
  /-- Reply of `strconv.ParseFloat`: the value returned and whether `err != nil`. -/
  ParseFloat : String → ℚ × Bool
  /-- Result of `fmt.Sprintf` with a format of one `%.Nf` verb. -/
  Sprintf : String → ℚ → String
  /-- Reply of `GetAccounts`; `none` when it returns an error. -/
  GetAccounts : Option AccountResponeBody
  /-- Reply of `GetTicker`; `none` when it returns an error. -/
  GetTicker : Option MarketTickerResponeBody
  /-- Reply of `GetOrders` for the i-th scanned state. -/
  GetOrders : Nat → Option OrderListResponeBody
  /-- Reply of `Ping` for the i-th scanned state. -/
  Ping : Nat → Option Int
  /-- Value of `time.Now().UnixNano()` where a nonce is taken. -/
  now : Int
  /-- Milliseconds between the start of a balance check and the end of its fetches. -/
  elapsed : Int

/-! ## Machine integers -/

/-- Wrap-around of a 64-bit signed result. -/
def wrap64 (x : Int) : Int := (x + 9223372036854775808) % 18446744073709551616 - 9223372036854775808

/-- Whether `time.NewTicker(time.Duration(ms) * time.Millisecond)` panics: it does when
the duration, a 64-bit product in nanoseconds, is not positive. -/
def NewTicker_panics (ms : Int) : Bool := decide (wrap64 (ms * 1000000) ≤ 0)

/-! ## The arithmetic of `float64`

An operation of the source on `float64` values returns the exact result rounded to the
nearest `float64`, ties to the even significand.  A result beyond the largest
`float64` is rounded as if the exponent had no upper bound: the source would get an
infinity there.  No expression of the source has the shape `x * y + z`, which a
compiler may compute with a single rounding. -/

/-- The integer nearest to `a / b`, ties to the even one; `b` is positive. -/
def roundDiv (a : Int) (b : Nat) : Int :=
  let q := a / (b : Int)
  let r := a % (b : Int)
  if 2 * r < b then q
  else if (b : Int) < 2 * r then q + 1
  else if q % 2 = 0 then q
  else q + 1

/-- Halving `n` until it is below 2, at most `fuel` times: the number of halvings. -/
def log2Fuel : Nat → Nat → Nat
  | 0, _ => 0
  | fuel + 1, n => if n < 2 then 0 else log2Fuel fuel (n / 2) + 1

/-- The position of the leading bit of a positive `n`. -/
def log2 (n : Nat) : Nat := log2Fuel n n

/-- The binary exponent of the positive rational `n / d`: the `e` with
`2 ^ e ≤ n / d < 2 ^ (e + 1)`. -/
def binaryExponent (n d : Nat) : Int :=
  let e : Int := (log2 n : Int) - (log2 d : Int)
  if 0 ≤ e then (if 2 ^ e.toNat * d ≤ n then e else e - 1)
  else (if d ≤ n * 2 ^ (-e).toNat then e else e - 1)

/-- Rounding to `float64`: a significand of 53 bits in the normal range, and multiples
of `2 ^ (-1074)` below it. -/
def fl (x : ℚ) : ℚ :=
  if x.num = 0 then 0
  else
    let e := max (binaryExponent x.num.natAbs x.den - 52) (-1074)
    if 0 ≤ e then ((roundDiv x.num (x.den * 2 ^ e.toNat) * (2 : Int) ^ e.toNat : Int) : ℚ)
    else mkRat (roundDiv (x.num * (2 : Int) ^ (-e).toNat) x.den) (2 ^ (-e).toNat)

/-- The integer nearest to `t`, ties to the even one. -/
def rne (t : ℚ) : Int :=
  if t - ⌊t⌋ < 1 / 2 then ⌊t⌋
  else if 1 / 2 < t - ⌊t⌋ then ⌊t⌋ + 1
  else if ⌊t⌋ % 2 = 0 then ⌊t⌋
  else ⌊t⌋ + 1

/-- The exponent of the unit in the last place of the `float64` nearest to `x`. -/
def ulpExponent (x : ℚ) : Int := max (binaryExponent x.num.natAbs x.den - 52) (-1074)

/-- Addition of two `float64` values. -/
def fadd (a b : ℚ) : ℚ := fl (a + b)

/-- Subtraction of two `float64` values. -/
def fsub (a b : ℚ) : ℚ := fl (a - b)

/-- Multiplication of two `float64` values. -/
def fmul (a b : ℚ) : ℚ := fl (a * b)

/-- Division of two `float64` values. -/
def fdiv (a b : ℚ) : ℚ := fl (a / b)

/-- The conversion `float64(n)` of an integer. -/
def ofInt (n : Int) : ℚ := fl (n : ℚ)

/-! ## Quota Monitor: `CheckOneLimitation` -/

/-- The test `pct >= float64(OneHourlyLimitationPercent)` of the Check branch, with
`pct := (TradeMineOne + InviteMineOne) * 100.0 / p.limitation`.  A division by a limit
of zero gives an infinity of the sign of the dividend, which is at least the threshold
when it is positive, and NaN for a dividend of zero, which is not. -/
def quotaReached (p : Exchange) (d : OneHourlyLimitation) : Bool :=
  let dividend := fmul (fadd d.TradeMineOne d.InviteMineOne) 100
  if p.limitation = 0 then decide (0 < dividend)
  else decide (fdiv dividend p.limitation ≥ ofInt p.config.OneHourlyLimitationPercent)

/-- One iteration of the loop of `CheckOneLimitation`: `sign` is the value received,
`fetch` the reply of `OneHourlyStatistic`, `keepRunning` the local variable of that
name, which lives across iterations.  `none` is the panic of reading `stat.Data` when
it is nil. -/
def CheckOneLimitation_step (fetch : Option OneHourlyLimitationResponeBody) (sign : Int)
    (p : Exchange) (keepRunning : Bool) : Option (Exchange × Bool) :=
  let stat := match fetch with
    | some s => s
    | none => p.stat
  if sign = CheckLimitationType then
    match stat.Data with
    | none => none
    | some d =>
      let keepRunning := if quotaReached p d then false else true
      some ({ p with keepRunning := keepRunning, stat := stat }, keepRunning)
  else
    let p := { p with keepRunning := true }
    some ({ p with keepRunning := keepRunning, stat := stat }, keepRunning)

/-- The loop of `CheckOneLimitation` over the signals received, each with the reply
its fetch gets; the local `keepRunning` starts as `false`. -/
def CheckOneLimitation_loop (p : Exchange) (keepRunning : Bool) :
    List (Int × Option OneHourlyLimitationResponeBody) → Option (Exchange × Bool)
  | [] => some (p, keepRunning)
  | (sign, fetch) :: rest =>
    match CheckOneLimitation_step fetch sign p keepRunning with
    | none => none
    | some (p', k') => CheckOneLimitation_loop p' k' rest

/-- The goroutine `CheckOneLimitation` from its start. -/
def CheckOneLimitation (p : Exchange)
    (inbox : List (Int × Option OneHourlyLimitationResponeBody)) : Option (Exchange × Bool) :=
  CheckOneLimitation_loop p false inbox

/-! ## Balance Checker: `CheckAccountBalance` -/

/-- The loop `for _, v := range account.Data` that stores every balance under its
asset id. -/
def storeBalances (m : BalanceMap) (data : List Balance) : BalanceMap :=
  data.foldl (fun m v => mapSet m v.AssetUUID v) m

/-- The switch on `code` at the end of the worker of `CheckAccountBalance`. -/
def CheckAccountBalance_switch (code : Int) (p : Exchange) : List Event :=
  if code = 22 then [.send .exchangeChan NormalExchangeType]
  else if code = 12 then
    (if p.config.BalanceAccountBalance then [.send .balanceChan 0] else [])
  else if code = 21 then
    (if p.config.BalanceAccountBalance then [.send .balanceChan 0] else [])
  else if code = 11 then
    (if p.config.BalanceAccountBalance then [.send .balanceChan 0] else [])
  else []

/-- The second half of the worker of `CheckAccountBalance`: from the ticker fetch to
the switch.  The pause before the switch needs a ticker, and `time.NewTicker` panics
when the remaining time, in nanoseconds, has left the 64-bit range. -/
def CheckAccountBalance_ticker (w : World) (p : Exchange) : Run :=
  let p := { p with currentTicker := w.GetTicker }
  match w.GetTicker with
  | none => ⟨p, [.GetTicker], false⟩
  | some tk =>
    let bflag : Int := if p.baseAvaiable ≥ p.config.ExchangeAmount then 20 else 10
    match tk.Data with
    | none => ⟨p, [.GetTicker], true⟩
    | some data =>
      match data.Ask with
      | none => ⟨p, [.GetTicker], true⟩
      | some ask =>
        let p := { p with askPrice := (w.ParseFloat ask.Price).1 }
        if (w.ParseFloat ask.Price).2 then ⟨p, [.GetTicker], false⟩
        else
          match data.Bid with
          | none => ⟨p, [.GetTicker], true⟩
          | some bid =>
            let p := { p with bidPrice := (w.ParseFloat bid.Price).1 }
            if (w.ParseFloat bid.Price).2 then ⟨p, [.GetTicker], false⟩
            else
              let qflag : Int :=
                if p.quoteAvaiable ≥ fmul p.askPrice p.config.ExchangeAmount then 2 else 1
              let code := bflag + qflag
              if w.elapsed < p.config.CheckBalanceRelayTime then
                if NewTicker_panics (wrap64 (p.config.CheckBalanceRelayTime - w.elapsed)) then
                  ⟨p, [.GetTicker], true⟩
                else ⟨p, [.GetTicker, .wait] ++ CheckAccountBalance_switch code p, false⟩
              else ⟨p, [.GetTicker] ++ CheckAccountBalance_switch code p, false⟩

/-- The first half of the worker of `CheckAccountBalance`, after the call of
`GetAccounts`: the balances are stored and parsed. -/
def CheckAccountBalance_balances (w : World) (p : Exchange) : Run :=
  match w.GetAccounts with
  | none => ⟨p, [], false⟩
  | some account =>
    let p := { p with currentBalances := storeBalances p.currentBalances account.Data }
    match mapGet p.currentBalances p.symbolPair.BaseAsset.UUID with
    | none => ⟨p, [], true⟩
    | some base =>
      let p := { p with baseBalance := (w.ParseFloat base.Balance).1 }
      if (w.ParseFloat base.Balance).2 then ⟨p, [], false⟩
      else
        let baseLockedBalance := (w.ParseFloat base.LockedBalance).1
        if (w.ParseFloat base.LockedBalance).2 then ⟨p, [], false⟩
        else
          match mapGet p.currentBalances p.symbolPair.QuoteAsset.UUID with
          | none => ⟨p, [], true⟩
          | some quote =>
            let p := { p with quoteBalance := (w.ParseFloat quote.Balance).1 }
            if (w.ParseFloat quote.Balance).2 then ⟨p, [], false⟩
            else
              let quoteLockedBalance := (w.ParseFloat quote.LockedBalance).1
              if (w.ParseFloat quote.LockedBalance).2 then ⟨p, [], false⟩
              else
                let p := { p with baseAvaiable := fsub p.baseBalance baseLockedBalance }
                let p := { p with quoteAvaiable := fsub p.quoteBalance quoteLockedBalance }
                CheckAccountBalance_ticker w p

/-- Whether the pause before the switch of `CheckAccountBalance` panics: there is a
pause when the fetches took less than `CheckBalanceRelayTime`, and the ticker it waits
on panics when the remaining time, in nanoseconds, has left the 64-bit range. -/
def relayPanics (w : World) (p : Exchange) : Bool :=
  decide (w.elapsed < p.config.CheckBalanceRelayTime) &&
    NewTicker_panics (wrap64 (p.config.CheckBalanceRelayTime - w.elapsed))

/-- The worker goroutine of `CheckAccountBalance`: the account fetch, the two halves,
and the deferred send on `checkBalanceTimeChan`. -/
def CheckAccountBalance_worker (w : World) (p : Exchange) : Run :=
  let r := CheckAccountBalance_balances w p
  ⟨r.state, [.GetAccounts] ++ r.trace ++ [.checkBalanceTimeChan], r.panicked⟩

/-- One iteration of the loop of `CheckAccountBalance`, for a value received on
`checkBalanceChan`: the quota gate, then the worker. -/
def CheckAccountBalance_step (w : World) (p : Exchange) : Run :=
  let keepRunning := p.keepRunning
  if !keepRunning then ⟨p, [], false⟩
  else CheckAccountBalance_worker w p

/-! ## Scheduler jobs: `schedule.go` -/

/-- The runnable values of `schedule.go`, each with the channel it sends on. -/
inductive Runnable where
  | runExchange (signChan : Chan)
  | runCancelOrder (signChan : Chan)
  | runCheckLimitation (signChan : Chan) (sign : Int)
  | runKeepRunning (signChan : Chan) (sign : Int)
deriving DecidableEq

/-- One call of `Add` on the timer: the runnable, the number of seconds, and the third
argument; `Start` passes `true` for the single job of the next hour boundary and
`false` for its periodic jobs. -/
structure TimerJob where
  job : Runnable
  seconds : Nat
  once : Bool
deriving DecidableEq

/-- The jobs registered with the timer, in the order of their registration. -/
abbrev Timer := List TimerJob

/-- Registration `t.Add(job, seconds, once)`. -/
def Timer.Add (t : Timer) (job : Runnable) (seconds : Nat) (once : Bool) : Timer :=
  t ++ [⟨job, seconds, once⟩]

/-- Conversion `uint32(x)` of an `int64`. -/
def toUint32 (x : Int) : Nat := (x % 4294967296).toNat

/-- The method `Run` of each runnable: the timer after it and the sends it makes. -/
def Runnable.Run (t : Timer) : Runnable → Timer × List Event
  | .runExchange c => (t, [.send c NormalExchangeType])
  | .runCancelOrder c => (t, [.send c AllOrderType])
  | .runCheckLimitation c sign => (t, [.send c sign])
  | .runKeepRunning c sign =>
    (t.Add (.runCheckLimitation c sign) (toUint32 3600) false, [.send c sign])

/-- The registrations of `Start`; `second` and `minute` are those of the wall clock. -/
def Start (p : Exchange) (second minute : Int) : Timer × List Event :=
  let t : Timer := []
  let r : Timer × List Event :=
    if p.config.EnableCheckLimitation then
      let ts := second + minute * 60
      let next := 3600 - ts
      let t := t.Add (.runCheckLimitation .checkLimitationChan CheckLimitationType)
        (toUint32 (p.config.CheckLimitationInterval.tdiv 1000)) false
      let t := t.Add (.runKeepRunning .checkLimitationChan KeepRunningType) (toUint32 next) true
      (t, [.send .checkLimitationChan CheckLimitationType])
    else (t, [])
  let t := r.1.Add (.runExchange .checkBalanceChan) (toUint32 (p.config.ExchangeInterval.tdiv 1000)) false
  let t := t.Add (.runCancelOrder .cancelOrderChan)
    (toUint32 (p.config.CheckOrderInterval.tdiv 1000)) false
  (t, r.2)

/-! ## Balancer: `BalanceAccountBalance` -/

/-- The two-flag code of the Balancer, from the cached totals and the cached ask
price. -/
def BalanceAccountBalance_code (p : Exchange) : Int :=
  let bflag : Int := if p.baseBalance > p.config.ExchangeAmount then 20 else 10
  let qflag : Int := if p.quoteBalance > fmul p.askPrice p.config.ExchangeAmount then 2 else 1
  bflag + qflag

/-- The switch of the Balancer worker, without its deferred functions. -/
def BalanceAccountBalance_switch (w : World) (p : Exchange) : Run :=
  let code := BalanceAccountBalance_code p
  if code = 12 then
    let number := fmul (fmul p.askPrice p.config.ExchangeAmount) p.balancePercent
    if p.quoteAvaiable < number then
      ⟨p, [.send .cancelOrderChan AskOrderType], false⟩
    else
      match w.GetTicker with
      | none => ⟨p, [.GetTicker], false⟩
      | some currentTicker =>
        match currentTicker.Data with
        | none => ⟨p, [.GetTicker], true⟩
        | some data =>
          match data.Ask with
          | none => ⟨p, [.GetTicker], true⟩
          | some ask =>
            let askPrice := (w.ParseFloat ask.Price).1
            if (w.ParseFloat ask.Price).2 then ⟨p, [.GetTicker], false⟩
            else
              let price := w.Sprintf p.priceFormat askPrice
              let amount := w.Sprintf p.amountFormat (fmul p.config.ExchangeAmount p.balancePercent)
              ⟨p, [.GetTicker, .CreateOrder "BID" w.now p.symbolPair.UUID price amount], false⟩
  else if code = 22 then
    ⟨p, (if p.config.BalanceLockCancelOrder then [.cancelOrderLockChan false] else []) ++
      [.send .cancelOrderChan AllOrderType, .send .exchangeChan BalanceExchangeType], false⟩
  else if code = 21 then
    let number := fmul p.config.ExchangeAmount p.balancePercent
    if p.baseAvaiable < number then
      ⟨p, [.send .cancelOrderChan BidOrderType], false⟩
    else
      match w.GetTicker with
      | none => ⟨p, [.GetTicker], false⟩
      | some currentTicker =>
        match currentTicker.Data with
        | none => ⟨p, [.GetTicker], true⟩
        | some data =>
          match data.Bid with
          | none => ⟨p, [.GetTicker], true⟩
          | some bid =>
            let bidPrice := (w.ParseFloat bid.Price).1
            if (w.ParseFloat bid.Price).2 then ⟨p, [.GetTicker], false⟩
            else
              let price := w.Sprintf p.priceFormat bidPrice
              let amount := w.Sprintf p.amountFormat (fmul p.config.ExchangeAmount p.balancePercent)
              ⟨p, [.GetTicker, .CreateOrder "ASK" w.now p.symbolPair.UUID price amount], false⟩
  else if code = 11 then
    let amount := fdiv (fmul p.config.ExchangeAmount (ofInt p.config.BalanceExchangePercent)) 100
    ⟨{ p with config := { p.config with ExchangeAmount := amount } }, [], false⟩
  else ⟨p, [], false⟩

/-- The worker goroutine of `BalanceAccountBalance`: the lock of the Canceller when
configured, the switch, then the deferred functions in reverse order of their
registration. -/
def BalanceAccountBalance_worker (w : World) (p : Exchange) : Run :=
  let lock := p.config.BalanceLockCancelOrder
  let r := BalanceAccountBalance_switch w p
  ⟨r.state,
    (if lock then [.cancelOrderLockChan true] else []) ++ r.trace ++ [.balanceTimeChan] ++
      (if lock then [.cancelOrderLockChan false] else []),
    r.panicked⟩

/-! ## Canceller: `CancelOrders` -/

/-- The upper case of one character, `unicode.ToUpper`: the ASCII letters, and the two
letters outside ASCII whose upper case is an ASCII letter, the dotless i (U+0131) and
the long s (U+017F).  Every other character outside ASCII is left as it is: its upper
case is outside ASCII too, so that a comparison of the result with a word of ASCII
letters is decided as in the source. -/
def toUpperRune (c : Char) : Char :=
  if c = Char.ofNat 0x131 then 'I'
  else if c = Char.ofNat 0x17F then 'S'
  else c.toUpper

/-- The function `strings.ToUpper`, character by character. -/
def ToUpper (s : String) : String := String.mk (s.data.map toUpperRune)

/-- The first switch of the order loop: the variable `ot` after it.  It has no default
case, and `ot` is declared outside the loops. -/
def orderSide (ot : Int) (side : String) : Int :=
  if ToUpper side = BidOrderTypeName then BidOrderType
  else if ToUpper side = AskOrderTypeName then AskOrderType
  else ot

/-- The second switch of the order loop: whether it runs `continue`. -/
def sideSkipped (otype ot : Int) : Bool :=
  if otype = BidOrderType then decide (ot ≠ BidOrderType)
  else if otype = AskOrderType then decide (ot ≠ AskOrderType)
  else false

/-- The drift `dTime` of an order, in milliseconds: a 64-bit subtraction and an integer
division, which truncates toward zero. -/
def dTime (serverTime insertedAt : Int) : Int :=
  (wrap64 (serverTime - insertedAt)).tdiv 1000000

/-- The test `math.Abs(float64(dTime)) > cancelDtime`, on the integers: `|dTime|` is
below `2^53`, so its conversion to `float64` is exact, and the conversion of the
threshold keeps its order with such a value (`isStale_float`). -/
def isStale (cancelDtime serverTime insertedAt : Int) : Bool :=
  decide (|dTime serverTime insertedAt| > cancelDtime)

/-- The loop over the orders of one page: the value of `ot` after it, the events, and
whether it panicked on a nil node. -/
def scanOrders (otype cancelDtime serverTime : Int) : Int → List Edge → Int × List Event × Bool
  | ot, [] => (ot, [], false)
  | ot, order :: rest =>
    match order.Node with
    | none => (ot, [], true)
    | some node =>
      let ot := orderSide ot node.Side
      if sideSkipped otype ot then scanOrders otype cancelDtime serverTime ot rest
      else if isStale cancelDtime serverTime node.InsertedAt then
        let r := scanOrders otype cancelDtime serverTime ot rest
        (r.1, [Event.CancelOrder node.Id, Event.wait] ++ r.2.1, r.2.2)
      else scanOrders otype cancelDtime serverTime ot rest

/-- The loop over the configured order states; `i` counts the states scanned so far. -/
def scanStates (w : World) (otype cancelDtime : Int) : Nat → Int → List String → List Event × Bool
  | _, _, [] => ([], false)
  | i, ot, state :: rest =>
    match w.GetOrders i with
    | none =>
      let r := scanStates w otype cancelDtime (i + 1) ot rest
      ([Event.GetOrders (ToUpper state)] ++ r.1, r.2)
    | some orders =>
      match w.Ping i with
      | none =>
        let r := scanStates w otype cancelDtime (i + 1) ot rest
        ([Event.GetOrders (ToUpper state), Event.Ping] ++ r.1, r.2)
      | some serverTime =>
        match orders.Data with
        | none => ([Event.GetOrders (ToUpper state), Event.Ping], true)
        | some list =>
          let s := scanOrders otype cancelDtime serverTime ot list.Edges
          if s.2.2 then ([Event.GetOrders (ToUpper state), Event.Ping] ++ s.2.1, true)
          else
            let r := scanStates w otype cancelDtime (i + 1) s.1 rest
            ([Event.GetOrders (ToUpper state), Event.Ping] ++ s.2.1 ++ r.1, r.2)

/-- The worker goroutine of `CancelOrders` for the variant `otype`.  Its variables are
initialised first, among them the ticker of the pause between two cancels:
`time.NewTicker` panics there, before any send or call, when `CancelOrderInterval` is
not a positive duration. -/
def CancelOrders_worker (w : World) (otype : Int) (p : Exchange) : Run :=
  if NewTicker_panics p.config.CancelOrderInterval then ⟨p, [], true⟩
  else
    let lock := p.config.CancelOrderLockExchange
    let r := scanStates w otype p.config.CancelOrderDiffrentTime 0 0
      (p.config.CancelOrderTypes.getD [])
    ⟨p,
      (if lock then [.exchangeLockChan true] else []) ++ r.1 ++ [.cancelOrderTimeChan] ++
        (if lock then [.exchangeLockChan false] else []),
      r.2⟩

/-! ## The loops with a pause lock: `Exchange` and `CancelOrders` -/

/-- What a loop with a lock channel and a trigger channel receives. -/
inductive Msg where
  | lock (b : Bool)
  | trigger (v : Int)
deriving DecidableEq

/-- One iteration of the select of `CancelOrders`: the variable `lock` after it and
the argument of the worker it starts, if it starts one. -/
def CancelOrders_step (lock : Bool) : Msg → Bool × Option Int
  | .lock b => (b, none)
  | .trigger orderType => if lock then (lock, none) else (lock, some orderType)

/-- The loop of `CancelOrders` over the messages received: the arguments of the
workers started, in order, and the final value of `lock`. -/
def CancelOrders_loop (lock : Bool) : List Msg → List Int × Bool
  | [] => ([], lock)
  | m :: rest =>
    let s := CancelOrders_step lock m
    let r := CancelOrders_loop s.1 rest
    (s.2.toList ++ r.1, r.2)

/-- The goroutine `CancelOrders` from its start, where `lock` is `false`. -/
def CancelOrders (inbox : List Msg) : List Int × Bool := CancelOrders_loop false inbox

/-- One iteration of the select of `Exchange`: the variable `lock` after it and the
argument of the worker it starts, if it starts one. -/
def Exchange_step (lock : Bool) : Msg → Bool × Option Int
  | .lock b => (b, none)
  | .trigger ecode => if lock then (lock, none) else (lock, some ecode)

/-- The loop of `Exchange` over the messages received: the arguments of the workers
started, in order, and the final value of `lock`. -/
def Exchange_loop (lock : Bool) : List Msg → List Int × Bool
  | [] => ([], lock)
  | m :: rest =>
    let s := Exchange_step lock m
    let r := Exchange_loop s.1 rest
    (s.2.toList ++ r.1, r.2)

/-- The goroutine `Exchange` from its start, where `lock` is `false`. -/
def Exchange_run (inbox : List Msg) : List Int × Bool := Exchange_loop false inbox

/-- The API calls the Canceller makes for an inbox, each started worker run in
isolation on the same replies. -/
def CancelOrders_apiCalls (w : World) (p : Exchange) (inbox : List Msg) : List Event :=
  ((CancelOrders inbox).1.map (fun otype => apiCalls (CancelOrders_worker w otype p).trace)).flatten

/-! ## Concrete inputs -/

/-- A configuration that `Check` accepts: threshold 80, trade amount 1, rebalancing
enabled. -/
def exampleConfig : Configuration where
  EndPoint := "https://b1.run/api/v2"
  AppKey := "key"
  AppSecret := "secret"
  SymbolPair := "ONE-USDT"
  OneHourlyLimitationPercent := 80
  CheckLimitationInterval := 60000
  EnableCheckLimitation := true
  ExchangeAmount := 1
  ExchangeInterval := 5000
  RequestTimeout := 5000
  BalanceAccountBalance := true
  BalancePercent := 50
  BalanceExchange := true
  BalanceExchangePercent := 50
  ExpectDiffrentValue := 0
  CheckOrderInterval := 10000
  CheckOrderNumber := 20
  CancelOrderDiffrentTime := 5
  CancelOrderTypes := some ["PENDING"]
  CancelOrderInterval := 1000
  CancelOrderLockExchange := false
  CheckBalanceRelayTime := 0
  CreateExchangeClientWaitTime := 2000
  BalanceLockCancelOrder := false
  LogFile := "log/b1.log"
  LogLevel := "error"

/-- A state as `NewExchange` builds it, for an hourly limit of 100. -/
def exampleExchange : Exchange where
  symbolPair := ⟨"m1", 8, ⟨"q1", "USDT", "Tether"⟩, "ONE-USDT", 4, ⟨"b1", "ONE", "One"⟩⟩
  priceFormat := "%.4f"
  amountFormat := "%.8f"
  balancePercent := 1 / 2
  baseBalance := 0
  quoteBalance := 0
  baseAvaiable := 0
  quoteAvaiable := 0
  askPrice := 0
  bidPrice := 0
  currentBalances := []
  currentTicker := some ⟨none⟩
  config := exampleConfig
  limitation := 100
  keepRunning := true
  stat := ⟨none⟩

/-- A parser that knows the decimal strings of the examples. -/
def exampleParseFloat (s : String) : ℚ × Bool :=
  if s = "0.5" then (1 / 2, false)
  else if s = "0" then (0, false)
  else if s = "1000" then (1000, false)
  else if s = "100" then (100, false)
  else if s = "99" then (99, false)
  else (0, true)

/-- A world in which the account holds 0.5 base and 1000 quote, nothing locked, and
the ticker asks 100. -/
def exampleWorld : World where
  ParseFloat := exampleParseFloat
  Sprintf := fun _ _ => ""
  GetAccounts := some ⟨[⟨"b1", "0.5", "0"⟩, ⟨"q1", "1000", "0"⟩]⟩
  GetTicker := some ⟨some ⟨"m1", some ⟨"99", "1"⟩, some ⟨"100", "1"⟩⟩⟩
  GetOrders := fun _ => none
  Ping := fun _ => none
  now := 1527665262168391000
  elapsed := 0

/-- Hourly statistics with 50 of trade reward and 30 of invite reward. -/
def exampleStat : OneHourlyLimitationResponeBody :=
  ⟨some ⟨50, 0, "2018-07-31 18:30:19 +0800", 30⟩⟩

/-! ## The tables of the specification -/

/-- The two-flag code of section 4.2 of the specification, from the available base,
the available quote, the ask price and the trade amount. -/
def specCode (baseAvailable quoteAvailable askPrice tradeAmount : ℚ) : Int :=
  (if baseAvailable ≥ tradeAmount then 20 else 10) +
    (if quoteAvailable ≥ askPrice * tradeAmount then 2 else 1)

/-- The dispatch table of section 4.2 of the specification: 22 goes to the Trader with
the Normal variant; 12, 21 and 11 go to the Balancer when rebalancing is enabled. -/
def specDispatch (code : Int) (rebalancing : Bool) : List Event :=
  if code = 22 then [Event.send Chan.exchangeChan NormalExchangeType]
  else if rebalancing then [Event.send Chan.balanceChan 0]
  else []

/-- The lock value of a message, when it is one. -/
def Msg.lockValue : Msg → Option Bool
  | .lock b => some b
  | .trigger _ => none

/-- The most recently consumed lock value of the specification: the last lock value
among the messages, and `false` (unlocked) when there is none. -/
def lastLock (msgs : List Msg) : Bool :=
  ((msgs.filterMap Msg.lockValue).getLast?).getD false

/-- A state at the boundary: the cached base total 1 is exactly the trade amount 1;
the quote total 1000 exceeds ask 100 times the trade amount; nothing is available. -/
def boundaryExchange : Exchange :=
  { exampleExchange with baseBalance := 1, quoteBalance := 1000, askPrice := 100 }

/-- A state with the base total 2 above the trade amount 1, and the same quote side as
`boundaryExchange`. -/
def aboveExchange : Exchange :=
  { exampleExchange with baseBalance := 2, quoteBalance := 1000, askPrice := 100 }

/-- A world whose scan returns one order of side "SELL", inserted at time 0, with a
server time of ten seconds. -/
def sellWorld : World :=
  { exampleWorld with
    GetOrders := fun _ => some ⟨some ⟨[⟨some ⟨"o1", "SELL", "PENDING", 0⟩, "c1"⟩]⟩⟩,
    Ping := fun _ => some 10000000000 }

/-- The state after a Check that found 80 percent of the quota used against a
threshold of 80: `keepRunning` is false and the statistics are stored. -/
def exhaustedExchange : Exchange :=
  { exampleExchange with keepRunning := false, stat := exampleStat }

/-! ## Trader: the worker of `Exchange` -/

/-- The worker goroutine of `Exchange` for the variant `code`.  The two orders are sent
by two goroutines of their own, started in this order; the deferred send on
`exchangeTimeChan` ends the trace. -/
def Exchange_worker (w : World) (code : Int) (p : Exchange) : Run :=
  let a : ℚ :=
    if code = NormalExchangeType then ofInt 1
    else fdiv (ofInt p.config.BalanceExchangePercent) 100
  let r : List Event × Bool :=
    match w.GetTicker with
    | none => ([.GetTicker], false)
    | some currentTicker =>
      match currentTicker.Data with
      | none => ([.GetTicker], true)
      | some data =>
        match data.Ask with
        | none => ([.GetTicker], true)
        | some ask =>
          let askPrice := (w.ParseFloat ask.Price).1
          if (w.ParseFloat ask.Price).2 then ([.GetTicker], false)
          else
            let price := w.Sprintf p.priceFormat |fsub askPrice p.config.ExpectDiffrentValue|
            let amount := w.Sprintf p.amountFormat (fmul p.config.ExchangeAmount a)
            let nonce := w.now
            ([.GetTicker, .CreateOrder "BID" nonce p.symbolPair.UUID price amount,
              .CreateOrder "ASK" (wrap64 (nonce + 1)) p.symbolPair.UUID price amount], false)
  ⟨p, r.1 ++ [.exchangeTimeChan], r.2⟩

/-- Calls of `CreateOrder`. -/
def Event.isCreateOrder : Event → Bool
  | .CreateOrder _ _ _ _ _ => true
  | _ => false

/-! ## Formatting: `fmt.Sprintf` -/

/-- The decimal digits of `m`, most significant first, from at most `fuel` divisions
by ten. -/
def digitsFuel : Nat → Nat → List Char
  | 0, _ => []
  | fuel + 1, m =>
    if m < 10 then [Nat.digitChar m]
    else digitsFuel fuel (m / 10) ++ [Nat.digitChar (m % 10)]

/-- The verb `%d` on a natural number. -/
def natChars (m : Nat) : List Char := digitsFuel (m + 1) m

/-- The verb `%d` on an integer. -/
def intChars (n : Int) : List Char :=
  if n < 0 then '-' :: natChars n.natAbs else natChars n.natAbs

/-- The format `fmt.Sprintf("%%.%df", scale)` builds: a percent sign, a point, the
scale in decimal, and the verb `f`. -/
def fixedFormat (scale : Int) : String := String.mk (['%', '.'] ++ intChars scale ++ ['f'])

/-- The function `parsenum` of package `fmt` on a run of digits, from the number `num`
read so far: it gives up when that number has passed a million. -/
def parsenum : Nat → List Char → Option Nat
  | num, [] => some num
  | num, c :: rest =>
    if num > 1000000 then none else parsenum (num * 10 + (c.toNat - '0'.toNat)) rest

/-- The last `n` decimal digits of `m`, padded with zeros. -/
def fracChars : Nat → Nat → List Char
  | 0, _ => []
  | n + 1, m => fracChars n (m / 10) ++ [Nat.digitChar (m % 10)]

/-- The verb `%.Nf` with `N = prec` on a finite `float64`: the value rounded to `prec`
decimal places, ties to the even digit, with a minus sign when it is negative, and
with no point when `prec` is 0. -/
def formatFixed (prec : Nat) (x : ℚ) : String :=
  let m := (roundDiv ((x.num.natAbs : Int) * 10 ^ prec) x.den).toNat
  String.mk ((if x < 0 then ['-'] else []) ++ natChars (m / 10 ^ prec) ++
    (if prec = 0 then [] else '.' :: fracChars prec m))

/-- The function `fmt.Sprintf` on one `float64`, for a format that is a percent sign, a
point, a run of digits and the verb `f`.  A precision that `parsenum` gives up on makes
the verb unreadable.  A format of another shape is outside the model: the result is
the empty string. -/
def Sprintf (format : String) (x : ℚ) : String :=
  match format.data with
  | '%' :: '.' :: rest =>
    match rest.dropWhile Char.isDigit with
    | ['f'] =>
      match parsenum 0 (rest.takeWhile Char.isDigit) with
      | some prec => formatFixed prec x
      | none => "%!(NOVERB)"
    | _ => ""
  | _ => ""

/-- The number of characters after the decimal point, 0 when there is no point. -/
def decimalPlaces (s : String) : Nat :=
  match s.data.dropWhile (fun c => c != '.') with
  | [] => 0
  | _ :: rest => rest.length

/-! ## Construction: `NewExchange` -/

/-- The constructor `NewExchange`: `markets` is the reply of `GetAllMarkets`, `lmt` the
data of the reply of `OneLimitation`; `none` is the error it returns. -/
def NewExchange (cfg : Configuration) (markets : Option (List SymbolPair)) (lmt : Option ℚ) :
    Option Exchange :=
  match markets with
  | none => none
  | some data =>
    let pair := ToUpper cfg.SymbolPair
    match (data.filter (fun m => decide (m.Name = pair))).getLast? with
    | none => none
    | some sp =>
      match lmt with
      | none => none
      | some l =>
        some {
          symbolPair := sp
          priceFormat := fixedFormat sp.BaseScale
          amountFormat := fixedFormat sp.QuoteScale
          balancePercent := fdiv (ofInt cfg.BalancePercent) 100
          baseBalance := 0
          quoteBalance := 0
          baseAvaiable := 0
          quoteAvaiable := 0
          askPrice := 0
          bidPrice := 0
          currentBalances := []
          currentTicker := some ⟨none⟩
          config := cfg
          limitation := fdiv l 24
          keepRunning := true
          stat := ⟨none⟩ }

/-! ## Validation: `Configuration.Check` -/

def OrderPendingState : String := "PENDING"
def OrderFilledState : String := "FILLED"
def OrderCanceledState : String := "CANCLED"

/-- The switch of the loop over `CancelOrderTypes`: whether the entry reaches a
`break` and not the default case. -/
def orderStateKnown (v : String) : Bool :=
  decide (ToUpper v = OrderCanceledState) || decide (ToUpper v = OrderFilledState) ||
    decide (ToUpper v = OrderPendingState)

/-- The defaults `Check` fills in before it returns nil. -/
def fillDefaults (p : Configuration) : Configuration :=
  let p := if p.CreateExchangeClientWaitTime = 0 then
    { p with CreateExchangeClientWaitTime := 2000 } else p
  let p := if p.LogFile = "" then { p with LogFile := "log/b1.log" } else p
  let p := if p.LogLevel = "" then { p with LogLevel := "error" } else p
  p

/-- The method `Check`: the error it returns, or the configuration it leaves when it
returns nil. -/
def Configuration.Check (p : Configuration) : Except String Configuration :=
  if p.EndPoint = "" then .error "endpoint必须设置"
  else if p.AppKey = "" then .error "appkey必须设置"
  else if p.AppSecret = "" then .error "appsecret必须设置"
  else if p.SymbolPair = "" then .error "symbol 交易対必须设置"
  else if p.OneHourlyLimitationPercent ≤ 0 ∨ p.OneHourlyLimitationPercent > 100 then
    .error "每小时挖矿限量百分比必须大于0,同时小于等于100"
  else if p.CheckLimitationInterval = 0 then .error "检查每小时挖矿限量时间间隔不能为0"
  else if p.ExchangeAmount = 0 then .error "sellnumber 不能为0或者未设置"
  else if p.BalancePercent ≤ 0 ∨ p.BalancePercent > 100 then
    .error "balance_percent 资产平衡时交易数量占exchange_amount百分比必须大于0小于等于100"
  else if p.BalanceExchangePercent ≤ 0 ∨ p.BalanceExchangePercent > 100 then
    .error "balance_percent 资产不足时交易数量占exchange_amount百分比必须大于0小于等于100"
  else if p.CancelOrderDiffrentTime = 0 then
    .error "cancel_order_diffrent_time 订单创建时间与交易所服务器时间差不能等于0或则未设置"
  else if p.ExchangeInterval = 0 then .error "exchange_interval 自动交易频率不能为0或者未设置"
  else if p.CheckOrderNumber = 0 then .error "check_order_number 订单列表数量不能为0或者未设置"
  else
    match p.CancelOrderTypes with
    | none => .error "cancel_order_type 必须设置"
    | some types =>
      if types.length = 0 then .error "order_type 不能为空"
      else if types.all orderStateKnown then .ok (fillDefaults p)
      else .error "cancel_order_type must be CANCLED/PENDING/FILLED"

/-- Whether `Check` returns nil. -/
def Configuration.accepted (p : Configuration) : Bool :=
  match p.Check with
  | .ok _ => true
  | .error _ => false

/-! ## More tables of the specification and concrete inputs -/

/-- The order states of the specification: an entry, compared without regard to letter
case, is one of PENDING, FILLED or CANCELED. -/
def specOrderState (v : String) : Bool :=
  decide (ToUpper v = "PENDING") || decide (ToUpper v = "FILLED") ||
    decide (ToUpper v = "CANCELED")

/-- What the balance map holds for the asset `k` once the reply `data` is stored in the
map `m`: the last entry of the reply for `k`, and what `m` held when the reply has
none. -/
def fetchedBalance (m : BalanceMap) (data : List Balance) (k : String) : Option Balance :=
  match (data.filter (fun b => decide (b.AssetUUID = k))).getLast? with
  | some b => some b
  | none => mapGet m k

/-- Every step of a balance check succeeds: both fetches, both map reads, and the six
parses. -/
def cycleSucceeds (w : World) (p : Exchange) : Prop :=
  ∃ account base quote data ask bid,
    w.GetAccounts = some account ∧
    fetchedBalance p.currentBalances account.Data p.symbolPair.BaseAsset.UUID = some base ∧
    fetchedBalance p.currentBalances account.Data p.symbolPair.QuoteAsset.UUID = some quote ∧
    (w.ParseFloat base.Balance).2 = false ∧
    (w.ParseFloat base.LockedBalance).2 = false ∧
    (w.ParseFloat quote.Balance).2 = false ∧
    (w.ParseFloat quote.LockedBalance).2 = false ∧
    w.GetTicker = some ⟨some data⟩ ∧
    data.Ask = some ask ∧ data.Bid = some bid ∧
    (w.ParseFloat ask.Price).2 = false ∧
    (w.ParseFloat bid.Price).2 = false

/-- A world whose account reply carries a base total that does not parse. -/
def badTotalWorld : World :=
  { exampleWorld with GetAccounts := some ⟨[⟨"b1", "abc", "0"⟩, ⟨"q1", "1000", "0"⟩]⟩ }

/-- A world whose account fetch fails. -/
def noAccountWorld : World :=
  { exampleWorld with GetAccounts := none }

/-- The world of the examples with the renderings of `fmt.Sprintf`. -/
def formatWorld : World :=
  { exampleWorld with Sprintf := Sprintf }

/-- A state with code 12 whose available quote, 1000, covers the target of 50:
cached base total 0, quote total 1000, cached ask 100, trade amount 1, balance
percent one half. -/
def fundedExchange : Exchange :=
  { exampleExchange with quoteBalance := 1000, askPrice := 100, quoteAvaiable := 1000 }

/-- A state with code 21 whose available base, 5, covers the target of one half. -/
def fundedBaseExchange : Exchange :=
  { exampleExchange with baseBalance := 5, baseAvaiable := 5, askPrice := 100 }

/-- A state with code 11: nothing on either side. -/
def shortExchange : Exchange :=
  { exampleExchange with askPrice := 100 }

/-- The configuration of the examples with the single order state `CANCELED`. -/
def canceledConfig : Configuration :=
  { exampleConfig with CancelOrderTypes := some ["CANCELED"] }

/-- The configuration of the examples with the single order state `CANCLED`. -/
def cancledConfig : Configuration :=
  { exampleConfig with CancelOrderTypes := some ["CANCLED"] }

/-! ## The lock: accesses to the shared fields

Each function is read once more, this time for the fields of `Exchange` it reads and
writes and for its calls of `Lock`, `Unlock`, `RLock` and `RUnlock`, in program order.
Fields of the configuration that nothing writes after start-up are left out. -/

/-- The fields of `Exchange` that are read or written after start-up;
`ExchangeAmount` is `config.ExchangeAmount`, the trade amount. -/
inductive Field where
  | keepRunning
  | currentBalances
  | baseBalance
  | quoteBalance
  | baseAvaiable
  | quoteAvaiable
  | askPrice
  | bidPrice
  | ExchangeAmount
  | currentTicker
  | balancePercent
  | limitation
  | stat
deriving DecidableEq

/-- The cross-duty fields the specification lists: `keepRunning`, the balance map, the
totals and available amounts, the ask and bid price, the trade amount. -/
def Field.crossDuty : Field → Bool
  | .currentTicker => false
  | .balancePercent => false
  | .limitation => false
  | .stat => false
  | _ => true

/-- One step of a goroutine that matters to the lock: a call on the mutex, or a read or
a write of a field. -/
inductive Access where
  | Lock
  | Unlock
  | RLock
  | RUnlock
  | read (f : Field)
  | write (f : Field)
deriving DecidableEq

/-- How the goroutine holds the mutex. -/
inductive Held where
  | free
  | shared
  | exclusive
deriving DecidableEq

/-- The hold after a step. -/
def Held.after (h : Held) : Access → Held
  | .Lock => .exclusive
  | .Unlock => .free
  | .RLock => .shared
  | .RUnlock => .free
  | _ => h

/-- Whether a step breaks the discipline of the specification: a read of a cross-duty
field with the mutex not held, or a write of one with the mutex not held for
writing. -/
def Access.unguarded (h : Held) : Access → Bool
  | .read f => f.crossDuty && decide (h = Held.free)
  | .write f => f.crossDuty && decide (h ≠ Held.exclusive)
  | _ => false

/-- Whether a step reads or writes a cross-duty field. -/
def Access.crossDuty : Access → Bool
  | .read f => f.crossDuty
  | .write f => f.crossDuty
  | _ => false

/-- The steps of a goroutine that break the discipline, in order. -/
def unguarded (h : Held) : List Access → List Access
  | [] => []
  | a :: rest =>
    (if a.unguarded h then [a] else []) ++ unguarded (h.after a) rest

/-- The discipline of the specification for one goroutine that starts without the
mutex: no step breaks it. -/
def disciplined (l : List Access) : Bool := (unguarded Held.free l).isEmpty

/-- The accesses of one iteration of `CheckOneLimitation` (lines 173 to 200):
`fetchFailed` is `err != nil` at line 175. -/
def CheckOneLimitation_accesses (sign : Int) (fetchFailed : Bool) : List Access :=
  (if fetchFailed then [.read .stat] else []) ++
  (if sign = CheckLimitationType then [.read .limitation] else [.write .keepRunning]) ++
  [.Lock, .write .keepRunning, .Unlock, .write .stat]

/-- The accesses of the gate of `CheckAccountBalance` (lines 214 to 216). -/
def CheckAccountBalance_gate_accesses : List Access :=
  [.RLock, .read .keepRunning, .RUnlock]

/-- The accesses of the worker of `CheckAccountBalance` on the path where every step
succeeds (lines 254 to 319); a cycle that fails makes a prefix of them. -/
def CheckAccountBalance_worker_accesses : List Access :=
  [.write .currentBalances,
   .read .currentBalances, .read .currentBalances,
   .write .baseBalance,
   .write .quoteBalance,
   .read .baseBalance, .write .baseAvaiable,
   .read .quoteBalance, .write .quoteAvaiable,
   .read .baseBalance, .read .baseAvaiable,
   .read .quoteBalance, .read .quoteAvaiable,
   .write .currentTicker,
   .read .baseAvaiable, .read .ExchangeAmount,
   .read .currentTicker, .write .askPrice,
   .read .currentTicker, .write .bidPrice,
   .read .askPrice,
   .read .quoteAvaiable, .read .askPrice, .read .ExchangeAmount]

/-- The accesses of the worker of `Exchange` on the path where every step succeeds
(line 444). -/
def Exchange_worker_accesses : List Access :=
  [.read .ExchangeAmount]

/-- The accesses of the worker of `BalanceAccountBalance` (lines 618 to 709) in the
branch `code`; `short` is the outcome of the comparison of the available funds with the
target in branches 12 and 21. -/
def BalanceAccountBalance_accesses (code : Int) (short : Bool) : List Access :=
  [.read .baseBalance, .read .ExchangeAmount,
   .read .quoteBalance, .read .askPrice, .read .ExchangeAmount] ++
  (if code = 12 then
    [.read .askPrice, .read .ExchangeAmount, .read .balancePercent, .read .quoteAvaiable] ++
      (if short then [] else [.read .ExchangeAmount, .read .balancePercent])
  else if code = 22 then []
  else if code = 21 then
    [.read .ExchangeAmount, .read .balancePercent, .read .baseAvaiable] ++
      (if short then [] else [.read .ExchangeAmount, .read .balancePercent])
  else if code = 11 then
    [.read .ExchangeAmount, .read .ExchangeAmount, .read .ExchangeAmount,
      .write .ExchangeAmount]
  else [])

/-- The accesses of the status handler `ServeHTTP` (lines 27 and 28 of
`schedule.go`). -/
def ServeHTTP_accesses : List Access :=
  [.read .balancePercent, .read .baseBalance, .read .quoteBalance, .read .baseAvaiable,
   .read .quoteAvaiable, .read .askPrice, .read .bidPrice, .read .currentTicker,
   .read .limitation, .read .keepRunning, .read .stat]

/-! ## What the Canceller receives from a Balancer worker -/

/-- The message an event is for the loop of `CancelOrders`, when it is one. -/
def Event.cancellerMsg : Event → Option Msg
  | .cancelOrderLockChan b => some (.lock b)
  | .send .cancelOrderChan v => some (.trigger v)
  | _ => none

/-- The messages of a trace for the loop of `CancelOrders`, in the order they are
sent. -/
def cancellerMsgs (tr : List Event) : List Msg := tr.filterMap Event.cancellerMsg

/-- The configuration of the examples with `BalanceLockCancelOrder` set. -/
def lockingConfig : Configuration :=
  { exampleConfig with BalanceLockCancelOrder := true }

/-- The boundary state, code 12 with nothing available, under `lockingConfig`. -/
def lockingShortExchange : Exchange :=
  { boundaryExchange with config := lockingConfig }

/-- The state of code 22 under `lockingConfig`. -/
def lockingAboveExchange : Exchange :=
  { aboveExchange with config := lockingConfig }

/-! ## Concrete inputs at the limits of `float64` -/

/-- Hourly statistics with a trade reward of 0.3, the `float64` nearest to it, and no
invite reward. -/
def roundingStat : OneHourlyLimitationResponeBody :=
  ⟨some ⟨fl (3 / 10), 0, "2018-07-31 18:30:19 +0800", 0⟩⟩

/-- A state with an hourly limit of 1 and a threshold of 30 percent. -/
def roundingExchange : Exchange :=
  { exampleExchange with
    limitation := 1, config := { exampleConfig with OneHourlyLimitationPercent := 30 } }

/-- Hourly statistics with a trade reward of 175 and no invite reward. -/
def dailyStat : OneHourlyLimitationResponeBody :=
  ⟨some ⟨175, 0, "2018-07-31 18:30:19 +0800", 0⟩⟩

/-- A state as `NewExchange` builds it for a daily limit of 7000, with a threshold of
60 percent. -/
def dailyExchange : Exchange :=
  { exampleExchange with
    limitation := fdiv 7000 24, config := { exampleConfig with OneHourlyLimitationPercent := 60 } }

/-- The two-flag code of section 4.2 of the specification in the arithmetic of the
program: an available amount is the rounded difference of total and locked, and the
requirement of the quote side is the rounded product of ask price and trade amount. -/
def roundedCode (baseTotal baseLocked quoteTotal quoteLocked askPrice tradeAmount : ℚ) : Int :=
  (if fsub baseTotal baseLocked ≥ tradeAmount then 20 else 10) +
    (if fsub quoteTotal quoteLocked ≥ fmul askPrice tradeAmount then 2 else 1)

/-- A parser that knows the decimal strings of the examples of this section; each is
parsed to the `float64` nearest to it. -/
def roundingParseFloat (s : String) : ℚ × Bool :=
  if s = "0" then (0, false)
  else if s = "1" then (1, false)
  else if s = "1000" then (1000, false)
  else if s = "0.1" then (fl (1 / 10), false)
  else if s = "0.3" then (fl (3 / 10), false)
  else if s = "0.09" then (fl (9 / 100), false)
  else if s = "0.06999999999999999" then (fl (6999999999999999 / 100000000000000000), false)
  else (0, true)

/-- A world in which the account holds 1 base and 0.06999999999999999 quote, nothing
locked, and the ticker asks 0.1. -/
def roundingWorld : World :=
  { exampleWorld with
    ParseFloat := roundingParseFloat,
    Sprintf := Sprintf,
    GetAccounts := some ⟨[⟨"b1", "1", "0"⟩, ⟨"q1", "0.06999999999999999", "0"⟩]⟩,
    GetTicker := some ⟨some ⟨"m1", some ⟨"0.09", "1"⟩, some ⟨"0.1", "1"⟩⟩⟩ }

/-- A state with a trade amount of 0.7. -/
def tradeExchange : Exchange :=
  { exampleExchange with config := { exampleConfig with ExchangeAmount := fl (7 / 10) } }

/-- A world in which the account holds 0.3 base, of which 0.1 is locked, and 1000
quote, and the ticker asks 0.1. -/
def lockedWorld : World :=
  { roundingWorld with
    GetAccounts := some ⟨[⟨"b1", "0.3", "0.1"⟩, ⟨"q1", "1000", "0"⟩]⟩ }

/-- A state with a trade amount of 0.2. -/
def fifthExchange : Exchange :=
  { exampleExchange with config := { exampleConfig with ExchangeAmount := fl (1 / 5) } }

/-- A state whose balance map holds older balances: 1000 base and no quote. -/
def staleExchange : Exchange :=
  { exampleExchange with
    currentBalances := [("q1", ⟨"q1", "0", "0"⟩), ("b1", ⟨"b1", "1000", "0"⟩)] }

/-- A state with a cached quote total of 0.07, a cached ask price of 0.1 and a trade
amount of 0.7, each the `float64` nearest to it, and no base. -/
def roundingTotalsExchange : Exchange :=
  { tradeExchange with quoteBalance := fl (7 / 100), askPrice := fl (1 / 10) }

/-- A state with code 12 whose available quote is 0.06999999999999999, the `float64`
product of the cached ask price 0.1 and the trade amount 0.7, under a balance percent
of 100. -/
def roundingTargetExchange : Exchange :=
  { roundingTotalsExchange with
    balancePercent := fdiv (ofInt 100) 100, quoteAvaiable := fmul (fl (1 / 10)) (fl (7 / 10)) }

/-- A state with code 12 as `NewExchange` builds it for a balance percent of 7: cached
ask price 100, trade amount 1, quote total 1000, of which 7 are available. -/
def sevenExchange : Exchange :=
  { exampleExchange with
    balancePercent := fdiv (ofInt 7) 100, quoteBalance := 1000, askPrice := 100,
    quoteAvaiable := 7 }

/-- A state with code 21 as `NewExchange` builds it for a balance percent of 7: trade
amount 100, base total 1000, of which 7 are available, and no quote. -/
def sevenBaseExchange : Exchange :=
  { exampleExchange with
    balancePercent := fdiv (ofInt 7) 100, baseBalance := 1000, baseAvaiable := 7,
    askPrice := 100, config := { exampleConfig with ExchangeAmount := 100 } }

/-- The state `sevenExchange` with 7.000000000000001 quote available, the target the
program computes there. -/
def sevenFundedExchange : Exchange :=
  { sevenExchange with quoteAvaiable := fmul (fmul 100 1) (fdiv (ofInt 7) 100) }

/-- The state `sevenBaseExchange` with 7.000000000000001 base available, the target the
program computes there. -/
def sevenBaseFundedExchange : Exchange :=
  { sevenBaseExchange with baseAvaiable := fmul 100 (fdiv (ofInt 7) 100) }

/-- A world whose ticker carries a bid price that does not parse; the account holds 0.5
base and 1000 quote and the ticker asks 100. -/
def badBidWorld : World :=
  { exampleWorld with GetTicker := some ⟨some ⟨"m1", some ⟨"abc", "1"⟩, some ⟨"100", "1"⟩⟩⟩ }

/-- A state with code 12 as `NewExchange` builds it for a balance percent of 18: cached
ask price 0.1, trade amount 0.1, quote total 1, and an available quote of
0.00180000000000000016, the `float64` just below the target the program computes,
0.00180000000000000038; the exact product is 0.00180000000000000013. -/
def roundingShortExchange : Exchange :=
  { exampleExchange with
    balancePercent := fdiv (ofInt 18) 100, quoteBalance := 1, askPrice := fl (1 / 10),
    quoteAvaiable := 8301034833169299 / 4611686018427387904,
    config := { exampleConfig with ExchangeAmount := fl (1 / 10) } }

/-! # Theorems -/
namespace B1Exchange

/-! ## The arithmetic of `float64`

The rounding `fl` is the rounding to the nearest `float64`, ties to even: its result is
a `float64`, no multiple of the unit in the last place is nearer, a `float64` is its own
rounding, and the rounding keeps the order. -/

theorem log2Fuel_spec (fuel n : Nat) (h1 : 1 ≤ n) (h2 : n ≤ fuel) :
    2 ^ log2Fuel fuel n ≤ n ∧ n < 2 ^ (log2Fuel fuel n + 1) := by
  induction fuel generalizing n with
  | zero => omega
  | succ fuel ih =>
    unfold log2Fuel
    by_cases h : n < 2
    · rw [if_pos h]
      simp
      omega
    · rw [if_neg h]
      have := ih (n / 2) (by omega) (by omega)
      rw [pow_succ, pow_succ, pow_succ]
      rw [pow_succ] at this
      omega

theorem log2_spec (n : Nat) (h1 : 1 ≤ n) : 2 ^ log2 n ≤ n ∧ n < 2 ^ (log2 n + 1) :=
  log2Fuel_spec n n h1 (le_refl n)

theorem roundDiv_eq_rne (a : Int) (b : Nat) (hb : 0 < b) : roundDiv a b = rne ((a : ℚ) / b) := by
  have hfl : ⌊(a : ℚ) / (b : ℚ)⌋ = a / (b : Int) := Rat.floor_intCast_div_natCast a b
  have hbq : (0 : ℚ) < b := by exact_mod_cast hb
  have hr : (a : ℚ) / b - ((a / (b : Int) : Int) : ℚ) = ((a % (b : Int) : Int) : ℚ) / b := by
    have := Int.emod_add_ediv a b
    have h2 : (a : ℚ) = ((a % (b : Int) : Int) : ℚ) + (b : ℚ) * ((a / (b : Int) : Int) : ℚ) := by
      exact_mod_cast this.symm
    field_simp
    linarith
  unfold roundDiv rne
  rw [hfl, hr]
  have e1 : (((a % (b : Int) : Int) : ℚ) / b < 1 / 2) ↔ 2 * (a % (b : Int)) < (b : Int) := by
    rw [div_lt_div_iff₀ hbq (by norm_num)]
    constructor
    · intro h
      have : ((2 * (a % (b : Int)) : Int) : ℚ) < ((b : Int) : ℚ) := by push_cast; linarith
      exact_mod_cast this
    · intro h
      have : ((2 * (a % (b : Int)) : Int) : ℚ) < ((b : Int) : ℚ) := by exact_mod_cast h
      push_cast at this
      linarith
  have e2 : (1 / 2 < ((a % (b : Int) : Int) : ℚ) / b) ↔ (b : Int) < 2 * (a % (b : Int)) := by
    rw [div_lt_div_iff₀ (by norm_num) hbq]
    constructor
    · intro h
      have : ((b : Int) : ℚ) < ((2 * (a % (b : Int)) : Int) : ℚ) := by push_cast; linarith
      exact_mod_cast this
    · intro h
      have : ((b : Int) : ℚ) < ((2 * (a % (b : Int)) : Int) : ℚ) := by exact_mod_cast h
      push_cast at this
      linarith
  simp only [e1, e2]

theorem rne_ge_floor (t : ℚ) : ⌊t⌋ ≤ rne t := by
  unfold rne
  split_ifs <;> omega

theorem rne_le_floor_add_one (t : ℚ) : rne t ≤ ⌊t⌋ + 1 := by
  unfold rne
  split_ifs <;> omega

theorem rne_mono (s t : ℚ) (h : s ≤ t) : rne s ≤ rne t := by
  have hfl : ⌊s⌋ ≤ ⌊t⌋ := Int.floor_mono h
  rcases lt_or_eq_of_le hfl with hlt | heq
  · calc rne s ≤ ⌊s⌋ + 1 := rne_le_floor_add_one s
      _ ≤ ⌊t⌋ := by omega
      _ ≤ rne t := rne_ge_floor t
  · have hfr : s - ⌊s⌋ ≤ t - ⌊t⌋ := by
      rw [heq]
      linarith
    unfold rne
    rw [heq]
    rw [heq] at hfr
    by_cases h1 : s - ⌊t⌋ < 1 / 2
    · rw [if_pos h1]
      split_ifs <;> omega
    · rw [if_neg h1]
      have h1' : ¬ (t - ⌊t⌋ < 1 / 2) := by
        intro hc
        apply h1
        linarith
      rw [if_neg h1']
      by_cases h2 : 1 / 2 < s - ⌊t⌋
      · have h2' : 1 / 2 < t - ⌊t⌋ := by linarith
        rw [if_pos h2, if_pos h2']
      · rw [if_neg h2]
        split_ifs <;> omega

theorem rne_intCast (z : Int) : rne (z : ℚ) = z := by
  unfold rne
  simp

theorem rne_neg (t : ℚ) : rne (-t) = - rne t := by
  by_cases hint : (⌊t⌋ : ℚ) = t
  · rw [← hint, ← Int.cast_neg, rne_intCast, rne_intCast]
  · have hlt : (⌊t⌋ : ℚ) < t := lt_of_le_of_ne (Int.floor_le t) hint
    have hfl : ⌊-t⌋ = -⌊t⌋ - 1 := by
      rw [Int.floor_eq_iff]
      push_cast
      have := Int.lt_floor_add_one t
      constructor <;> linarith
    unfold rne
    rw [hfl]
    push_cast
    by_cases h1 : t - ⌊t⌋ < 1 / 2
    · have a1 : ¬ (-t - (-(⌊t⌋ : ℚ) - 1) < 1 / 2) := by
        intro hc
        linarith
      have a2 : 1 / 2 < -t - (-(⌊t⌋ : ℚ) - 1) := by linarith
      rw [if_pos h1, if_neg a1, if_pos a2]
      omega
    · by_cases h2 : 1 / 2 < t - ⌊t⌋
      · have a1 : -t - (-(⌊t⌋ : ℚ) - 1) < 1 / 2 := by linarith
        rw [if_neg h1, if_pos h2, if_pos a1]
        omega
      · have a1 : ¬ (-t - (-(⌊t⌋ : ℚ) - 1) < 1 / 2) := by
          intro hc
          apply h2
          linarith
        have a2 : ¬ (1 / 2 < -t - (-(⌊t⌋ : ℚ) - 1)) := by
          intro hc
          apply h1
          linarith
        rw [if_neg h1, if_neg h2, if_neg a1, if_neg a2]
        split_ifs <;> omega

theorem fl_eq_rne (x : ℚ) :
    fl x = (rne (x / (2 : ℚ) ^ ulpExponent x) : ℚ) * (2 : ℚ) ^ ulpExponent x := by
  unfold fl
  by_cases h0 : x.num = 0
  · rw [if_pos h0]
    have hx : x = 0 := Rat.zero_of_num_zero h0
    rw [hx]
    simp [rne]
  · rw [if_neg h0]
    show (if 0 ≤ ulpExponent x then
        ((roundDiv x.num (x.den * 2 ^ (ulpExponent x).toNat) *
          (2 : Int) ^ (ulpExponent x).toNat : Int) : ℚ)
      else mkRat (roundDiv (x.num * (2 : Int) ^ (-ulpExponent x).toNat) x.den)
        (2 ^ (-ulpExponent x).toNat)) = _
    have hden : (0 : ℚ) < x.den := by exact_mod_cast x.den_pos
    have hxq : (x.num : ℚ) / (x.den : ℚ) = x := Rat.num_div_den x
    by_cases hE : 0 ≤ ulpExponent x
    · rw [if_pos hE]
      obtain ⟨k, hk⟩ := Int.eq_ofNat_of_zero_le hE
      rw [hk]
      simp only [Int.toNat_ofNat, zpow_natCast]
      rw [roundDiv_eq_rne _ _ (by positivity)]
      push_cast
      rw [← div_div, hxq]
    · rw [if_neg hE]
      have hneg : 0 ≤ -ulpExponent x := by omega
      obtain ⟨k, hk⟩ := Int.eq_ofNat_of_zero_le hneg
      have hE' : ulpExponent x = -(k : Int) := by omega
      rw [hk, hE']
      simp only [Int.toNat_ofNat, zpow_neg, zpow_natCast]
      rw [roundDiv_eq_rne _ _ x.den_pos, Rat.mkRat_eq_div]
      push_cast
      have e : (x.num : ℚ) * 2 ^ k / (x.den : ℚ) = x / ((2 : ℚ) ^ k)⁻¹ := by
        rw [div_inv_eq_mul]
        have h3 : (x.num : ℚ) * 2 ^ k / (x.den : ℚ) = (x.num : ℚ) / (x.den : ℚ) * 2 ^ k := by
          ring
        rw [h3, hxq]
      rw [e, div_eq_mul_inv]

theorem binaryExponent_test (n d : Nat) :
    binaryExponent n d =
      if (2 : ℚ) ^ ((log2 n : Int) - (log2 d : Int)) * d ≤ n then (log2 n : Int) - (log2 d : Int)
      else (log2 n : Int) - (log2 d : Int) - 1 := by
  unfold binaryExponent
  show (if 0 ≤ (log2 n : Int) - (log2 d : Int) then
      (if 2 ^ ((log2 n : Int) - (log2 d : Int)).toNat * d ≤ n then
        (log2 n : Int) - (log2 d : Int) else (log2 n : Int) - (log2 d : Int) - 1)
    else (if d ≤ n * 2 ^ (-((log2 n : Int) - (log2 d : Int))).toNat then
        (log2 n : Int) - (log2 d : Int) else (log2 n : Int) - (log2 d : Int) - 1)) = _
  by_cases hE : 0 ≤ (log2 n : Int) - (log2 d : Int)
  · rw [if_pos hE]
    obtain ⟨k, hk⟩ := Int.eq_ofNat_of_zero_le hE
    rw [hk]
    simp only [Int.toNat_ofNat, zpow_natCast]
    have e : (2 ^ k * d ≤ n) ↔ ((2 : ℚ) ^ k * d ≤ n) := by
      constructor
      · intro h
        exact_mod_cast h
      · intro h
        exact_mod_cast h
    simp only [e]
  · rw [if_neg hE]
    have hneg : 0 ≤ -((log2 n : Int) - (log2 d : Int)) := by omega
    obtain ⟨k, hk⟩ := Int.eq_ofNat_of_zero_le hneg
    have hE' : (log2 n : Int) - (log2 d : Int) = -(k : Int) := by omega
    rw [hk, hE']
    simp only [Int.toNat_ofNat, zpow_neg, zpow_natCast]
    have hp : (0 : ℚ) < 2 ^ k := by positivity
    have e : (d ≤ n * 2 ^ k) ↔ (((2 : ℚ) ^ k)⁻¹ * d ≤ n) := by
      rw [inv_mul_le_iff₀ hp]
      constructor
      · intro h
        have : ((d : Nat) : ℚ) ≤ ((n * 2 ^ k : Nat) : ℚ) := by exact_mod_cast h
        push_cast at this
        linarith
      · intro h
        have : ((d : Nat) : ℚ) ≤ ((n * 2 ^ k : Nat) : ℚ) := by
          push_cast
          linarith
        exact_mod_cast this
    simp only [e]

theorem binaryExponent_spec (n d : Nat) (hn : 1 ≤ n) (hd : 1 ≤ d) :
    (2 : ℚ) ^ binaryExponent n d ≤ (n : ℚ) / d ∧
      (n : ℚ) / d < (2 : ℚ) ^ (binaryExponent n d + 1) := by
  obtain ⟨a1, a2⟩ := log2_spec n hn
  obtain ⟨b1, b2⟩ := log2_spec d hd
  have hdq : (0 : ℚ) < d := by exact_mod_cast hd
  have A1 : (2 : ℚ) ^ log2 n ≤ n := by exact_mod_cast a1
  have A2 : (n : ℚ) < 2 * 2 ^ log2 n := by
    have : ((n : Nat) : ℚ) < ((2 ^ (log2 n + 1) : Nat) : ℚ) := by exact_mod_cast a2
    push_cast at this
    rw [pow_succ] at this
    linarith
  have B1 : (2 : ℚ) ^ log2 d ≤ d := by exact_mod_cast b1
  have B2 : (d : ℚ) < 2 * 2 ^ log2 d := by
    have : ((d : Nat) : ℚ) < ((2 ^ (log2 d + 1) : Nat) : ℚ) := by exact_mod_cast b2
    push_cast at this
    rw [pow_succ] at this
    linarith
  have hP : (0 : ℚ) < 2 ^ log2 n := by positivity
  have hQ : (0 : ℚ) < 2 ^ log2 d := by positivity
  have hz : (2 : ℚ) ^ ((log2 n : Int) - (log2 d : Int)) = 2 ^ log2 n / 2 ^ log2 d := by
    rw [zpow_sub₀ (by norm_num), zpow_natCast, zpow_natCast]
  rw [binaryExponent_test]
  by_cases hT : (2 : ℚ) ^ ((log2 n : Int) - (log2 d : Int)) * d ≤ n
  · rw [if_pos hT]
    constructor
    · rw [le_div_iff₀ hdq]
      exact hT
    · rw [zpow_add_one₀ (by norm_num), hz, div_lt_iff₀ hdq]
      calc (n : ℚ) < 2 * 2 ^ log2 n := A2
        _ = 2 ^ log2 n / 2 ^ log2 d * 2 * 2 ^ log2 d := by field_simp; ring
        _ ≤ 2 ^ log2 n / 2 ^ log2 d * 2 * d := by
          apply mul_le_mul_of_nonneg_left B1
          positivity
  · rw [if_neg hT]
    constructor
    · rw [zpow_sub_one₀ (by norm_num), hz, le_div_iff₀ hdq]
      calc 2 ^ log2 n / 2 ^ log2 d * 2⁻¹ * (d : ℚ)
          ≤ 2 ^ log2 n / 2 ^ log2 d * 2⁻¹ * (2 * 2 ^ log2 d) := by
            apply mul_le_mul_of_nonneg_left (le_of_lt B2)
            positivity
        _ = 2 ^ log2 n := by field_simp; ring
        _ ≤ n := A1
    · rw [sub_add_cancel, div_lt_iff₀ hdq]
      exact lt_of_not_le hT

theorem ulpExponent_spec (x : ℚ) (hx : 0 < x) :
    (2 : ℚ) ^ binaryExponent x.num.natAbs x.den ≤ x ∧
      x < (2 : ℚ) ^ (binaryExponent x.num.natAbs x.den + 1) := by
  have hnum : 0 < x.num := Rat.num_pos.mpr hx
  have hn : 1 ≤ x.num.natAbs := by omega
  have h := binaryExponent_spec x.num.natAbs x.den hn x.den_pos
  have e : ((x.num.natAbs : Nat) : ℚ) / (x.den : ℚ) = x := by
    have h2 : ((x.num.natAbs : Nat) : ℚ) = (x.num : ℚ) := by
      rw [Nat.cast_natAbs, abs_of_pos hnum]
    rw [h2]
    exact Rat.num_div_den x
  rw [e] at h
  exact h

theorem binaryExponent_mono (x y : ℚ) (hx : 0 < x) (hxy : x ≤ y) :
    binaryExponent x.num.natAbs x.den ≤ binaryExponent y.num.natAbs y.den := by
  have h1 := (ulpExponent_spec x hx).1
  have h2 := (ulpExponent_spec y (lt_of_lt_of_le hx hxy)).2
  have h3 : (2 : ℚ) ^ binaryExponent x.num.natAbs x.den <
      (2 : ℚ) ^ (binaryExponent y.num.natAbs y.den + 1) :=
    lt_of_le_of_lt (le_trans h1 hxy) h2
  have h4 := (zpow_lt_zpow_iff_right₀ (by norm_num : (1 : ℚ) < 2)).mp h3
  omega

theorem fl_nonneg (x : ℚ) (hx : 0 ≤ x) : 0 ≤ fl x := by
  rw [fl_eq_rne]
  have hp : (0 : ℚ) < (2 : ℚ) ^ ulpExponent x := by positivity
  have ht : 0 ≤ x / (2 : ℚ) ^ ulpExponent x := div_nonneg hx (le_of_lt hp)
  have hf : 0 ≤ ⌊x / (2 : ℚ) ^ ulpExponent x⌋ := Int.floor_nonneg.mpr ht
  have hr : (0 : Int) ≤ rne (x / (2 : ℚ) ^ ulpExponent x) := le_trans hf (rne_ge_floor _)
  have hq : (0 : ℚ) ≤ (rne (x / (2 : ℚ) ^ ulpExponent x) : ℚ) := by exact_mod_cast hr
  exact mul_nonneg hq (le_of_lt hp)

theorem fl_neg (x : ℚ) : fl (-x) = - fl x := by
  have hE : ulpExponent (-x) = ulpExponent x := by
    unfold ulpExponent
    simp
  rw [fl_eq_rne, fl_eq_rne x, hE, neg_div, rne_neg]
  push_cast
  ring

theorem fl_mono_pos (x y : ℚ) (hx : 0 < x) (hxy : x ≤ y) : fl x ≤ fl y := by
  have hy : 0 < y := lt_of_lt_of_le hx hxy
  have he := binaryExponent_mono x y hx hxy
  have hE : ulpExponent x ≤ ulpExponent y := by
    unfold ulpExponent
    exact max_le_max (by omega) (le_refl _)
  rw [fl_eq_rne x, fl_eq_rne y]
  have hpx : (0 : ℚ) < (2 : ℚ) ^ ulpExponent x := by positivity
  have hpy : (0 : ℚ) < (2 : ℚ) ^ ulpExponent y := by positivity
  rcases lt_or_eq_of_le hE with hlt | heq
  · -- the smaller one stays below 2 ^ 53 units, the larger one has at least 2 ^ 52
    have hxs := (ulpExponent_spec x hx).2
    have hys := (ulpExponent_spec y hy).1
    have hEx : binaryExponent x.num.natAbs x.den + 1 ≤ ulpExponent x + 53 := by
      unfold ulpExponent
      have := le_max_left (binaryExponent x.num.natAbs x.den - 52) (-1074)
      omega
    have hEy : ulpExponent y = binaryExponent y.num.natAbs y.den - 52 := by
      have h1 : -1074 ≤ ulpExponent x := le_max_right _ _
      unfold ulpExponent at hlt ⊢
      rcases max_choice (binaryExponent y.num.natAbs y.den - 52) (-1074) with h | h
      · exact h
      · rw [h] at hlt
        have := le_max_right (binaryExponent x.num.natAbs x.den - 52) (-1074)
        omega
    have hxt : x / (2 : ℚ) ^ ulpExponent x < (2 : ℚ) ^ (53 : Nat) := by
      rw [div_lt_iff₀ hpx]
      calc x < (2 : ℚ) ^ (binaryExponent x.num.natAbs x.den + 1) := hxs
        _ ≤ (2 : ℚ) ^ (ulpExponent x + 53) :=
          zpow_le_zpow_right₀ (by norm_num) hEx
        _ = (2 : ℚ) ^ (53 : Nat) * (2 : ℚ) ^ ulpExponent x := by
          rw [zpow_add₀ (by norm_num), mul_comm]
          norm_cast
    have hxr : rne (x / (2 : ℚ) ^ ulpExponent x) ≤ (2 : Int) ^ (53 : Nat) := by
      have hf : ⌊x / (2 : ℚ) ^ ulpExponent x⌋ < (2 : Int) ^ (53 : Nat) := by
        rw [Int.floor_lt]
        push_cast
        exact hxt
      have := rne_le_floor_add_one (x / (2 : ℚ) ^ ulpExponent x)
      omega
    have hyt : (2 : ℚ) ^ (52 : Nat) ≤ y / (2 : ℚ) ^ ulpExponent y := by
      rw [le_div_iff₀ hpy]
      calc (2 : ℚ) ^ (52 : Nat) * (2 : ℚ) ^ ulpExponent y
          = (2 : ℚ) ^ (ulpExponent y + 52) := by
            rw [zpow_add₀ (by norm_num), mul_comm]
            norm_cast
        _ = (2 : ℚ) ^ binaryExponent y.num.natAbs y.den := by
            rw [hEy]
            congr 1
            ring
        _ ≤ y := hys
    have hyr : (2 : Int) ^ (52 : Nat) ≤ rne (y / (2 : ℚ) ^ ulpExponent y) := by
      have hf : (2 : Int) ^ (52 : Nat) ≤ ⌊y / (2 : ℚ) ^ ulpExponent y⌋ := by
        rw [Int.le_floor]
        push_cast
        exact hyt
      exact le_trans hf (rne_ge_floor _)
    have hxq : (rne (x / (2 : ℚ) ^ ulpExponent x) : ℚ) ≤ (2 : ℚ) ^ (53 : Nat) := by
      exact_mod_cast hxr
    have hyq : (2 : ℚ) ^ (52 : Nat) ≤ (rne (y / (2 : ℚ) ^ ulpExponent y) : ℚ) := by
      exact_mod_cast hyr
    have hstep : (2 : ℚ) ^ (ulpExponent x + 1) ≤ (2 : ℚ) ^ ulpExponent y :=
      zpow_le_zpow_right₀ (by norm_num) (by omega)
    calc (rne (x / (2 : ℚ) ^ ulpExponent x) : ℚ) * (2 : ℚ) ^ ulpExponent x
        ≤ (2 : ℚ) ^ (53 : Nat) * (2 : ℚ) ^ ulpExponent x :=
          mul_le_mul_of_nonneg_right hxq (le_of_lt hpx)
      _ = (2 : ℚ) ^ (52 : Nat) * (2 : ℚ) ^ (ulpExponent x + 1) := by
          rw [zpow_add_one₀ (by norm_num)]
          ring
      _ ≤ (2 : ℚ) ^ (52 : Nat) * (2 : ℚ) ^ ulpExponent y :=
          mul_le_mul_of_nonneg_left hstep (by positivity)
      _ ≤ (rne (y / (2 : ℚ) ^ ulpExponent y) : ℚ) * (2 : ℚ) ^ ulpExponent y :=
          mul_le_mul_of_nonneg_right hyq (le_of_lt hpy)
  · rw [← heq]
    have ht : x / (2 : ℚ) ^ ulpExponent x ≤ y / (2 : ℚ) ^ ulpExponent x :=
      div_le_div_of_nonneg_right hxy (le_of_lt hpx)
    have hr := rne_mono _ _ ht
    have hq : (rne (x / (2 : ℚ) ^ ulpExponent x) : ℚ) ≤ (rne (y / (2 : ℚ) ^ ulpExponent x) : ℚ) := by
      exact_mod_cast hr
    exact mul_le_mul_of_nonneg_right hq (le_of_lt hpx)

/-- Rounding to `float64` keeps the order. -/
theorem fl_mono (x y : ℚ) (hxy : x ≤ y) : fl x ≤ fl y := by
  rcases lt_trichotomy 0 x with hx | hx | hx
  · exact fl_mono_pos x y hx hxy
  · rw [← hx] at hxy ⊢
    have h0 : fl 0 = 0 := by decide!
    rw [h0]
    exact fl_nonneg y hxy
  · rcases le_or_lt 0 y with hy | hy
    · have h1 : fl x ≤ 0 := by
        have := fl_nonneg (-x) (by linarith)
        rw [fl_neg] at this
        linarith
      exact le_trans h1 (fl_nonneg y hy)
    · have := fl_mono_pos (-y) (-x) (by linarith) (by linarith)
      rw [fl_neg, fl_neg] at this
      linarith

/-- A `float64` that is at least an exact result is at least its rounding. -/
theorem fl_le_of_le (a x : ℚ) (ha : fl a = a) (h : x ≤ a) : fl x ≤ a := by
  rw [← ha]
  exact fl_mono x a h

/-- A `float64` that is at most an exact result is at most its rounding. -/
theorem le_fl_of_le (a x : ℚ) (ha : fl a = a) (h : a ≤ x) : a ≤ fl x := by
  rw [← ha]
  exact fl_mono a x h

theorem rne_near (t : ℚ) : |(rne t : ℚ) - t| ≤ 1 / 2 := by
  have h1 := Int.floor_le t
  have h2 := Int.lt_floor_add_one t
  rw [abs_le]
  unfold rne
  split_ifs with a b c <;> push_cast <;> constructor <;> linarith

/-- The rounding `rne t` is an integer nearest to `t`. -/
theorem rne_nearest (t : ℚ) (m : Int) : |(rne t : ℚ) - t| ≤ |(m : ℚ) - t| := by
  by_cases h : m = rne t
  · rw [h]
  · have h1 := rne_near t
    have h2 : (1 : ℚ) ≤ |(m : ℚ) - (rne t : ℚ)| := by
      have : (1 : Int) ≤ |m - rne t| := Int.one_le_abs (by omega)
      exact_mod_cast this
    have h3 : |(m : ℚ) - (rne t : ℚ)| ≤ |(m : ℚ) - t| + |(rne t : ℚ) - t| := by
      have := abs_sub_le (m : ℚ) t (rne t : ℚ)
      rw [abs_sub_comm t (rne t : ℚ)] at this
      exact this
    linarith

/-- The rounding `fl x` is a multiple of the unit in the last place nearest to `x`: no
other multiple of that unit is nearer. -/
theorem fl_nearest (x : ℚ) (m : Int) :
    |fl x - x| ≤ |(m : ℚ) * (2 : ℚ) ^ ulpExponent x - x| := by
  have hp : (0 : ℚ) < (2 : ℚ) ^ ulpExponent x := by positivity
  have h := rne_nearest (x / (2 : ℚ) ^ ulpExponent x) m
  have e1 : fl x - x =
      ((rne (x / (2 : ℚ) ^ ulpExponent x) : ℚ) - x / (2 : ℚ) ^ ulpExponent x) *
        (2 : ℚ) ^ ulpExponent x := by
    rw [fl_eq_rne]
    field_simp
  have e2 : (m : ℚ) * (2 : ℚ) ^ ulpExponent x - x =
      ((m : ℚ) - x / (2 : ℚ) ^ ulpExponent x) * (2 : ℚ) ^ ulpExponent x := by
    field_simp
  rw [e1, e2, abs_mul, abs_mul, abs_of_pos hp]
  exact mul_le_mul_of_nonneg_right h (le_of_lt hp)

theorem fl_pos_significand (x : ℚ) (hx : 0 < x) :
    rne (x / (2 : ℚ) ^ ulpExponent x) ≤ (2 : Int) ^ (53 : Nat) := by
  have hpx : (0 : ℚ) < (2 : ℚ) ^ ulpExponent x := by positivity
  have hxs := (ulpExponent_spec x hx).2
  have hEx : binaryExponent x.num.natAbs x.den + 1 ≤ ulpExponent x + 53 := by
    unfold ulpExponent
    have := le_max_left (binaryExponent x.num.natAbs x.den - 52) (-1074)
    omega
  have hxt : x / (2 : ℚ) ^ ulpExponent x < (2 : ℚ) ^ (53 : Nat) := by
    rw [div_lt_iff₀ hpx]
    calc x < (2 : ℚ) ^ (binaryExponent x.num.natAbs x.den + 1) := hxs
      _ ≤ (2 : ℚ) ^ (ulpExponent x + 53) :=
        zpow_le_zpow_right₀ (by norm_num) hEx
      _ = (2 : ℚ) ^ (53 : Nat) * (2 : ℚ) ^ ulpExponent x := by
        rw [zpow_add₀ (by norm_num), mul_comm]
        norm_cast
  have hf : ⌊x / (2 : ℚ) ^ ulpExponent x⌋ < (2 : Int) ^ (53 : Nat) := by
    rw [Int.floor_lt]
    push_cast
    exact hxt
  have := rne_le_floor_add_one (x / (2 : ℚ) ^ ulpExponent x)
  omega

/-- The rounding `fl x` is a `float64`: an integer of absolute value at most `2 ^ 53`
times a power of two whose exponent is at least -1074. -/
theorem fl_representable (x : ℚ) :
    ∃ m : Int, |m| ≤ (2 : Int) ^ (53 : Nat) ∧ fl x = (m : ℚ) * (2 : ℚ) ^ ulpExponent x ∧
      -1074 ≤ ulpExponent x := by
  refine ⟨rne (x / (2 : ℚ) ^ ulpExponent x), ?_, fl_eq_rne x, le_max_right _ _⟩
  have hp : (0 : ℚ) < (2 : ℚ) ^ ulpExponent x := by positivity
  rcases lt_trichotomy 0 x with hx | hx | hx
  · have h1 := fl_pos_significand x hx
    have h2 : 0 ≤ rne (x / (2 : ℚ) ^ ulpExponent x) :=
      le_trans (Int.floor_nonneg.mpr (div_nonneg (le_of_lt hx) (le_of_lt hp))) (rne_ge_floor _)
    rw [abs_of_nonneg h2]
    exact h1
  · rw [← hx]
    simp [rne]
  · have hE : ulpExponent (-x) = ulpExponent x := by
      unfold ulpExponent
      simp
    have h1 := fl_pos_significand (-x) (by linarith)
    rw [hE, neg_div, rne_neg] at h1
    have h2 : 0 ≤ rne (-x / (2 : ℚ) ^ ulpExponent x) :=
      le_trans (Int.floor_nonneg.mpr (div_nonneg (by linarith) (le_of_lt hp))) (rne_ge_floor _)
    rw [neg_div, rne_neg] at h2
    rw [abs_of_nonpos (by omega)]
    exact h1

theorem fl_of_float_pos (m : Int) (e : Int) (hm0 : 0 < m) (hm : m < (2 : Int) ^ (53 : Nat))
    (he : -1074 ≤ e) : fl ((m : ℚ) * (2 : ℚ) ^ e) = (m : ℚ) * (2 : ℚ) ^ e := by
  have hpe : (0 : ℚ) < (2 : ℚ) ^ e := by positivity
  have hmq : (0 : ℚ) < m := by exact_mod_cast hm0
  have hx : 0 < (m : ℚ) * (2 : ℚ) ^ e := mul_pos hmq hpe
  have hs := (ulpExponent_spec _ hx).1
  have hlt : (m : ℚ) * (2 : ℚ) ^ e < (2 : ℚ) ^ (e + 53) := by
    rw [zpow_add₀ (by norm_num), mul_comm ((2 : ℚ) ^ e)]
    have : (m : ℚ) < (2 : ℚ) ^ (53 : Int) := by
      have : ((m : Int) : ℚ) < (((2 : Int) ^ (53 : Nat) : Int) : ℚ) := by exact_mod_cast hm
      push_cast at this
      exact_mod_cast this
    exact mul_lt_mul_of_pos_right this hpe
  have hb : binaryExponent ((m : ℚ) * (2 : ℚ) ^ e).num.natAbs ((m : ℚ) * (2 : ℚ) ^ e).den <
      e + 53 :=
    (zpow_lt_zpow_iff_right₀ (by norm_num : (1 : ℚ) < 2)).mp (lt_of_le_of_lt hs hlt)
  have hE : ulpExponent ((m : ℚ) * (2 : ℚ) ^ e) ≤ e := by
    unfold ulpExponent
    exact max_le (by omega) he
  obtain ⟨k, hk⟩ := Int.eq_ofNat_of_zero_le (show 0 ≤ e - ulpExponent ((m : ℚ) * (2 : ℚ) ^ e) by
    omega)
  have ht : (m : ℚ) * (2 : ℚ) ^ e / (2 : ℚ) ^ ulpExponent ((m : ℚ) * (2 : ℚ) ^ e) =
      ((m * (2 : Int) ^ k : Int) : ℚ) := by
    rw [mul_div_assoc, ← zpow_sub₀ (by norm_num), hk]
    push_cast
    rw [zpow_natCast]
  rw [fl_eq_rne, ht, rne_intCast, ← ht]
  field_simp

/-- A `float64`, an integer below `2 ^ 53` in absolute value times a power of two whose
exponent is at least -1074, is its own rounding. -/
theorem fl_of_float (m : Int) (e : Int) (hm : |m| < (2 : Int) ^ (53 : Nat)) (he : -1074 ≤ e) :
    fl ((m : ℚ) * (2 : ℚ) ^ e) = (m : ℚ) * (2 : ℚ) ^ e := by
  rcases lt_trichotomy 0 m with h | h | h
  · exact fl_of_float_pos m e h (by rw [abs_of_pos h] at hm; exact hm) he
  · rw [← h]
    simp
    decide!
  · have h1 := fl_of_float_pos (-m) e (by omega) (by rw [abs_of_neg h] at hm; exact hm) he
    have h2 : ((-m : Int) : ℚ) * (2 : ℚ) ^ e = -((m : ℚ) * (2 : ℚ) ^ e) := by
      push_cast
      ring
    rw [h2, fl_neg] at h1
    linarith

/-- Rounding twice is rounding once. -/
theorem fl_idempotent (x : ℚ) : fl (fl x) = fl x := by
  obtain ⟨m, hm, hx, hE⟩ := fl_representable x
  rcases lt_or_eq_of_le hm with hlt | heq
  · rw [hx]
    exact fl_of_float m _ hlt hE
  · -- the significand is 2 ^ 53 in absolute value: a power of two
    rw [hx]
    rcases abs_eq (by positivity : (0 : Int) ≤ (2 : Int) ^ (53 : Nat)) |>.mp heq with h | h
    · have e1 : (m : ℚ) * (2 : ℚ) ^ ulpExponent x =
          ((1 : Int) : ℚ) * (2 : ℚ) ^ (ulpExponent x + 53) := by
        have e53 : (2 : ℚ) ^ (53 : Int) = 9007199254740992 := by norm_num
        rw [h, zpow_add₀ (by norm_num), e53]
        push_cast
        ring
      rw [e1]
      exact fl_of_float 1 _ (by norm_num) (by omega)
    · have e1 : (m : ℚ) * (2 : ℚ) ^ ulpExponent x =
          ((-1 : Int) : ℚ) * (2 : ℚ) ^ (ulpExponent x + 53) := by
        have e53 : (2 : ℚ) ^ (53 : Int) = 9007199254740992 := by norm_num
        rw [h, zpow_add₀ (by norm_num), e53]
        push_cast
        ring
      rw [e1]
      exact fl_of_float (-1) _ (by norm_num) (by omega)
namespace B1Exchange

/-! ## Quota Monitor -/

theorem CheckOneLimitation_step_check (fetch : Option OneHourlyLimitationResponeBody)
    (p : Exchange) (keepRunning : Bool) (d : OneHourlyLimitation)
    (hd : (fetch.getD p.stat).Data = some d) :
    CheckOneLimitation_step fetch CheckLimitationType p keepRunning =
      some ({ p with keepRunning := !quotaReached p d, stat := fetch.getD p.stat },
        !quotaReached p d) := by
  cases fetch with
  | none =>
    simp only [Option.getD] at hd
    simp only [CheckOneLimitation_step, hd, Option.getD, if_true]
    cases quotaReached p d <;> simp
  | some s =>
    simp only [Option.getD] at hd
    simp only [CheckOneLimitation_step, hd, Option.getD, if_true]
    cases quotaReached p d <;> simp

theorem quotaReached_of_ne_zero (p : Exchange) (d : OneHourlyLimitation)
    (h : p.limitation ≠ 0) :
    (!quotaReached p d) =
      decide (fdiv (fmul (fadd d.TradeMineOne d.InviteMineOne) 100) p.limitation <
        ofInt p.config.OneHourlyLimitationPercent) := by
  unfold quotaReached
  simp only [h, if_false]
  by_cases hc : fdiv (fmul (fadd d.TradeMineOne d.InviteMineOne) 100) p.limitation <
      ofInt p.config.OneHourlyLimitationPercent
  · simp [hc, not_le.mpr hc]
  · simp [hc, not_lt.mp hc]

theorem quotaReached_of_zero (p : Exchange) (d : OneHourlyLimitation)
    (h : p.limitation = 0) :
    (!quotaReached p d) = decide (fmul (fadd d.TradeMineOne d.InviteMineOne) 100 ≤ 0) := by
  unfold quotaReached
  simp only [h, if_true]
  by_cases hc : 0 < fmul (fadd d.TradeMineOne d.InviteMineOne) 100
  · simp [hc, not_le.mpr hc]
  · simp [hc, not_lt.mp hc]

theorem CheckOneLimitation_step_reset (fetch : Option OneHourlyLimitationResponeBody)
    (p : Exchange) (keepRunning : Bool) :
    CheckOneLimitation_step fetch KeepRunningType p keepRunning =
      some ({ p with keepRunning := keepRunning, stat := fetch.getD p.stat }, keepRunning) := by
  cases fetch <;> simp [CheckOneLimitation_step, KeepRunningType, CheckLimitationType]

/-- C3 refuted as stated: with a trade reward of 0.3 (the float64 nearest to it), no
invite reward, an hourly limit of 1 and a threshold of 30, the quotient
(tradeReward + inviteReward) * 100 / hourlyLimit is strictly below the threshold, and
yet keepRunning is false after the Check: the product the program computes is rounded
to 30. -/
theorem CheckOneLimitation_threshold_exact :
    (fl (3 / 10) + 0) * 100 / roundingExchange.limitation <
      ((roundingExchange.config.OneHourlyLimitationPercent : Int) : ℚ) ∧
    fmul (fadd (fl (3 / 10)) 0) 100 = 30 ∧
    (CheckOneLimitation_step (some roundingStat) CheckLimitationType roundingExchange true).map
      (fun r => r.1.keepRunning) = some false := by
  decide!

/-- C3 as the code has it: after a Check signal the shared flag keepRunning is true
exactly when usedPercent is strictly below the configured threshold, where usedPercent
is the float64 the program computes: the sum of the two rewards, its product with 100,
and the quotient of that by the hourly limit, each rounded to the nearest float64; when
this usedPercent equals the threshold, keepRunning is false. -/
theorem CheckOneLimitation_threshold (fetch : Option OneHourlyLimitationResponeBody)
    (p : Exchange) (keepRunning : Bool) (d : OneHourlyLimitation)
    (hd : (fetch.getD p.stat).Data = some d) (hlimit : 0 < p.limitation) :
    ∃ p' k, CheckOneLimitation_step fetch CheckLimitationType p keepRunning = some (p', k) ∧
      (p'.keepRunning = true ↔
        fdiv (fmul (fadd d.TradeMineOne d.InviteMineOne) 100) p.limitation <
          ofInt p.config.OneHourlyLimitationPercent) ∧
      (fdiv (fmul (fadd d.TradeMineOne d.InviteMineOne) 100) p.limitation =
          ofInt p.config.OneHourlyLimitationPercent → p'.keepRunning = false) := by
  have hne : p.limitation ≠ 0 := ne_of_gt hlimit
  refine ⟨_, _, CheckOneLimitation_step_check fetch p keepRunning d hd, ?_, ?_⟩
  · show (!quotaReached p d) = true ↔ _
    rw [quotaReached_of_ne_zero p d hne]
    simp
  · intro h
    show (!quotaReached p d) = false
    rw [quotaReached_of_ne_zero p d hne]
    simp [h]

/-- C3 as the code has it, at concrete inputs: rewards 50 and 30 against an hourly
limit of 100 and a threshold of 80 give a usedPercent of exactly 80, and keepRunning
becomes false; a reward of 175 against the hourly limit the program stores for a daily
limit of 7000 and a threshold of 60 gives a usedPercent one rounding step below 60, and
keepRunning becomes true. -/
theorem CheckOneLimitation_threshold_witness :
    (CheckOneLimitation_step (some exampleStat) CheckLimitationType exampleExchange true).map
      (fun r => r.1.keepRunning) = some false ∧
    fdiv (fmul (fadd 175 0) 100) dailyExchange.limitation < 60 ∧
    (CheckOneLimitation_step (some dailyStat) CheckLimitationType dailyExchange false).map
      (fun r => r.1.keepRunning) = some true := by
  obtain ⟨p', k, h1, _, h3⟩ := CheckOneLimitation_threshold (some exampleStat) exampleExchange true
    ⟨50, 0, "2018-07-31 18:30:19 +0800", 30⟩ rfl (by decide!)
  obtain ⟨q', j, g1, g2, _⟩ := CheckOneLimitation_threshold (some dailyStat) dailyExchange false
    ⟨175, 0, "2018-07-31 18:30:19 +0800", 0⟩ rfl (by decide!)
  refine ⟨?_, by decide!, ?_⟩
  · rw [h1]
    exact congrArg some (h3 (by decide!))
  · rw [g1]
    exact congrArg some (g2.mpr (by decide!))

/-- C4: a Reset signal leaves in the shared flag keepRunning the value of the local
variable, not true: the assignment of true is overwritten.  The flag is false when
Reset is the first signal, and false when Reset follows a Check that found the quota
used up. -/
theorem CheckOneLimitation_reset_overwritten (p : Exchange)
    (fetch : Option OneHourlyLimitationResponeBody) :
    (CheckOneLimitation p [(KeepRunningType, fetch)]).map (fun r => r.1.keepRunning) =
      some false ∧
    (CheckOneLimitation exampleExchange
        [(CheckLimitationType, some exampleStat), (KeepRunningType, some exampleStat)]).map
      (fun r => r.1.keepRunning) = some false := by
  constructor
  · simp [CheckOneLimitation, CheckOneLimitation_loop, CheckOneLimitation_step_reset]
  · decide!
namespace B1Exchange

/-! ## Balance Checker -/

theorem mapGet_filter_ne (m : BalanceMap) (k k' : String) (h : ¬ k = k') :
    mapGet (m.filter (fun e => decide (e.1 ≠ k))) k' = mapGet m k' := by
  induction m with
  | nil => rfl
  | cons e rest ih =>
    obtain ⟨a, b⟩ := e
    by_cases ha : a = k
    · have hk : ¬ a = k' := by rw [ha]; exact h
      rw [List.filter_cons_of_neg (by simp [ha])]
      rw [ih]
      simp [mapGet, hk]
    · rw [List.filter_cons_of_pos (by simp [ha])]
      by_cases hb : a = k'
      · simp [mapGet, hb]
      · simp only [mapGet, hb, if_false]
        exact ih

theorem mapGet_mapSet (m : BalanceMap) (k k' : String) (v : Balance) :
    mapGet (mapSet m k v) k' = if k = k' then some v else mapGet m k' := by
  unfold mapSet
  by_cases h : k = k'
  · simp [mapGet, h]
  · simp only [mapGet, h, if_false]
    exact mapGet_filter_ne m k k' h

theorem mapGet_storeBalances (m : BalanceMap) (data : List Balance) (k : String) :
    mapGet (storeBalances m data) k = fetchedBalance m data k := by
  induction data generalizing m with
  | nil => simp [storeBalances, fetchedBalance]
  | cons v rest ih =>
    have hs : storeBalances m (v :: rest) = storeBalances (mapSet m v.AssetUUID v) rest := rfl
    rw [hs, ih]
    unfold fetchedBalance
    by_cases h : v.AssetUUID = k
    · simp only [List.filter_cons, h, decide_True, if_true, mapGet_mapSet, List.getLast?_cons]
      cases (List.filter (fun b => decide (b.AssetUUID = k)) rest).getLast? <;> simp
    · simp [List.filter_cons, h, mapGet_mapSet]

theorem roundedCode_cases (a b c d e f : ℚ) :
    roundedCode a b c d e f = 22 ∨ roundedCode a b c d e f = 21 ∨
      roundedCode a b c d e f = 12 ∨ roundedCode a b c d e f = 11 := by
  unfold roundedCode
  by_cases h1 : fsub a b ≥ f <;> by_cases h2 : fsub c d ≥ fmul e f <;> simp [h1, h2]

theorem CheckAccountBalance_worker_ok (w : World) (p : Exchange)
    (account : AccountResponeBody) (base quote : Balance) (data : Ticker) (ask bid : PriceAmount)
    (hacc : w.GetAccounts = some account)
    (hbase : fetchedBalance p.currentBalances account.Data p.symbolPair.BaseAsset.UUID =
      some base)
    (hquote : fetchedBalance p.currentBalances account.Data p.symbolPair.QuoteAsset.UUID =
      some quote)
    (hbt : (w.ParseFloat base.Balance).2 = false)
    (hbl : (w.ParseFloat base.LockedBalance).2 = false)
    (hqt : (w.ParseFloat quote.Balance).2 = false)
    (hql : (w.ParseFloat quote.LockedBalance).2 = false)
    (htk : w.GetTicker = some ⟨some data⟩)
    (hask : data.Ask = some ask) (hbid : data.Bid = some bid)
    (hap : (w.ParseFloat ask.Price).2 = false)
    (hbp : (w.ParseFloat bid.Price).2 = false) :
    (CheckAccountBalance_worker w p).panicked = relayPanics w p ∧
    signals (CheckAccountBalance_worker w p).trace =
      (if relayPanics w p then []
        else specDispatch
          (roundedCode (w.ParseFloat base.Balance).1 (w.ParseFloat base.LockedBalance).1
            (w.ParseFloat quote.Balance).1 (w.ParseFloat quote.LockedBalance).1
            (w.ParseFloat ask.Price).1 p.config.ExchangeAmount)
          p.config.BalanceAccountBalance) ∧
    (CheckAccountBalance_worker w p).state.baseAvaiable =
      fsub (w.ParseFloat base.Balance).1 (w.ParseFloat base.LockedBalance).1 ∧
    (CheckAccountBalance_worker w p).state.quoteAvaiable =
      fsub (w.ParseFloat quote.Balance).1 (w.ParseFloat quote.LockedBalance).1 := by
  rw [← mapGet_storeBalances] at hbase hquote
  by_cases h3 : w.elapsed < p.config.CheckBalanceRelayTime
  · cases h5 : NewTicker_panics (wrap64 (p.config.CheckBalanceRelayTime - w.elapsed))
    · have hr : relayPanics w p = false := by simp [relayPanics, h3, h5]
      rw [hr]
      simp only [CheckAccountBalance_worker, CheckAccountBalance_balances,
        CheckAccountBalance_ticker, CheckAccountBalance_switch, hacc, hbase, hquote, hbt, hbl,
        hqt, hql, htk, hask, hbid, hap, hbp, h3, h5, roundedCode, specDispatch]
      refine ⟨by simp, ?_, by simp, by simp⟩
      by_cases h1 : fsub (w.ParseFloat base.Balance).1 (w.ParseFloat base.LockedBalance).1 ≥
          p.config.ExchangeAmount <;>
      by_cases h2 : fsub (w.ParseFloat quote.Balance).1 (w.ParseFloat quote.LockedBalance).1 ≥
          fmul (w.ParseFloat ask.Price).1 p.config.ExchangeAmount <;>
      by_cases h4 : p.config.BalanceAccountBalance = true <;>
      simp [h1, h2, h4, signals, Event.isSignal]
    · have hr : relayPanics w p = true := by simp [relayPanics, h3, h5]
      rw [hr]
      simp only [CheckAccountBalance_worker, CheckAccountBalance_balances,
        CheckAccountBalance_ticker, hacc, hbase, hquote, hbt, hbl,
        hqt, hql, htk, hask, hbid, hap, hbp, h3, h5]
      refine ⟨by simp, ?_, by simp, by simp⟩
      simp [signals, Event.isSignal]
  · have hr : relayPanics w p = false := by simp [relayPanics, h3]
    rw [hr]
    simp only [CheckAccountBalance_worker, CheckAccountBalance_balances,
      CheckAccountBalance_ticker, CheckAccountBalance_switch, hacc, hbase, hquote, hbt, hbl, hqt,
      hql, htk, hask, hbid, hap, hbp, h3, roundedCode, specDispatch]
    refine ⟨by simp, ?_, by simp, by simp⟩
    by_cases h1 : fsub (w.ParseFloat base.Balance).1 (w.ParseFloat base.LockedBalance).1 ≥
        p.config.ExchangeAmount <;>
    by_cases h2 : fsub (w.ParseFloat quote.Balance).1 (w.ParseFloat quote.LockedBalance).1 ≥
        fmul (w.ParseFloat ask.Price).1 p.config.ExchangeAmount <;>
    by_cases h4 : p.config.BalanceAccountBalance = true <;>
    simp [h1, h2, h4, signals, Event.isSignal]

theorem specCode_cases (a b c d : ℚ) :
    specCode a b c d = 22 ∨ specCode a b c d = 21 ∨ specCode a b c d = 12 ∨
      specCode a b c d = 11 := by
  unfold specCode
  by_cases h1 : a ≥ d <;> by_cases h2 : b ≥ c * d <;> simp [h1, h2]

/-- C1 refuted as stated: with 1 base and 0.06999999999999999 quote, nothing locked,
an ask price of 0.1 and a trade amount of 0.7, the quote side is below askPrice *
tradeAmount, so that the table of the specification gives code 21 and the Balancer,
and yet the Balance Checker emits Trade(NormalExchange): the product the program
computes is rounded down to 0.06999999999999999. -/
theorem CheckAccountBalance_branch_selection_exact :
    (roundingWorld.ParseFloat "0.06999999999999999").1 - (roundingWorld.ParseFloat "0").1 <
      (roundingWorld.ParseFloat "0.1").1 * tradeExchange.config.ExchangeAmount ∧
    specCode ((roundingWorld.ParseFloat "1").1 - (roundingWorld.ParseFloat "0").1)
      ((roundingWorld.ParseFloat "0.06999999999999999").1 - (roundingWorld.ParseFloat "0").1)
      (roundingWorld.ParseFloat "0.1").1 tradeExchange.config.ExchangeAmount = 21 ∧
    fmul (roundingWorld.ParseFloat "0.1").1 tradeExchange.config.ExchangeAmount =
      (roundingWorld.ParseFloat "0.06999999999999999").1 ∧
    signals (CheckAccountBalance_step roundingWorld tradeExchange).trace =
      [Event.send Chan.exchangeChan NormalExchangeType] := by
  decide!

/-- C1 as the code has it: with keepRunning true, every fetch and parse succeeding, and
a pause before the dispatch, when there is one, that the ticker accepts, the Balance
Checker reads the base and the quote balance the account reply carries (its last entry
for the asset, the stored entry when it has none), and computes the code baseFlag +
quoteFlag in float64 arithmetic: baseFlag is 20 when the rounded difference baseTotal -
baseLocked is at least the trade amount and 10 otherwise, quoteFlag is 2 when the
rounded difference quoteTotal - quoteLocked is at least the rounded product askPrice *
tradeAmount and 1 otherwise.  The code is one of 22, 21, 12, 11, and the signals
emitted are exactly Trade(NormalExchange) for 22, one balance-assets signal for the
other codes when rebalancing is enabled, and none when it is disabled.  The code
depends on these inputs only. -/
theorem CheckAccountBalance_branch_selection (w : World) (p : Exchange)
    (account : AccountResponeBody) (base quote : Balance) (data : Ticker) (ask bid : PriceAmount)
    (hrun : p.keepRunning = true)
    (hacc : w.GetAccounts = some account)
    (hbase : fetchedBalance p.currentBalances account.Data p.symbolPair.BaseAsset.UUID =
      some base)
    (hquote : fetchedBalance p.currentBalances account.Data p.symbolPair.QuoteAsset.UUID =
      some quote)
    (hbt : (w.ParseFloat base.Balance).2 = false)
    (hbl : (w.ParseFloat base.LockedBalance).2 = false)
    (hqt : (w.ParseFloat quote.Balance).2 = false)
    (hql : (w.ParseFloat quote.LockedBalance).2 = false)
    (htk : w.GetTicker = some ⟨some data⟩)
    (hask : data.Ask = some ask) (hbid : data.Bid = some bid)
    (hap : (w.ParseFloat ask.Price).2 = false)
    (hbp : (w.ParseFloat bid.Price).2 = false)
    (hrelay : w.elapsed < p.config.CheckBalanceRelayTime →
      NewTicker_panics (wrap64 (p.config.CheckBalanceRelayTime - w.elapsed)) = false) :
    (CheckAccountBalance_step w p).panicked = false ∧
    signals (CheckAccountBalance_step w p).trace =
      specDispatch
        (roundedCode (w.ParseFloat base.Balance).1 (w.ParseFloat base.LockedBalance).1
          (w.ParseFloat quote.Balance).1 (w.ParseFloat quote.LockedBalance).1
          (w.ParseFloat ask.Price).1 p.config.ExchangeAmount)
        p.config.BalanceAccountBalance ∧
    (roundedCode (w.ParseFloat base.Balance).1 (w.ParseFloat base.LockedBalance).1
        (w.ParseFloat quote.Balance).1 (w.ParseFloat quote.LockedBalance).1
        (w.ParseFloat ask.Price).1 p.config.ExchangeAmount ∈ ([22, 21, 12, 11] : List Int)) ∧
    (CheckAccountBalance_step w p).state.baseAvaiable =
      fsub (w.ParseFloat base.Balance).1 (w.ParseFloat base.LockedBalance).1 ∧
    (CheckAccountBalance_step w p).state.quoteAvaiable =
      fsub (w.ParseFloat quote.Balance).1 (w.ParseFloat quote.LockedBalance).1 := by
  have hr : relayPanics w p = false := by
    by_cases h3 : w.elapsed < p.config.CheckBalanceRelayTime
    · simp [relayPanics, h3, hrelay h3]
    · simp [relayPanics, h3]
  have hw := CheckAccountBalance_worker_ok w p account base quote data ask bid hacc hbase hquote
    hbt hbl hqt hql htk hask hbid hap hbp
  rw [hr] at hw
  simp only [Bool.false_eq_true, if_false] at hw
  have hstep : CheckAccountBalance_step w p = CheckAccountBalance_worker w p := by
    simp [CheckAccountBalance_step, hrun]
  rw [hstep]
  refine ⟨hw.1, hw.2.1, ?_, hw.2.2.1, hw.2.2.2⟩
  rcases roundedCode_cases (w.ParseFloat base.Balance).1 (w.ParseFloat base.LockedBalance).1
    (w.ParseFloat quote.Balance).1 (w.ParseFloat quote.LockedBalance).1
    (w.ParseFloat ask.Price).1 p.config.ExchangeAmount with h | h | h | h <;> simp [h]

/-- C1 as the code has it, at concrete inputs.  At the scenario of the specification,
total base 0.5, trade amount 1, total quote 1000, nothing locked and ask 100, from a
state whose balance map still holds 1000 base and no quote, the code is 12 and the one
signal is a balance-assets signal.  With 0.3 base of which 0.1 is locked and a trade
amount of 0.2 the available base is 0.19999999999999998, the code is 12 and the signal
goes to the Balancer again. -/
theorem CheckAccountBalance_branch_selection_witness :
    roundedCode (1 / 2) 0 1000 0 100 1 = 12 ∧
    signals (CheckAccountBalance_step exampleWorld staleExchange).trace =
      [Event.send Chan.balanceChan 0] ∧
    (CheckAccountBalance_step exampleWorld staleExchange).state.baseAvaiable = 1 / 2 ∧
    roundedCode (fl (3 / 10)) (fl (1 / 10)) 1000 0 (fl (1 / 10)) (fl (1 / 5)) = 12 ∧
    signals (CheckAccountBalance_step lockedWorld fifthExchange).trace =
      [Event.send Chan.balanceChan 0] ∧
    (CheckAccountBalance_step lockedWorld fifthExchange).state.baseAvaiable < fl (1 / 5) := by
  have h := CheckAccountBalance_branch_selection exampleWorld staleExchange
    ⟨[⟨"b1", "0.5", "0"⟩, ⟨"q1", "1000", "0"⟩]⟩ ⟨"b1", "0.5", "0"⟩ ⟨"q1", "1000", "0"⟩
    ⟨"m1", some ⟨"99", "1"⟩, some ⟨"100", "1"⟩⟩ ⟨"100", "1"⟩ ⟨"99", "1"⟩
    rfl rfl (by decide) (by decide) (by decide) (by decide) (by decide) (by decide) rfl rfl rfl
    (by decide) (by decide) (by decide)
  have g := CheckAccountBalance_branch_selection lockedWorld fifthExchange
    ⟨[⟨"b1", "0.3", "0.1"⟩, ⟨"q1", "1000", "0"⟩]⟩ ⟨"b1", "0.3", "0.1"⟩ ⟨"q1", "1000", "0"⟩
    ⟨"m1", some ⟨"0.09", "1"⟩, some ⟨"0.1", "1"⟩⟩ ⟨"0.1", "1"⟩ ⟨"0.09", "1"⟩
    rfl rfl (by decide) (by decide) (by decide) (by decide) (by decide) (by decide) rfl rfl rfl
    (by decide) (by decide) (by decide)
  refine ⟨by decide!, ?_, ?_, by decide!, ?_, ?_⟩
  · rw [h.2.1]; decide!
  · rw [h.2.2.2.1]; decide!
  · rw [g.2.1]; decide!
  · rw [g.2.2.2.1]; decide!

/-- C2: when keepRunning is false a check-balance trigger starts no worker: no event
at all (no fetch, no signal) and the shared state is unchanged; when keepRunning is
true the worker runs, and its first act is the account fetch. -/
theorem CheckAccountBalance_quota_gate (w : World) (p : Exchange) :
    (p.keepRunning = false →
      (CheckAccountBalance_step w p).trace = [] ∧ (CheckAccountBalance_step w p).state = p ∧
        (CheckAccountBalance_step w p).panicked = false) ∧
    (p.keepRunning = true →
      CheckAccountBalance_step w p = CheckAccountBalance_worker w p ∧
        (CheckAccountBalance_worker w p).trace.head? = some Event.GetAccounts) := by
  constructor
  · intro h
    simp [CheckAccountBalance_step, h]
  · intro h
    refine ⟨by simp [CheckAccountBalance_step, h], ?_⟩
    rfl

/-- C2 at the scenario of the specification: quota used 80 percent against a
threshold of 80 sets keepRunning false, and the next trigger does nothing; in the
initial state, where keepRunning is true, the trigger starts with the account
fetch. -/
theorem CheckAccountBalance_quota_gate_witness :
    CheckOneLimitation_step (some exampleStat) CheckLimitationType exampleExchange true =
      some (exhaustedExchange, false) ∧
    (CheckAccountBalance_step exampleWorld exhaustedExchange).trace = [] ∧
    (CheckAccountBalance_step exampleWorld exhaustedExchange).state = exhaustedExchange ∧
    (CheckAccountBalance_step exampleWorld exampleExchange).trace.head? =
      some Event.GetAccounts := by
  have hoff := (CheckAccountBalance_quota_gate exampleWorld exhaustedExchange).1 rfl
  have hon := (CheckAccountBalance_quota_gate exampleWorld exampleExchange).2 rfl
  refine ⟨by decide!, hoff.1, hoff.2.1, ?_⟩
  rw [hon.1]
  exact hon.2

/-! ## Scheduler -/

/-- C5, as the code has it: the hourly job sends its own sign and registers exactly
one new job, for 3600 seconds, with the flag false that Start gives to its periodic
jobs, and that job sends the same sign again, the Reset variant, and registers
nothing. -/
theorem runKeepRunning_Run_registers (t : Timer) (c : Chan) (sign : Int) :
    Runnable.Run t (Runnable.runKeepRunning c sign) =
      (t ++ [⟨Runnable.runCheckLimitation c sign, 3600, false⟩], [Event.send c sign]) ∧
    ∀ t', Runnable.Run t' (Runnable.runCheckLimitation c sign) = (t', [Event.send c sign]) := by
  refine ⟨?_, fun t' => rfl⟩
  simp [Runnable.Run, Timer.Add, toUint32]

/-- C5 refuted as stated: the job registered by the hourly Reset job of Start sends the
Reset variant, not the Check variant, and is registered with the flag of the periodic
jobs, not with that of the one-shot job. -/
theorem runKeepRunning_Run_not_check :
    ∃ job, (Runnable.Run [] (Runnable.runKeepRunning Chan.checkLimitationChan KeepRunningType)).1 =
        [job] ∧
      (Runnable.Run [] job.job).2 = [Event.send Chan.checkLimitationChan KeepRunningType] ∧
      (Runnable.Run [] job.job).2 ≠ [Event.send Chan.checkLimitationChan CheckLimitationType] ∧
      job.seconds = 3600 ∧ job.once = false ∧
      (Start exampleExchange 0 0).1.map (fun j => (j.job, j.once)) =
        [(Runnable.runCheckLimitation Chan.checkLimitationChan CheckLimitationType, false),
         (Runnable.runKeepRunning Chan.checkLimitationChan KeepRunningType, true),
         (Runnable.runExchange Chan.checkBalanceChan, false),
         (Runnable.runCancelOrder Chan.cancelOrderChan, false)] := by
  refine ⟨⟨Runnable.runCheckLimitation Chan.checkLimitationChan KeepRunningType, 3600, false⟩,
    by decide, by decide, by decide, rfl, rfl, by decide⟩
namespace B1Exchange

/-! ## Balancer -/

theorem BalanceAccountBalance_code_cases (p : Exchange) :
    BalanceAccountBalance_code p = 22 ∨ BalanceAccountBalance_code p = 21 ∨
      BalanceAccountBalance_code p = 12 ∨ BalanceAccountBalance_code p = 11 := by
  unfold BalanceAccountBalance_code
  by_cases h1 : p.baseBalance > p.config.ExchangeAmount <;>
  by_cases h2 : p.quoteBalance > fmul p.askPrice p.config.ExchangeAmount <;> simp [h1, h2]

/-- C6 refuted as stated: with the base total exactly equal to the trade amount the
Balancer computes 12 where the table with at-least comparisons gives 22, and two
states that agree on both at-least comparisons get different codes. -/
theorem BalanceAccountBalance_code_boundary :
    BalanceAccountBalance_code boundaryExchange = 12 ∧
    specCode boundaryExchange.baseBalance boundaryExchange.quoteBalance boundaryExchange.askPrice
      boundaryExchange.config.ExchangeAmount = 22 ∧
    BalanceAccountBalance_code aboveExchange = 22 ∧
    (decide (boundaryExchange.baseBalance ≥ boundaryExchange.config.ExchangeAmount) =
      decide (aboveExchange.baseBalance ≥ aboveExchange.config.ExchangeAmount)) ∧
    (decide (boundaryExchange.quoteBalance ≥
        boundaryExchange.askPrice * boundaryExchange.config.ExchangeAmount) =
      decide (aboveExchange.quoteBalance ≥
        aboveExchange.askPrice * aboveExchange.config.ExchangeAmount)) := by
  decide!

/-- C6 as the code has it: the Balancer's code is baseFlag + quoteFlag with baseFlag =
20 if baseTotal > tradeAmount else 10 and quoteFlag = 2 if quoteTotal > askPrice *
tradeAmount else 1, both comparisons strict, and the product the float64 product the
program computes, rounded to the nearest float64; it is one of 22, 21, 12, 11; it is a
function of the two strict comparisons and of nothing else; and a total exactly equal
to its requirement gets the low flag. -/
theorem BalanceAccountBalance_code_strict (p q : Exchange) :
    BalanceAccountBalance_code p =
      (if p.baseBalance > p.config.ExchangeAmount then 20 else 10) +
        (if p.quoteBalance > fmul p.askPrice p.config.ExchangeAmount then 2 else 1) ∧
    BalanceAccountBalance_code p ∈ ([22, 21, 12, 11] : List Int) ∧
    (decide (p.baseBalance > p.config.ExchangeAmount) =
        decide (q.baseBalance > q.config.ExchangeAmount) →
      decide (p.quoteBalance > fmul p.askPrice p.config.ExchangeAmount) =
        decide (q.quoteBalance > fmul q.askPrice q.config.ExchangeAmount) →
      BalanceAccountBalance_code p = BalanceAccountBalance_code q) ∧
    (p.baseBalance = p.config.ExchangeAmount →
      BalanceAccountBalance_code p = 12 ∨ BalanceAccountBalance_code p = 11) ∧
    (p.quoteBalance = fmul p.askPrice p.config.ExchangeAmount →
      BalanceAccountBalance_code p = 21 ∨ BalanceAccountBalance_code p = 11) := by
  refine ⟨rfl, ?_, ?_, ?_, ?_⟩
  · rcases BalanceAccountBalance_code_cases p with h | h | h | h <;> simp [h]
  · intro h1 h2
    have e1 : p.baseBalance > p.config.ExchangeAmount ↔
        q.baseBalance > q.config.ExchangeAmount := decide_eq_decide.mp h1
    have e2 : p.quoteBalance > fmul p.askPrice p.config.ExchangeAmount ↔
        q.quoteBalance > fmul q.askPrice q.config.ExchangeAmount := decide_eq_decide.mp h2
    unfold BalanceAccountBalance_code
    simp only [e1, e2]
  · intro h
    unfold BalanceAccountBalance_code
    by_cases a2 : p.quoteBalance > fmul p.askPrice p.config.ExchangeAmount <;> simp [h, a2]
  · intro h
    unfold BalanceAccountBalance_code
    by_cases a1 : p.baseBalance > p.config.ExchangeAmount <;> simp [h, a1]

/-- C6 as the code has it, at concrete states: base total 1 against trade amount 1
gives the low base flag, code 12; and a quote total of 0.07 against an ask price of 0.1
and a trade amount of 0.7, whose float64 product is 0.06999999999999999, gives the
high quote flag, code 12 with no base. -/
theorem BalanceAccountBalance_code_strict_witness :
    boundaryExchange.baseBalance = boundaryExchange.config.ExchangeAmount ∧
    (BalanceAccountBalance_code boundaryExchange = 12 ∨
      BalanceAccountBalance_code boundaryExchange = 11) ∧
    fmul roundingTotalsExchange.askPrice roundingTotalsExchange.config.ExchangeAmount <
      roundingTotalsExchange.quoteBalance ∧
    BalanceAccountBalance_code roundingTotalsExchange = 12 := by
  refine ⟨rfl, (BalanceAccountBalance_code_strict boundaryExchange boundaryExchange).2.2.2.1 rfl,
    by decide!, ?_⟩
  rw [(BalanceAccountBalance_code_strict roundingTotalsExchange roundingTotalsExchange).1]
  decide!

theorem cancelSends_lock_wrap (b : Bool) (tr : List Event) :
    ((if b then [Event.cancelOrderLockChan true] else []) ++ tr ++ [Event.balanceTimeChan] ++
        (if b then [Event.cancelOrderLockChan false] else [])).filter
      (Event.isSendOn Chan.cancelOrderChan) = tr.filter (Event.isSendOn Chan.cancelOrderChan) := by
  cases b <;> simp [Event.isSendOn]

theorem apiCalls_lock_wrap (b : Bool) (tr : List Event) :
    apiCalls ((if b then [Event.cancelOrderLockChan true] else []) ++ tr ++
        [Event.balanceTimeChan] ++ (if b then [Event.cancelOrderLockChan false] else [])) =
      apiCalls tr := by
  cases b <;> simp [apiCalls, Event.isApiCall]

theorem BalanceAccountBalance_switch_12_short (w : World) (p : Exchange)
    (hcode : BalanceAccountBalance_code p = 12)
    (hshort : p.quoteAvaiable < fmul (fmul p.askPrice p.config.ExchangeAmount) p.balancePercent) :
    (BalanceAccountBalance_switch w p).trace = [Event.send Chan.cancelOrderChan AskOrderType] := by
  simp [BalanceAccountBalance_switch, hcode, hshort]

theorem BalanceAccountBalance_switch_21_short (w : World) (p : Exchange)
    (hcode : BalanceAccountBalance_code p = 21)
    (hshort : p.baseAvaiable < fmul p.config.ExchangeAmount p.balancePercent) :
    (BalanceAccountBalance_switch w p).trace = [Event.send Chan.cancelOrderChan BidOrderType] := by
  simp [BalanceAccountBalance_switch, hcode, hshort]

theorem BalanceAccountBalance_switch_12_funded (w : World) (p : Exchange)
    (hcode : BalanceAccountBalance_code p = 12)
    (hfund : ¬ p.quoteAvaiable < fmul (fmul p.askPrice p.config.ExchangeAmount) p.balancePercent) :
    (BalanceAccountBalance_switch w p).trace.filter (Event.isSendOn Chan.cancelOrderChan) = [] := by
  simp only [BalanceAccountBalance_switch, hcode, hfund, if_true, if_false]
  cases w.GetTicker with
  | none => simp [Event.isSendOn]
  | some tk =>
    obtain ⟨d⟩ := tk
    cases d with
    | none => simp [Event.isSendOn]
    | some data =>
      obtain ⟨m, b, a⟩ := data
      cases a with
      | none => simp [Event.isSendOn]
      | some ask =>
        by_cases h : (w.ParseFloat ask.Price).2 = true <;> simp [h, Event.isSendOn]

theorem BalanceAccountBalance_switch_21_funded (w : World) (p : Exchange)
    (hcode : BalanceAccountBalance_code p = 21)
    (hfund : ¬ p.baseAvaiable < fmul p.config.ExchangeAmount p.balancePercent) :
    (BalanceAccountBalance_switch w p).trace.filter (Event.isSendOn Chan.cancelOrderChan) = [] := by
  simp only [BalanceAccountBalance_switch, hcode, hfund, if_true, if_false]
  cases w.GetTicker with
  | none => simp [Event.isSendOn]
  | some tk =>
    obtain ⟨d⟩ := tk
    cases d with
    | none => simp [Event.isSendOn]
    | some data =>
      obtain ⟨m, b, a⟩ := data
      cases b with
      | none => simp [Event.isSendOn]
      | some bid =>
        by_cases h : (w.ParseFloat bid.Price).2 = true <;> simp [h, Event.isSendOn]

/-- C7 refuted as stated: in branch 12, with a cached ask price of 0.1, a trade amount
of 0.7, a balance percent of 100 and 0.06999999999999999 quote available, the available
quote is strictly below askPrice * tradeAmount * balancePercent, and yet the Balancer
emits no cancel-orders signal, fetches the ticker and places a BID: the target the
program computes is rounded down to 0.06999999999999999.  And with an ask price of 0.1,
a trade amount of 0.1, a balance percent of 18 and an available quote that is the
float64 just below the target the program computes, the available quote is not below
askPrice * tradeAmount * balancePercent, and yet the Balancer emits the cancel-orders
signal and makes no API call. -/
theorem BalanceAccountBalance_cancel_routing_exact :
    BalanceAccountBalance_code roundingTargetExchange = 12 ∧
    roundingTargetExchange.quoteAvaiable <
      roundingTargetExchange.askPrice * roundingTargetExchange.config.ExchangeAmount *
        roundingTargetExchange.balancePercent ∧
    (BalanceAccountBalance_worker roundingWorld roundingTargetExchange).trace.filter
      (Event.isSendOn Chan.cancelOrderChan) = [] ∧
    apiCalls (BalanceAccountBalance_worker roundingWorld roundingTargetExchange).trace =
      [Event.GetTicker,
        Event.CreateOrder "BID" 1527665262168391000 "m1" "0.1000" "0.70000000"] ∧
    BalanceAccountBalance_code roundingShortExchange = 12 ∧
    fl roundingShortExchange.quoteAvaiable = roundingShortExchange.quoteAvaiable ∧
    ¬ roundingShortExchange.quoteAvaiable <
      roundingShortExchange.askPrice * roundingShortExchange.config.ExchangeAmount *
        roundingShortExchange.balancePercent ∧
    (BalanceAccountBalance_worker roundingWorld roundingShortExchange).trace.filter
      (Event.isSendOn Chan.cancelOrderChan) = [Event.send Chan.cancelOrderChan AskOrderType] ∧
    apiCalls (BalanceAccountBalance_worker roundingWorld roundingShortExchange).trace = [] := by
  decide!

/-- C7 as the code has it: the targets are those the program computes in float64
arithmetic, each product rounded to the nearest float64.  In branch 12 with
quote-available strictly below the rounded product of (the rounded product of askPrice
and tradeAmount) and balancePercent the Balancer emits exactly one cancel-orders
signal, with the Ask variant, and makes no API call (no ticker fetch, no order); in
branch 21 with base-available strictly below the rounded product of tradeAmount and
balancePercent it emits exactly one, with the Bid variant, and makes no API call; and
in both branches it emits no cancel-orders signal when the available funds are not
below that target. -/
theorem BalanceAccountBalance_cancel_routing (w : World) (p : Exchange) :
    (BalanceAccountBalance_code p = 12 →
      (p.quoteAvaiable < fmul (fmul p.askPrice p.config.ExchangeAmount) p.balancePercent →
        (BalanceAccountBalance_worker w p).trace.filter (Event.isSendOn Chan.cancelOrderChan) =
            [Event.send Chan.cancelOrderChan AskOrderType] ∧
          signals (BalanceAccountBalance_worker w p).trace =
            [Event.send Chan.cancelOrderChan AskOrderType] ∧
          apiCalls (BalanceAccountBalance_worker w p).trace = []) ∧
      (¬ p.quoteAvaiable < fmul (fmul p.askPrice p.config.ExchangeAmount) p.balancePercent →
        (BalanceAccountBalance_worker w p).trace.filter (Event.isSendOn Chan.cancelOrderChan) =
          [])) ∧
    (BalanceAccountBalance_code p = 21 →
      (p.baseAvaiable < fmul p.config.ExchangeAmount p.balancePercent →
        (BalanceAccountBalance_worker w p).trace.filter (Event.isSendOn Chan.cancelOrderChan) =
            [Event.send Chan.cancelOrderChan BidOrderType] ∧
          signals (BalanceAccountBalance_worker w p).trace =
            [Event.send Chan.cancelOrderChan BidOrderType] ∧
          apiCalls (BalanceAccountBalance_worker w p).trace = []) ∧
      (¬ p.baseAvaiable < fmul p.config.ExchangeAmount p.balancePercent →
        (BalanceAccountBalance_worker w p).trace.filter (Event.isSendOn Chan.cancelOrderChan) =
          [])) := by
  refine ⟨fun hcode => ⟨fun hshort => ?_, fun hfund => ?_⟩,
    fun hcode => ⟨fun hshort => ?_, fun hfund => ?_⟩⟩
  · have ht := BalanceAccountBalance_switch_12_short w p hcode hshort
    refine ⟨?_, ?_, ?_⟩
    · simp only [BalanceAccountBalance_worker, cancelSends_lock_wrap, ht]
      simp [Event.isSendOn]
    · simp only [BalanceAccountBalance_worker, ht]
      cases p.config.BalanceLockCancelOrder <;> simp [signals, Event.isSignal]
    · simp only [BalanceAccountBalance_worker, apiCalls_lock_wrap, ht]
      simp [apiCalls, Event.isApiCall]
  · simp only [BalanceAccountBalance_worker, cancelSends_lock_wrap]
    exact BalanceAccountBalance_switch_12_funded w p hcode hfund
  · have ht := BalanceAccountBalance_switch_21_short w p hcode hshort
    refine ⟨?_, ?_, ?_⟩
    · simp only [BalanceAccountBalance_worker, cancelSends_lock_wrap, ht]
      simp [Event.isSendOn]
    · simp only [BalanceAccountBalance_worker, ht]
      cases p.config.BalanceLockCancelOrder <;> simp [signals, Event.isSignal]
    · simp only [BalanceAccountBalance_worker, apiCalls_lock_wrap, ht]
      simp [apiCalls, Event.isApiCall]
  · simp only [BalanceAccountBalance_worker, cancelSends_lock_wrap]
    exact BalanceAccountBalance_switch_21_funded w p hcode hfund

/-- C7 as the code has it, at concrete states: code 12 with nothing available against
a target of 50 gives one cancel-orders signal with the Ask variant and no API call;
and so does code 12 with 7 available, an ask price of 100, a trade amount of 1 and a
balance percent of 7, where the target the program computes is
7.000000000000001. -/
theorem BalanceAccountBalance_cancel_routing_witness :
    BalanceAccountBalance_code boundaryExchange = 12 ∧
    signals (BalanceAccountBalance_worker exampleWorld boundaryExchange).trace =
      [Event.send Chan.cancelOrderChan AskOrderType] ∧
    apiCalls (BalanceAccountBalance_worker exampleWorld boundaryExchange).trace = [] ∧
    BalanceAccountBalance_code sevenExchange = 12 ∧
    sevenExchange.quoteAvaiable = 7 ∧
    fmul (fmul sevenExchange.askPrice sevenExchange.config.ExchangeAmount)
      sevenExchange.balancePercent = 7881299347898369 / 1125899906842624 ∧
    signals (BalanceAccountBalance_worker exampleWorld sevenExchange).trace =
      [Event.send Chan.cancelOrderChan AskOrderType] ∧
    apiCalls (BalanceAccountBalance_worker exampleWorld sevenExchange).trace = [] := by
  have hcode : BalanceAccountBalance_code boundaryExchange = 12 := by decide!
  have hshort : boundaryExchange.quoteAvaiable <
      fmul (fmul boundaryExchange.askPrice boundaryExchange.config.ExchangeAmount)
        boundaryExchange.balancePercent := by decide!
  have h := ((BalanceAccountBalance_cancel_routing exampleWorld boundaryExchange).1 hcode).1 hshort
  have gcode : BalanceAccountBalance_code sevenExchange = 12 := by decide!
  have gshort : sevenExchange.quoteAvaiable <
      fmul (fmul sevenExchange.askPrice sevenExchange.config.ExchangeAmount)
        sevenExchange.balancePercent := by decide!
  have g := ((BalanceAccountBalance_cancel_routing exampleWorld sevenExchange).1 gcode).1 gshort
  exact ⟨hcode, h.2.1, h.2.2, gcode, rfl, by decide!, g.2.1, g.2.2⟩

/-! ## Canceller -/

theorem abs_tdiv_million (x : Int) : |x.tdiv 1000000| = |x| / 1000000 := by
  rcases le_total 0 x with h | h
  · rw [Int.tdiv_eq_ediv h (by norm_num), abs_of_nonneg h,
      abs_of_nonneg (Int.ediv_nonneg h (by norm_num))]
  · have hx : x = -(-x) := by ring
    have h' : 0 ≤ -x := by omega
    rw [hx, Int.neg_tdiv, abs_neg, abs_neg, Int.tdiv_eq_ediv h' (by norm_num), abs_of_nonneg h',
      abs_of_nonneg (Int.ediv_nonneg h' (by norm_num))]

theorem wrap64_of_fits (d : Int) (h1 : -9223372036854775808 ≤ d) (h2 : d < 9223372036854775808) :
    wrap64 d = d := by
  unfold wrap64
  omega

theorem isStale_iff (cancelDtime serverTime insertedAt : Int)
    (h1 : -9223372036854775808 ≤ serverTime - insertedAt)
    (h2 : serverTime - insertedAt < 9223372036854775808) :
    isStale cancelDtime serverTime insertedAt = true ↔
      cancelDtime < |serverTime - insertedAt| / 1000000 := by
  simp [isStale, dTime, wrap64_of_fits _ h1 h2, abs_tdiv_million]

theorem ofInt_of_small (m : Int) (hm : |m| < (2 : Int) ^ (53 : Nat)) : ofInt m = (m : ℚ) := by
  have h := fl_of_float m 0 hm (by norm_num)
  rw [zpow_zero, mul_one] at h
  exact h

theorem abs_dTime_small (serverTime insertedAt : Int) :
    |dTime serverTime insertedAt| < (2 : Int) ^ (53 : Nat) := by
  unfold dTime
  rw [abs_tdiv_million]
  have h : |wrap64 (serverTime - insertedAt)| ≤ 9223372036854775808 := by
    rw [abs_le]
    unfold wrap64
    constructor <;> omega
  have h2 : |wrap64 (serverTime - insertedAt)| / 1000000 ≤ 9223372036854775808 / 1000000 :=
    Int.ediv_le_ediv (by norm_num) h
  norm_num at h2 ⊢
  omega

/-- The test of staleness on the integers is the test of the source on their
conversions to `float64`. -/
theorem isStale_float (cancelDtime serverTime insertedAt : Int) :
    isStale cancelDtime serverTime insertedAt =
      decide (|ofInt (dTime serverTime insertedAt)| > ofInt cancelDtime) := by
  have hd := abs_dTime_small serverTime insertedAt
  have e1 : ofInt (dTime serverTime insertedAt) = ((dTime serverTime insertedAt : Int) : ℚ) :=
    ofInt_of_small _ hd
  have e2 : |((dTime serverTime insertedAt : Int) : ℚ)| =
      ((|dTime serverTime insertedAt| : Int) : ℚ) := (Int.cast_abs).symm
  have hfix : fl ((|dTime serverTime insertedAt| : Int) : ℚ) =
      ((|dTime serverTime insertedAt| : Int) : ℚ) := by
    have := ofInt_of_small |dTime serverTime insertedAt| (by rw [abs_abs]; exact hd)
    exact this
  unfold isStale
  rw [e1, e2]
  apply decide_eq_decide.mpr
  constructor
  · intro h
    have hle : cancelDtime ≤ |dTime serverTime insertedAt| - 1 := by omega
    have hq : (cancelDtime : ℚ) ≤ ((|dTime serverTime insertedAt| - 1 : Int) : ℚ) := by
      exact_mod_cast hle
    have hfix1 : fl ((|dTime serverTime insertedAt| - 1 : Int) : ℚ) =
        ((|dTime serverTime insertedAt| - 1 : Int) : ℚ) := by
      have hb : |(|dTime serverTime insertedAt| - 1 : Int)| < (2 : Int) ^ (53 : Nat) := by
        have h0 := abs_nonneg (dTime serverTime insertedAt)
        rw [abs_lt]
        constructor <;> omega
      exact ofInt_of_small _ hb
    have hm := fl_mono _ _ hq
    rw [hfix1] at hm
    show ofInt cancelDtime < ((|dTime serverTime insertedAt| : Int) : ℚ)
    unfold ofInt
    push_cast at hm ⊢
    linarith
  · intro h
    by_contra hc
    have hle : |dTime serverTime insertedAt| ≤ cancelDtime := by omega
    have hq : ((|dTime serverTime insertedAt| : Int) : ℚ) ≤ (cancelDtime : ℚ) := by
      exact_mod_cast hle
    have hm := fl_mono _ _ hq
    rw [hfix] at hm
    have h' : ofInt cancelDtime < ((|dTime serverTime insertedAt| : Int) : ℚ) := h
    unfold ofInt at h'
    exact absurd h' (not_lt.mpr hm)

/-- C8 refuted as stated: an order that passes the side filter, inserted at time 0,
with a server time of 5000999 nanoseconds, is not cancelled under a threshold of 5
milliseconds, although the difference, 5.000999 milliseconds, strictly exceeds 5. -/
theorem scanOrders_truncates :
    sideSkipped AllOrderType (orderSide 0 "BID") = false ∧
    scanOrders AllOrderType 5 5000999 0 [⟨some ⟨"o1", "BID", "PENDING", 0⟩, "c1"⟩] =
      (0, [], false) ∧
    ((|(5000999 : Int) - 0| : Int) : ℚ) / 1000000 > 5 := by
  refine ⟨by decide, by decide, by norm_num⟩

/-- C8 as the code has it: for an order that passes the side filter and timestamps
whose difference fits in 64 bits, a cancel call for that order is issued, followed by
a wait, if and only if the number of whole milliseconds in |serverTime -
insertionTime| (the nanosecond difference divided by 1000000, the fraction dropped)
strictly exceeds the threshold; with a non-negative threshold that is
|serverTime - insertionTime| at least (threshold + 1) * 1000000 nanoseconds. -/
theorem scanOrders_staleness (otype cancelDtime serverTime ot : Int) (node : Order)
    (cursor : String) (rest : List Edge)
    (hside : sideSkipped otype (orderSide ot node.Side) = false)
    (hlow : -9223372036854775808 ≤ serverTime - node.InsertedAt)
    (hhigh : serverTime - node.InsertedAt < 9223372036854775808) :
    (cancelDtime < |serverTime - node.InsertedAt| / 1000000 →
      scanOrders otype cancelDtime serverTime ot (⟨some node, cursor⟩ :: rest) =
        ((scanOrders otype cancelDtime serverTime (orderSide ot node.Side) rest).1,
          [Event.CancelOrder node.Id, Event.wait] ++
            (scanOrders otype cancelDtime serverTime (orderSide ot node.Side) rest).2.1,
          (scanOrders otype cancelDtime serverTime (orderSide ot node.Side) rest).2.2)) ∧
    (¬ cancelDtime < |serverTime - node.InsertedAt| / 1000000 →
      scanOrders otype cancelDtime serverTime ot (⟨some node, cursor⟩ :: rest) =
        scanOrders otype cancelDtime serverTime (orderSide ot node.Side) rest) ∧
    (0 ≤ cancelDtime →
      (cancelDtime < |serverTime - node.InsertedAt| / 1000000 ↔
        (cancelDtime + 1) * 1000000 ≤ |serverTime - node.InsertedAt|)) := by
  have hs := isStale_iff cancelDtime serverTime node.InsertedAt hlow hhigh
  refine ⟨fun h => ?_, fun h => ?_, fun _ => ?_⟩
  · have hst : isStale cancelDtime serverTime node.InsertedAt = true := hs.mpr h
    simp [scanOrders, hside, hst]
  · have hst : isStale cancelDtime serverTime node.InsertedAt = false := by
      cases hb : isStale cancelDtime serverTime node.InsertedAt with
      | false => rfl
      | true => exact absurd (hs.mp hb) h
    simp [scanOrders, hside, hst]
  · constructor
    · intro h
      have := Int.ediv_mul_le |serverTime - node.InsertedAt| (show (1000000 : Int) ≠ 0 by norm_num)
      nlinarith
    · intro h
      have := Int.lt_ediv_add_one_mul_self |serverTime - node.InsertedAt|
        (show (0 : Int) < 1000000 by norm_num)
      by_contra hc
      nlinarith

/-- C8 as the code has it, at concrete inputs: a difference of 6000000 nanoseconds
against a threshold of 5 milliseconds is cancelled. -/
theorem scanOrders_staleness_witness :
    scanOrders AllOrderType 5 6000000 0 [⟨some ⟨"o1", "BID", "PENDING", 0⟩, "c1"⟩] =
      (0, [Event.CancelOrder "o1", Event.wait], false) := by
  have h := (scanOrders_staleness AllOrderType 5 6000000 0 ⟨"o1", "BID", "PENDING", 0⟩ "c1" []
    (by decide) (by decide) (by decide)).1 (by decide)
  rw [h]
  decide

/-- C9 at the failing input: with the Bid-only variant, an order whose side is "SELL"
is cancelled, because the side tag keeps its previous value, which starts as the Bid
tag; and with the Ask-only variant an order of side "SELL" that follows an ASK order
is cancelled too. -/
theorem CancelOrders_worker_cancels_other_side :
    (CancelOrders_worker sellWorld BidOrderType exampleExchange).trace =
      [Event.GetOrders "PENDING", Event.Ping, Event.CancelOrder "o1", Event.wait,
        Event.cancelOrderTimeChan] ∧
    ToUpper "SELL" ≠ BidOrderTypeName ∧
    (scanOrders AskOrderType 5 10000000000 0
        [⟨some ⟨"o2", "ASK", "PENDING", 0⟩, "c2"⟩, ⟨some ⟨"o3", "SELL", "PENDING", 0⟩, "c3"⟩]).2.1 =
      [Event.CancelOrder "o2", Event.wait, Event.CancelOrder "o3", Event.wait] := by
  refine ⟨by decide, by decide, by decide⟩

theorem sideSkipped_bid (ot : Int) (side : String) :
    (ToUpper side = BidOrderTypeName → sideSkipped BidOrderType (orderSide ot side) = false) ∧
    (ToUpper side = AskOrderTypeName → sideSkipped BidOrderType (orderSide ot side) = true) := by
  constructor
  · intro h
    simp [sideSkipped, orderSide, h]
  · intro h
    have hne : ¬ (AskOrderTypeName = BidOrderTypeName) := by decide
    simp [sideSkipped, orderSide, h, hne, AskOrderType, BidOrderType]

theorem sideSkipped_ask (ot : Int) (side : String) :
    (ToUpper side = AskOrderTypeName → sideSkipped AskOrderType (orderSide ot side) = false) ∧
    (ToUpper side = BidOrderTypeName → sideSkipped AskOrderType (orderSide ot side) = true) := by
  constructor
  · intro h
    have hne : ¬ (AskOrderTypeName = BidOrderTypeName) := by decide
    simp [sideSkipped, orderSide, h, hne, AskOrderType, BidOrderType]
  · intro h
    simp [sideSkipped, orderSide, h, AskOrderType, BidOrderType]

theorem sideSkipped_all (ot : Int) : sideSkipped AllOrderType ot = false := by
  simp [sideSkipped, AllOrderType, BidOrderType, AskOrderType]

/-! ## Pause locks -/

theorem getLast?_getD_cons (b d : Bool) (l : List Bool) :
    ((b :: l).getLast?).getD d = (l.getLast?).getD b := by
  simp [List.getLast?_cons]

theorem CancelOrders_loop_append (lock : Bool) (a b : List Msg) :
    CancelOrders_loop lock (a ++ b) =
      ((CancelOrders_loop lock a).1 ++ (CancelOrders_loop (CancelOrders_loop lock a).2 b).1,
        (CancelOrders_loop (CancelOrders_loop lock a).2 b).2) := by
  induction a generalizing lock with
  | nil => simp [CancelOrders_loop]
  | cons m rest ih =>
    rw [List.cons_append]
    simp only [CancelOrders_loop]
    rw [ih]
    simp only [List.append_assoc]

theorem CancelOrders_loop_lock (lock : Bool) (a : List Msg) :
    (CancelOrders_loop lock a).2 = ((a.filterMap Msg.lockValue).getLast?).getD lock := by
  induction a generalizing lock with
  | nil => simp [CancelOrders_loop]
  | cons m rest ih =>
    cases m with
    | lock b =>
      simp only [CancelOrders_loop, CancelOrders_step, ih, Msg.lockValue, List.filterMap_cons,
        getLast?_getD_cons]
    | trigger v =>
      cases lock <;>
        simp [CancelOrders_loop, CancelOrders_step, ih, Msg.lockValue, List.filterMap_cons]

theorem Exchange_loop_append (lock : Bool) (a b : List Msg) :
    Exchange_loop lock (a ++ b) =
      ((Exchange_loop lock a).1 ++ (Exchange_loop (Exchange_loop lock a).2 b).1,
        (Exchange_loop (Exchange_loop lock a).2 b).2) := by
  induction a generalizing lock with
  | nil => simp [Exchange_loop]
  | cons m rest ih =>
    rw [List.cons_append]
    simp only [Exchange_loop]
    rw [ih]
    simp only [List.append_assoc]

theorem Exchange_loop_lock (lock : Bool) (a : List Msg) :
    (Exchange_loop lock a).2 = ((a.filterMap Msg.lockValue).getLast?).getD lock := by
  induction a generalizing lock with
  | nil => simp [Exchange_loop]
  | cons m rest ih =>
    cases m with
    | lock b =>
      simp only [Exchange_loop, Exchange_step, ih, Msg.lockValue, List.filterMap_cons,
        getLast?_getD_cons]
    | trigger v =>
      cases lock <;>
        simp [Exchange_loop, Exchange_step, ih, Msg.lockValue, List.filterMap_cons]

theorem CancelOrders_trigger (pre post : List Msg) (t : Int) :
    CancelOrders (pre ++ Msg.trigger t :: post) =
      ((CancelOrders pre).1 ++ (if lastLock pre then [] else [t]) ++
          (CancelOrders_loop (lastLock pre) post).1,
        (CancelOrders_loop (lastLock pre) post).2) := by
  have hl : (CancelOrders_loop false pre).2 = lastLock pre := CancelOrders_loop_lock false pre
  unfold CancelOrders
  rw [CancelOrders_loop_append, hl]
  cases h : lastLock pre <;> simp [CancelOrders_loop, CancelOrders_step]

theorem Exchange_trigger (pre post : List Msg) (t : Int) :
    Exchange_run (pre ++ Msg.trigger t :: post) =
      ((Exchange_run pre).1 ++ (if lastLock pre then [] else [t]) ++
          (Exchange_loop (lastLock pre) post).1,
        (Exchange_loop (lastLock pre) post).2) := by
  have hl : (Exchange_loop false pre).2 = lastLock pre := Exchange_loop_lock false pre
  unfold Exchange_run
  rw [Exchange_loop_append, hl]
  cases h : lastLock pre <;> simp [Exchange_loop, Exchange_step]

/-- C10: for the Canceller loop and the Trader loop, started unlocked, and every
sequence of messages: a trigger starts a worker exactly when the most recently
consumed lock value before it is false or there is none; a trigger consumed while
locked leaves no trace at all, so the run, and the API calls of the Canceller, are
those of the sequence without it, whatever comes later; and the lock variable is the
last lock value received, with no counting. -/
theorem pause_locks (w : World) (p : Exchange) (pre post : List Msg) (t : Int) :
    (CancelOrders (pre ++ Msg.trigger t :: post)).1 =
      (CancelOrders pre).1 ++ (if lastLock pre then [] else [t]) ++
        (CancelOrders_loop (lastLock pre) post).1 ∧
    (lastLock pre = true →
      CancelOrders (pre ++ Msg.trigger t :: post) = CancelOrders (pre ++ post) ∧
        CancelOrders_apiCalls w p (pre ++ Msg.trigger t :: post) =
          CancelOrders_apiCalls w p (pre ++ post)) ∧
    (CancelOrders pre).2 = lastLock pre ∧
    (Exchange_run (pre ++ Msg.trigger t :: post)).1 =
      (Exchange_run pre).1 ++ (if lastLock pre then [] else [t]) ++
        (Exchange_loop (lastLock pre) post).1 ∧
    (lastLock pre = true → Exchange_run (pre ++ Msg.trigger t :: post) = Exchange_run (pre ++ post)) ∧
    (Exchange_run pre).2 = lastLock pre := by
  have hc : (CancelOrders_loop false pre).2 = lastLock pre := CancelOrders_loop_lock false pre
  have he : (Exchange_loop false pre).2 = lastLock pre := Exchange_loop_lock false pre
  refine ⟨?_, ?_, hc, ?_, ?_, he⟩
  · rw [CancelOrders_trigger]
  · intro h
    have e : CancelOrders (pre ++ Msg.trigger t :: post) = CancelOrders (pre ++ post) := by
      rw [CancelOrders_trigger]
      unfold CancelOrders
      rw [CancelOrders_loop_append, hc, h]
      simp
    exact ⟨e, by unfold CancelOrders_apiCalls; rw [e]⟩
  · rw [Exchange_trigger]
  · intro h
    rw [Exchange_trigger]
    unfold Exchange_run
    rw [Exchange_loop_append, he, h]
    simp

/-- C10 at concrete sequences: a cancel trigger received between lock = true and
lock = false starts no worker, also after the unlock; and after two lock = true one
lock = false unlocks. -/
theorem pause_locks_witness :
    lastLock [Msg.lock true] = true ∧
    CancelOrders [Msg.lock true, Msg.trigger 2, Msg.lock false] = ([], false) ∧
    Exchange_run [Msg.lock true, Msg.trigger 0, Msg.lock false] = ([], false) ∧
    CancelOrders [Msg.lock true, Msg.lock true, Msg.lock false, Msg.trigger 2] = ([2], false) := by
  have h := pause_locks exampleWorld exampleExchange [Msg.lock true] [Msg.lock false] 2
  have h0 := pause_locks exampleWorld exampleExchange [Msg.lock true] [Msg.lock false] 0
  have hl : lastLock [Msg.lock true] = true := by decide
  refine ⟨hl, ?_, ?_, by decide⟩
  · have e := (h.2.1 hl).1
    simp only [List.cons_append, List.nil_append] at e
    rw [e]
    decide
  · have e := h0.2.2.2.2.1 hl
    simp only [List.cons_append, List.nil_append] at e
    rw [e]
    decide

/-! ## Quota Monitor: the stale fallback -/

/-- C18: when a stats record with its data is stored and the fetch of a Check fails,
the step is the one a successful fetch returning the stored record would make: the
same percentage, computed as the program computes it in float64, the same keepRunning;
and the record stored after the step is the one stored before.  The keepRunning both
steps leave is that of the stored rewards: with a limit other than zero, whether
(tradeReward + inviteReward) * 100 / limit is below the threshold, and with a limit of
zero, where the quotient is an infinity or NaN, whether the dividend is at most
zero. -/
theorem CheckOneLimitation_stale_fallback (p : Exchange) (keepRunning : Bool)
    (d : OneHourlyLimitation) (hstored : p.stat.Data = some d) :
    CheckOneLimitation_step none CheckLimitationType p keepRunning =
      CheckOneLimitation_step (some p.stat) CheckLimitationType p keepRunning ∧
    ∃ p' k, CheckOneLimitation_step none CheckLimitationType p keepRunning = some (p', k) ∧
      p'.keepRunning = k ∧
      p'.stat = p.stat ∧
      (p.limitation ≠ 0 →
        k = decide (fdiv (fmul (fadd d.TradeMineOne d.InviteMineOne) 100) p.limitation <
          ofInt p.config.OneHourlyLimitationPercent)) ∧
      (p.limitation = 0 →
        k = decide (fmul (fadd d.TradeMineOne d.InviteMineOne) 100 ≤ 0)) := by
  have h1 := CheckOneLimitation_step_check none p keepRunning d hstored
  have h2 := CheckOneLimitation_step_check (some p.stat) p keepRunning d hstored
  refine ⟨?_, _, _, h1, rfl, rfl, fun h => quotaReached_of_ne_zero p d h,
    fun h => quotaReached_of_zero p d h⟩
  rw [h1, h2]
  rfl

/-- C18 at a concrete state: with rewards 50 and 30 stored, a limit of 100 and a
threshold of 80, a Check whose fetch fails leaves keepRunning false and the stored
record in place. -/
theorem CheckOneLimitation_stale_fallback_witness :
    CheckOneLimitation_step none CheckLimitationType exhaustedExchange true =
      CheckOneLimitation_step (some exampleStat) CheckLimitationType exhaustedExchange true ∧
    (CheckOneLimitation_step none CheckLimitationType exhaustedExchange true).map
      (fun r => (r.1.keepRunning, r.1.stat)) = some (false, exampleStat) := by
  have h := CheckOneLimitation_stale_fallback exhaustedExchange true
    ⟨50, 0, "2018-07-31 18:30:19 +0800", 30⟩ rfl
  refine ⟨h.1, ?_⟩
  obtain ⟨p', k, h1, h2, h3, h4, _⟩ := h.2
  have hk : k = false := by
    rw [h4 (by decide!)]
    decide!
  rw [h1]
  simp only [Option.map_some', h2, h3, hk]
  rfl

/-! ## Validation of the configuration -/

theorem Check_ok_iff (p q : Configuration) :
    p.Check = .ok q ↔
      (p.EndPoint ≠ "" ∧ p.AppKey ≠ "" ∧ p.AppSecret ≠ "" ∧ p.SymbolPair ≠ "" ∧
        (0 < p.OneHourlyLimitationPercent ∧ p.OneHourlyLimitationPercent ≤ 100) ∧
        p.CheckLimitationInterval ≠ 0 ∧ p.ExchangeAmount ≠ 0 ∧
        (0 < p.BalancePercent ∧ p.BalancePercent ≤ 100) ∧
        (0 < p.BalanceExchangePercent ∧ p.BalanceExchangePercent ≤ 100) ∧
        p.CancelOrderDiffrentTime ≠ 0 ∧ p.ExchangeInterval ≠ 0 ∧ p.CheckOrderNumber ≠ 0 ∧
        ∃ types, p.CancelOrderTypes = some types ∧ types ≠ [] ∧
          types.all orderStateKnown = true) ∧ q = fillDefaults p := by
  unfold Configuration.Check
  by_cases h1 : p.EndPoint = ""
  · rw [if_pos h1]; simp [h1]
  rw [if_neg h1]
  by_cases h2 : p.AppKey = ""
  · rw [if_pos h2]; simp [h2]
  rw [if_neg h2]
  by_cases h3 : p.AppSecret = ""
  · rw [if_pos h3]; simp [h3]
  rw [if_neg h3]
  by_cases h4 : p.SymbolPair = ""
  · rw [if_pos h4]; simp [h4]
  rw [if_neg h4]
  by_cases h5 : p.OneHourlyLimitationPercent ≤ 0 ∨ p.OneHourlyLimitationPercent > 100
  · rw [if_pos h5]
    constructor
    · intro h
      cases h
    · intro h
      omega
  rw [if_neg h5]
  by_cases h6 : p.CheckLimitationInterval = 0
  · rw [if_pos h6]; simp [h6]
  rw [if_neg h6]
  by_cases h7 : p.ExchangeAmount = 0
  · rw [if_pos h7]; simp [h7]
  rw [if_neg h7]
  by_cases h8 : p.BalancePercent ≤ 0 ∨ p.BalancePercent > 100
  · rw [if_pos h8]
    constructor
    · intro h
      cases h
    · intro h
      omega
  rw [if_neg h8]
  by_cases h9 : p.BalanceExchangePercent ≤ 0 ∨ p.BalanceExchangePercent > 100
  · rw [if_pos h9]
    constructor
    · intro h
      cases h
    · intro h
      omega
  rw [if_neg h9]
  by_cases h10 : p.CancelOrderDiffrentTime = 0
  · rw [if_pos h10]; simp [h10]
  rw [if_neg h10]
  by_cases h11 : p.ExchangeInterval = 0
  · rw [if_pos h11]; simp [h11]
  rw [if_neg h11]
  by_cases h12 : p.CheckOrderNumber = 0
  · rw [if_pos h12]; simp [h12]
  rw [if_neg h12]
  have e5 : 0 < p.OneHourlyLimitationPercent ∧ p.OneHourlyLimitationPercent ≤ 100 := by omega
  have e8 : 0 < p.BalancePercent ∧ p.BalancePercent ≤ 100 := by omega
  have e9 : 0 < p.BalanceExchangePercent ∧ p.BalanceExchangePercent ≤ 100 := by omega
  cases hT : p.CancelOrderTypes with
  | none => simp
  | some types =>
    dsimp only
    by_cases h13 : types.length = 0
    · rw [if_pos h13]
      have : types = [] := List.length_eq_zero.mp h13
      simp [this]
    rw [if_neg h13]
    have hne : types ≠ [] := fun hn => h13 (by simp [hn])
    by_cases h14 : types.all orderStateKnown = true
    · rw [if_pos h14]
      constructor
      · intro h
        exact ⟨⟨h1, h2, h3, h4, e5, h6, h7, e8, e9, h10, h11, h12, types, rfl, hne, h14⟩,
          (Except.ok.inj h).symm⟩
      · intro h
        rw [h.2]
    · rw [if_neg h14]
      constructor
      · intro h
        cases h
      · intro h
        obtain ⟨⟨_, _, _, _, _, _, _, _, _, _, _, _, t, ht, _, hall⟩, _⟩ := h
        have : t = types := (Option.some.inj ht).symm
        subst this
        exact absurd hall h14

theorem fillDefaults_eq (p : Configuration) :
    fillDefaults p =
      { p with
        CreateExchangeClientWaitTime :=
          if p.CreateExchangeClientWaitTime = 0 then 2000 else p.CreateExchangeClientWaitTime,
        LogFile := if p.LogFile = "" then "log/b1.log" else p.LogFile,
        LogLevel := if p.LogLevel = "" then "error" else p.LogLevel } := by
  unfold fillDefaults
  by_cases h1 : p.CreateExchangeClientWaitTime = 0 <;> by_cases h2 : p.LogFile = "" <;>
    by_cases h3 : p.LogLevel = "" <;> simp [h1, h2, h3]

theorem percent_unit_interval (n : Int) (h : 0 < n ∧ n ≤ 100) :
    0 < (n : ℚ) / 100 ∧ (n : ℚ) / 100 ≤ 1 := by
  have h1 : (0 : ℚ) < n := by exact_mod_cast h.1
  have h2 : (n : ℚ) ≤ 100 := by exact_mod_cast h.2
  constructor
  · positivity
  · rw [div_le_one (by norm_num)]
    exact h2

theorem percent_float_interval (n : Int) (h : 0 < n ∧ n ≤ 100) :
    0 < fdiv (ofInt n) 100 ∧ fdiv (ofInt n) 100 ≤ 1 := by
  obtain ⟨h1, h2⟩ := h
  interval_cases n <;> decide!

/-- C19 at the failing input: a configuration that is otherwise valid and lists the
order state CANCELED is rejected; the constant compared is the misspelling CANCLED,
which is what is accepted instead. -/
theorem Check_rejects_CANCELED :
    exampleConfig.Check = .ok exampleConfig ∧
    canceledConfig.Check = .error "cancel_order_type must be CANCLED/PENDING/FILLED" ∧
    cancledConfig.Check = .ok cancledConfig ∧
    specOrderState "CANCELED" = true ∧ orderStateKnown "CANCELED" = false ∧
    orderStateKnown "CANCLED" = true := by
  refine ⟨rfl, rfl, rfl, by decide, by decide, by decide⟩

theorem Check_order_states (p : Configuration) (types : List String)
    (hvalid : ∃ q, { p with CancelOrderTypes := some ["PENDING"] }.Check = .ok q)
    (htypes : p.CancelOrderTypes = some types) (hne : types ≠ []) :
    p.accepted = true ↔ types.all orderStateKnown = true := by
  obtain ⟨q, hq⟩ := hvalid
  have h := (Check_ok_iff _ q).mp hq
  obtain ⟨⟨a1, a2, a3, a4, a5, a6, a7, a8, a9, a10, a11, a12, _⟩, _⟩ := h
  unfold Configuration.accepted
  constructor
  · intro hacc
    cases hc : p.Check with
    | error e => simp [hc] at hacc
    | ok r =>
      obtain ⟨⟨_, _, _, _, _, _, _, _, _, _, _, _, t, ht, _, hall⟩, _⟩ := (Check_ok_iff p r).mp hc
      have : t = types := Option.some.inj (ht.symm.trans htypes)
      rw [← this]
      exact hall
  · intro hall
    have hc : p.Check = .ok (fillDefaults p) :=
      (Check_ok_iff p _).mpr ⟨⟨a1, a2, a3, a4, a5, a6, a7, a8, a9, a10, a11, a12, types, htypes,
        hne, hall⟩, rfl⟩
    simp [hc]

/-- C20: Check returns an error whenever one of the three percentages is at most 0 or
above 100, so a configuration it accepts has all three in 1..100, and the balance
percent of NewExchange and the scale factor of the Trader's BalanceExchange variant,
the float64 quotients of the percentage by 100, lie in (0, 1], as does the exact
quotient; and the configuration it leaves on acceptance is the one it was given
with only the three defaults filled in where unset. -/
theorem Check_percentages (p : Configuration) :
    (((p.OneHourlyLimitationPercent ≤ 0 ∨ p.OneHourlyLimitationPercent > 100) ∨
        (p.BalancePercent ≤ 0 ∨ p.BalancePercent > 100) ∨
        (p.BalanceExchangePercent ≤ 0 ∨ p.BalanceExchangePercent > 100)) →
      ∃ e, p.Check = .error e) ∧
    (∀ q, p.Check = .ok q →
      (1 ≤ q.OneHourlyLimitationPercent ∧ q.OneHourlyLimitationPercent ≤ 100) ∧
      (1 ≤ q.BalancePercent ∧ q.BalancePercent ≤ 100) ∧
      (1 ≤ q.BalanceExchangePercent ∧ q.BalanceExchangePercent ≤ 100) ∧
      (∀ markets lmt ex, NewExchange q markets lmt = some ex →
        0 < ex.balancePercent ∧ ex.balancePercent ≤ 1) ∧
      (0 < (q.BalanceExchangePercent : ℚ) / 100 ∧ (q.BalanceExchangePercent : ℚ) / 100 ≤ 1) ∧
      (0 < fdiv (ofInt q.BalanceExchangePercent) 100 ∧
        fdiv (ofInt q.BalanceExchangePercent) 100 ≤ 1) ∧
      q = { p with
        CreateExchangeClientWaitTime :=
          if p.CreateExchangeClientWaitTime = 0 then 2000 else p.CreateExchangeClientWaitTime,
        LogFile := if p.LogFile = "" then "log/b1.log" else p.LogFile,
        LogLevel := if p.LogLevel = "" then "error" else p.LogLevel }) := by
  constructor
  · intro hbad
    cases hc : p.Check with
    | error e => exact ⟨e, rfl⟩
    | ok q =>
      obtain ⟨⟨_, _, _, _, a5, _, _, a8, a9, _⟩, _⟩ := (Check_ok_iff p q).mp hc
      omega
  · intro q hq
    obtain ⟨⟨_, _, _, _, a5, _, _, a8, a9, _⟩, hfill⟩ := (Check_ok_iff p q).mp hq
    have hq' : q = { p with
        CreateExchangeClientWaitTime :=
          if p.CreateExchangeClientWaitTime = 0 then 2000 else p.CreateExchangeClientWaitTime,
        LogFile := if p.LogFile = "" then "log/b1.log" else p.LogFile,
        LogLevel := if p.LogLevel = "" then "error" else p.LogLevel } := by
      rw [hfill, fillDefaults_eq]
    have b5 : q.OneHourlyLimitationPercent = p.OneHourlyLimitationPercent := by rw [hq']
    have b8 : q.BalancePercent = p.BalancePercent := by rw [hq']
    have b9 : q.BalanceExchangePercent = p.BalanceExchangePercent := by rw [hq']
    refine ⟨by omega, by omega, by omega, ?_, ?_, ?_, hq'⟩
    · intro markets lmt ex hex
      have hb : ex.balancePercent = fdiv (ofInt q.BalancePercent) 100 := by
        unfold NewExchange at hex
        cases markets with
        | none => simp at hex
        | some data =>
          dsimp only at hex
          cases hs : (data.filter (fun m => decide (m.Name = ToUpper q.SymbolPair))).getLast? with
          | none => simp [hs] at hex
          | some sp =>
            cases lmt with
            | none => simp [hs] at hex
            | some l =>
              simp only [hs, Option.some.injEq] at hex
              rw [← hex]
      rw [hb, b8]
      exact percent_float_interval _ a8
    · rw [b9]
      exact percent_unit_interval _ a9
    · rw [b9]
      exact percent_float_interval _ a9

/-- C20 at the configuration of the examples: it is accepted and left as it is, and
with a BalancePercent of 0 it is rejected. -/
theorem Check_percentages_witness :
    exampleConfig.Check = .ok exampleConfig ∧
    (0 < ((exampleConfig.BalanceExchangePercent : Int) : ℚ) / 100 ∧
      ((exampleConfig.BalanceExchangePercent : Int) : ℚ) / 100 ≤ 1) ∧
    (0 < fdiv (ofInt exampleConfig.BalanceExchangePercent) 100 ∧
      fdiv (ofInt exampleConfig.BalanceExchangePercent) 100 ≤ 1) ∧
    ∃ e, { exampleConfig with BalancePercent := 0 }.Check = .error e := by
  have hok : exampleConfig.Check = .ok exampleConfig := rfl
  have h := (Check_percentages exampleConfig).2 exampleConfig hok
  refine ⟨hok, h.2.2.2.2.1, h.2.2.2.2.2.1, ?_⟩
  exact (Check_percentages { exampleConfig with BalancePercent := 0 }).1
    (Or.inr (Or.inl (Or.inl (le_refl _))))

/-! ## Trader and Balancer: the orders placed -/

theorem Exchange_worker_ok (w : World) (code : Int) (p : Exchange) (data : Ticker)
    (ask : PriceAmount) (htk : w.GetTicker = some ⟨some data⟩) (hask : data.Ask = some ask)
    (hap : (w.ParseFloat ask.Price).2 = false) :
    Exchange_worker w code p =
      ⟨p, [Event.GetTicker,
        Event.CreateOrder "BID" w.now p.symbolPair.UUID
          (w.Sprintf p.priceFormat
            |fsub (w.ParseFloat ask.Price).1 p.config.ExpectDiffrentValue|)
          (w.Sprintf p.amountFormat (fmul p.config.ExchangeAmount
            (if code = NormalExchangeType then ofInt 1
              else fdiv (ofInt p.config.BalanceExchangePercent) 100))),
        Event.CreateOrder "ASK" (wrap64 (w.now + 1)) p.symbolPair.UUID
          (w.Sprintf p.priceFormat
            |fsub (w.ParseFloat ask.Price).1 p.config.ExpectDiffrentValue|)
          (w.Sprintf p.amountFormat (fmul p.config.ExchangeAmount
            (if code = NormalExchangeType then ofInt 1
              else fdiv (ofInt p.config.BalanceExchangePercent) 100))),
        Event.exchangeTimeChan], false⟩ := by
  simp [Exchange_worker, htk, hask, hap]

theorem signals_lock_wrap (b : Bool) (tr : List Event) :
    signals ((if b then [Event.cancelOrderLockChan true] else []) ++ tr ++
        [Event.balanceTimeChan] ++ (if b then [Event.cancelOrderLockChan false] else [])) =
      signals tr := by
  cases b <;> simp [signals, Event.isSignal]

theorem createOrders_lock_wrap (b : Bool) (tr : List Event) :
    ((if b then [Event.cancelOrderLockChan true] else []) ++ tr ++ [Event.balanceTimeChan] ++
        (if b then [Event.cancelOrderLockChan false] else [])).filter Event.isCreateOrder =
      tr.filter Event.isCreateOrder := by
  cases b <;> simp [Event.isCreateOrder]

theorem BalanceAccountBalance_switch_11 (w : World) (p : Exchange)
    (hcode : BalanceAccountBalance_code p = 11) :
    BalanceAccountBalance_switch w p =
      ⟨{ p with config := { p.config with ExchangeAmount :=
          (fdiv (fmul p.config.ExchangeAmount (ofInt p.config.BalanceExchangePercent)) 100) } },
        [], false⟩ := by
  simp [BalanceAccountBalance_switch, hcode]

theorem BalanceAccountBalance_switch_22 (w : World) (p : Exchange)
    (hcode : BalanceAccountBalance_code p = 22) :
    BalanceAccountBalance_switch w p =
      ⟨p, (if p.config.BalanceLockCancelOrder then [Event.cancelOrderLockChan false] else []) ++
        [Event.send Chan.cancelOrderChan AllOrderType,
          Event.send Chan.exchangeChan BalanceExchangeType], false⟩ := by
  simp [BalanceAccountBalance_switch, hcode]

theorem BalanceAccountBalance_switch_12_order (w : World) (p : Exchange) (data : Ticker)
    (ask : PriceAmount) (hcode : BalanceAccountBalance_code p = 12)
    (hfund : ¬ p.quoteAvaiable < fmul (fmul p.askPrice p.config.ExchangeAmount) p.balancePercent)
    (htk : w.GetTicker = some ⟨some data⟩) (hask : data.Ask = some ask)
    (hap : (w.ParseFloat ask.Price).2 = false) :
    BalanceAccountBalance_switch w p =
      ⟨p, [Event.GetTicker,
        Event.CreateOrder "BID" w.now p.symbolPair.UUID
          (w.Sprintf p.priceFormat (w.ParseFloat ask.Price).1)
          (w.Sprintf p.amountFormat (fmul p.config.ExchangeAmount p.balancePercent))], false⟩ := by
  simp [BalanceAccountBalance_switch, hcode, hfund, htk, hask, hap]

theorem BalanceAccountBalance_switch_21_order (w : World) (p : Exchange) (data : Ticker)
    (bid : PriceAmount) (hcode : BalanceAccountBalance_code p = 21)
    (hfund : ¬ p.baseAvaiable < fmul p.config.ExchangeAmount p.balancePercent)
    (htk : w.GetTicker = some ⟨some data⟩) (hbid : data.Bid = some bid)
    (hbp : (w.ParseFloat bid.Price).2 = false) :
    BalanceAccountBalance_switch w p =
      ⟨p, [Event.GetTicker,
        Event.CreateOrder "ASK" w.now p.symbolPair.UUID
          (w.Sprintf p.priceFormat (w.ParseFloat bid.Price).1)
          (w.Sprintf p.amountFormat (fmul p.config.ExchangeAmount p.balancePercent))], false⟩ := by
  simp [BalanceAccountBalance_switch, hcode, hfund, htk, hbid, hbp]

/-- C13: in branch 22 the Balancer makes no API call (no order, no ticker fetch), its
trigger signals are exactly one cancel-orders signal with the All variant followed by
one trade signal with the BalanceExchange variant, and it leaves the shared state,
the trade amount included, as it was. -/
theorem BalanceAccountBalance_branch_22 (w : World) (p : Exchange)
    (hcode : BalanceAccountBalance_code p = 22) :
    apiCalls (BalanceAccountBalance_worker w p).trace = [] ∧
    signals (BalanceAccountBalance_worker w p).trace =
      [Event.send Chan.cancelOrderChan AllOrderType,
        Event.send Chan.exchangeChan BalanceExchangeType] ∧
    (BalanceAccountBalance_worker w p).state = p ∧
    (BalanceAccountBalance_worker w p).state.config.ExchangeAmount = p.config.ExchangeAmount ∧
    (BalanceAccountBalance_worker w p).panicked = false := by
  have hs := BalanceAccountBalance_switch_22 w p hcode
  refine ⟨?_, ?_, ?_, ?_, ?_⟩
  · simp only [BalanceAccountBalance_worker, apiCalls_lock_wrap, hs]
    cases p.config.BalanceLockCancelOrder <;> simp [apiCalls, Event.isApiCall]
  · simp only [BalanceAccountBalance_worker, signals_lock_wrap, hs]
    cases p.config.BalanceLockCancelOrder <;> simp [signals, Event.isSignal]
  · simp [BalanceAccountBalance_worker, hs]
  · simp [BalanceAccountBalance_worker, hs]
  · simp [BalanceAccountBalance_worker, hs]

/-- C13 at a concrete state: base total 2 and quote total 1000 against a trade amount
of 1 and an ask of 100 give code 22, the two signals, and no API call. -/
theorem BalanceAccountBalance_branch_22_witness :
    BalanceAccountBalance_code aboveExchange = 22 ∧
    apiCalls (BalanceAccountBalance_worker exampleWorld aboveExchange).trace = [] ∧
    signals (BalanceAccountBalance_worker exampleWorld aboveExchange).trace =
      [Event.send Chan.cancelOrderChan AllOrderType,
        Event.send Chan.exchangeChan BalanceExchangeType] := by
  have hcode : BalanceAccountBalance_code aboveExchange = 22 := by decide!
  have h := BalanceAccountBalance_branch_22 exampleWorld aboveExchange hcode
  exact ⟨hcode, h.1, h.2.1⟩

/-- C14 refuted as stated: with a cached ask of 100, a trade amount of 1 and a balance
percent of one half, the BID of branch 12 carries the amount 0.5, the trade amount
times the balance percent, not the target 50.  And with an ask price of 0.1, a trade
amount of 0.1, a balance percent of 18 and an available quote that is the float64 just
below the target the program computes, the available quote is not below askPrice *
tradeAmount * balancePercent, and yet no BID is placed. -/
theorem BalanceAccountBalance_bid_amount :
    BalanceAccountBalance_code fundedExchange = 12 ∧
    (BalanceAccountBalance_worker formatWorld fundedExchange).trace.filter Event.isCreateOrder =
      [Event.CreateOrder "BID" 1527665262168391000 "m1" "100.0000" "0.50000000"] ∧
    formatWorld.Sprintf fundedExchange.amountFormat
        (fundedExchange.askPrice * fundedExchange.config.ExchangeAmount *
          fundedExchange.balancePercent) = "50.00000000" ∧
    formatWorld.Sprintf fundedExchange.amountFormat
        (fmul (fmul fundedExchange.askPrice fundedExchange.config.ExchangeAmount)
          fundedExchange.balancePercent) = "50.00000000" ∧
    BalanceAccountBalance_code roundingShortExchange = 12 ∧
    ¬ roundingShortExchange.quoteAvaiable <
      roundingShortExchange.askPrice * roundingShortExchange.config.ExchangeAmount *
        roundingShortExchange.balancePercent ∧
    (BalanceAccountBalance_worker roundingWorld roundingShortExchange).trace.filter
      Event.isCreateOrder = [] := by
  decide!

/-- C12: in branch 11 the Balancer makes no API call (no order, no ticker fetch) and
sends no trigger signal; the shared state it leaves is the one it found with the trade
amount replaced by tradeAmount * BalanceExchangePercent / 100, the product and the
quotient rounded as float64 rounds them; and that value is the trade amount a later
Balancer cycle compares against, a later Trader cycle scales into its order amount,
and a later Balance Checker cycle uses in its code (a cycle that gets as far as its
dispatch: one whose pause panics sends nothing). -/
theorem BalanceAccountBalance_branch_11 (w : World) (p : Exchange)
    (hcode : BalanceAccountBalance_code p = 11) :
    apiCalls (BalanceAccountBalance_worker w p).trace = [] ∧
    signals (BalanceAccountBalance_worker w p).trace = [] ∧
    (BalanceAccountBalance_worker w p).panicked = false ∧
    (BalanceAccountBalance_worker w p).state =
      { p with config := { p.config with ExchangeAmount :=
          (fdiv (fmul p.config.ExchangeAmount (ofInt p.config.BalanceExchangePercent)) 100) } } ∧
    BalanceAccountBalance_code (BalanceAccountBalance_worker w p).state =
      (if p.baseBalance >
          fdiv (fmul p.config.ExchangeAmount (ofInt p.config.BalanceExchangePercent)) 100
        then 20 else 10) +
        (if p.quoteBalance > fmul p.askPrice
          (fdiv (fmul p.config.ExchangeAmount (ofInt p.config.BalanceExchangePercent)) 100)
        then 2 else 1) ∧
    (∀ (w2 : World) (code : Int) (data : Ticker) (ask : PriceAmount),
      w2.GetTicker = some ⟨some data⟩ → data.Ask = some ask →
      (w2.ParseFloat ask.Price).2 = false →
      ((Exchange_worker w2 code (BalanceAccountBalance_worker w p).state).trace.filter
          Event.isCreateOrder).map
        (fun e => match e with
          | Event.CreateOrder _ _ _ _ amount => amount
          | _ => "") =
        [w2.Sprintf p.amountFormat
            (fmul (fdiv (fmul p.config.ExchangeAmount (ofInt p.config.BalanceExchangePercent)) 100)
              (if code = NormalExchangeType then ofInt 1
                else fdiv (ofInt p.config.BalanceExchangePercent) 100)),
          w2.Sprintf p.amountFormat
            (fmul (fdiv (fmul p.config.ExchangeAmount (ofInt p.config.BalanceExchangePercent)) 100)
              (if code = NormalExchangeType then ofInt 1
                else fdiv (ofInt p.config.BalanceExchangePercent) 100))]) ∧
    (∀ (w2 : World) (account : AccountResponeBody) (base quote : Balance) (data : Ticker)
        (ask bid : PriceAmount),
      w2.GetAccounts = some account →
      fetchedBalance p.currentBalances account.Data p.symbolPair.BaseAsset.UUID = some base →
      fetchedBalance p.currentBalances account.Data p.symbolPair.QuoteAsset.UUID = some quote →
      (w2.ParseFloat base.Balance).2 = false → (w2.ParseFloat base.LockedBalance).2 = false →
      (w2.ParseFloat quote.Balance).2 = false → (w2.ParseFloat quote.LockedBalance).2 = false →
      w2.GetTicker = some ⟨some data⟩ → data.Ask = some ask → data.Bid = some bid →
      (w2.ParseFloat ask.Price).2 = false → (w2.ParseFloat bid.Price).2 = false →
      signals (CheckAccountBalance_worker w2 (BalanceAccountBalance_worker w p).state).trace =
        (if relayPanics w2 p then []
          else specDispatch
            (roundedCode (w2.ParseFloat base.Balance).1 (w2.ParseFloat base.LockedBalance).1
              (w2.ParseFloat quote.Balance).1 (w2.ParseFloat quote.LockedBalance).1
              (w2.ParseFloat ask.Price).1
              (fdiv (fmul p.config.ExchangeAmount (ofInt p.config.BalanceExchangePercent)) 100))
            p.config.BalanceAccountBalance)) := by
  have hs := BalanceAccountBalance_switch_11 w p hcode
  have hstate : (BalanceAccountBalance_worker w p).state =
      { p with config := { p.config with ExchangeAmount :=
          (fdiv (fmul p.config.ExchangeAmount (ofInt p.config.BalanceExchangePercent)) 100) } } := by
    simp [BalanceAccountBalance_worker, hs]
  refine ⟨?_, ?_, ?_, hstate, ?_, ?_, ?_⟩
  · simp only [BalanceAccountBalance_worker, apiCalls_lock_wrap, hs]
    rfl
  · simp only [BalanceAccountBalance_worker, signals_lock_wrap, hs]
    rfl
  · simp [BalanceAccountBalance_worker, hs]
  · rw [hstate]
    rfl
  · intro w2 code data ask htk hask hap
    rw [hstate, Exchange_worker_ok w2 code _ data ask htk hask hap]
    simp [Event.isCreateOrder]
  · intro w2 account base quote data ask bid hacc hbase hquote hbt hbl hqt hql htk hask hbid
      hap hbp
    rw [hstate]
    have h := (CheckAccountBalance_worker_ok w2
      { p with config := { p.config with ExchangeAmount :=
          (fdiv (fmul p.config.ExchangeAmount (ofInt p.config.BalanceExchangePercent)) 100) } }
      account base quote data ask bid hacc hbase hquote hbt hbl hqt hql htk hask hbid hap
      hbp).2.1
    rw [h]
    rfl

/-- C12 at a concrete state: with nothing on either side, a trade amount of 1 and a
percentage of 50, the Balancer makes no call, sends no signal and leaves a trade
amount of one half. -/
theorem BalanceAccountBalance_branch_11_witness :
    BalanceAccountBalance_code shortExchange = 11 ∧
    apiCalls (BalanceAccountBalance_worker exampleWorld shortExchange).trace = [] ∧
    signals (BalanceAccountBalance_worker exampleWorld shortExchange).trace = [] ∧
    (BalanceAccountBalance_worker exampleWorld shortExchange).state.config.ExchangeAmount =
      1 / 2 := by
  have hcode : BalanceAccountBalance_code shortExchange = 11 := by decide!
  have h := BalanceAccountBalance_branch_11 exampleWorld shortExchange hcode
  refine ⟨hcode, h.1, h.2.1, ?_⟩
  rw [h.2.2.2.1]
  decide!

/-- C14 as the code has it: in branch 12, with quote-available not below the target
the program computes, the float64 product of askPrice and tradeAmount, rounded, times
balancePercent, rounded again, and the fresh ticker fetch and ask-price parse
succeeding, the Balancer places exactly one order, a BID for the pair's market, whose
price is the freshly fetched ask price rendered with the price format and whose amount
is the float64 product tradeAmount * balancePercent rendered with the amount format;
its only other API call is the ticker fetch, and it sends no trigger signal, so no ASK
and no cancel signal. -/
theorem BalanceAccountBalance_branch_12_order (w : World) (p : Exchange) (data : Ticker)
    (ask : PriceAmount) (hcode : BalanceAccountBalance_code p = 12)
    (hfund : ¬ p.quoteAvaiable < fmul (fmul p.askPrice p.config.ExchangeAmount) p.balancePercent)
    (htk : w.GetTicker = some ⟨some data⟩) (hask : data.Ask = some ask)
    (hap : (w.ParseFloat ask.Price).2 = false) :
    (BalanceAccountBalance_worker w p).trace.filter Event.isCreateOrder =
      [Event.CreateOrder "BID" w.now p.symbolPair.UUID
        (w.Sprintf p.priceFormat (w.ParseFloat ask.Price).1)
        (w.Sprintf p.amountFormat (fmul p.config.ExchangeAmount p.balancePercent))] ∧
    apiCalls (BalanceAccountBalance_worker w p).trace =
      [Event.GetTicker,
        Event.CreateOrder "BID" w.now p.symbolPair.UUID
          (w.Sprintf p.priceFormat (w.ParseFloat ask.Price).1)
          (w.Sprintf p.amountFormat (fmul p.config.ExchangeAmount p.balancePercent))] ∧
    signals (BalanceAccountBalance_worker w p).trace = [] ∧
    (BalanceAccountBalance_worker w p).state = p := by
  have hs := BalanceAccountBalance_switch_12_order w p data ask hcode hfund htk hask hap
  refine ⟨?_, ?_, ?_, ?_⟩
  · simp only [BalanceAccountBalance_worker, createOrders_lock_wrap, hs]
    simp [Event.isCreateOrder]
  · simp only [BalanceAccountBalance_worker, apiCalls_lock_wrap, hs]
    simp [apiCalls, Event.isApiCall]
  · simp only [BalanceAccountBalance_worker, signals_lock_wrap, hs]
    simp [signals, Event.isSignal]
  · simp [BalanceAccountBalance_worker, hs]

/-- C14 as the code has it, at concrete states: with 1000 quote available against a
target of 50, one BID at 100.0000 for 0.50000000; and with an ask price of 100, a trade
amount of 1 and a balance percent of 7, where the target the program computes is
7.000000000000001, an available quote of that much gets one BID for 0.07000000. -/
theorem BalanceAccountBalance_branch_12_order_witness :
    apiCalls (BalanceAccountBalance_worker formatWorld fundedExchange).trace =
      [Event.GetTicker,
        Event.CreateOrder "BID" 1527665262168391000 "m1" "100.0000" "0.50000000"] ∧
    (7 : ℚ) < sevenFundedExchange.quoteAvaiable ∧
    apiCalls (BalanceAccountBalance_worker formatWorld sevenFundedExchange).trace =
      [Event.GetTicker,
        Event.CreateOrder "BID" 1527665262168391000 "m1" "100.0000" "0.07000000"] := by
  have h := (BalanceAccountBalance_branch_12_order formatWorld fundedExchange
    ⟨"m1", some ⟨"99", "1"⟩, some ⟨"100", "1"⟩⟩ ⟨"100", "1"⟩ (by decide!) (by decide!) rfl rfl
    (by decide)).2.1
  have g := (BalanceAccountBalance_branch_12_order formatWorld sevenFundedExchange
    ⟨"m1", some ⟨"99", "1"⟩, some ⟨"100", "1"⟩⟩ ⟨"100", "1"⟩ (by decide!) (by decide!) rfl rfl
    (by decide)).2.1
  refine ⟨?_, by decide!, ?_⟩
  · rw [h]; decide!
  · rw [g]; decide!

/-- C15: in branch 21, with base-available not below the target tradeAmount *
balancePercent and the fresh ticker fetch and bid-price parse succeeding, the Balancer
places exactly one order, an ASK for the pair's market, whose price is the freshly
fetched bid price rendered with the price format and whose amount is the float64
product tradeAmount * balancePercent rendered with the amount format; its only other
API call is the ticker fetch, and it sends no trigger signal, so no BID and no cancel
signal.  Not below the target is meant either way: base-available is not below the
float64 product the program compares with, or base-available, a float64, is not below
the exact product, which implies the former because rounding keeps the order. -/
theorem BalanceAccountBalance_branch_21_order (w : World) (p : Exchange) (data : Ticker)
    (bid : PriceAmount) (hcode : BalanceAccountBalance_code p = 21)
    (hfund : ¬ p.baseAvaiable < fmul p.config.ExchangeAmount p.balancePercent ∨
      (fl p.baseAvaiable = p.baseAvaiable ∧
        ¬ p.baseAvaiable < p.config.ExchangeAmount * p.balancePercent))
    (htk : w.GetTicker = some ⟨some data⟩) (hbid : data.Bid = some bid)
    (hbp : (w.ParseFloat bid.Price).2 = false) :
    (BalanceAccountBalance_worker w p).trace.filter Event.isCreateOrder =
      [Event.CreateOrder "ASK" w.now p.symbolPair.UUID
        (w.Sprintf p.priceFormat (w.ParseFloat bid.Price).1)
        (w.Sprintf p.amountFormat (fmul p.config.ExchangeAmount p.balancePercent))] ∧
    apiCalls (BalanceAccountBalance_worker w p).trace =
      [Event.GetTicker,
        Event.CreateOrder "ASK" w.now p.symbolPair.UUID
          (w.Sprintf p.priceFormat (w.ParseFloat bid.Price).1)
          (w.Sprintf p.amountFormat (fmul p.config.ExchangeAmount p.balancePercent))] ∧
    signals (BalanceAccountBalance_worker w p).trace = [] ∧
    (BalanceAccountBalance_worker w p).state = p := by
  have hf : ¬ p.baseAvaiable < fmul p.config.ExchangeAmount p.balancePercent := by
    rcases hfund with h | ⟨hfloat, h⟩
    · exact h
    · exact not_lt.mpr (fl_le_of_le _ _ hfloat (not_lt.mp h))
  have hs := BalanceAccountBalance_switch_21_order w p data bid hcode hf htk hbid hbp
  refine ⟨?_, ?_, ?_, ?_⟩
  · simp only [BalanceAccountBalance_worker, createOrders_lock_wrap, hs]
    simp [Event.isCreateOrder]
  · simp only [BalanceAccountBalance_worker, apiCalls_lock_wrap, hs]
    simp [apiCalls, Event.isApiCall]
  · simp only [BalanceAccountBalance_worker, signals_lock_wrap, hs]
    simp [signals, Event.isSignal]
  · simp [BalanceAccountBalance_worker, hs]

/-- C15 at concrete states: with 5 base available against a target of one half, one
ASK at 99.0000 for 0.50000000; and with a trade amount of 100 and a balance percent of
7, where the target the program computes is 7.000000000000001, an available base of
that much gets one ASK for 7.00000000, whereas an available base of 7 is below the
target and gets the cancel-orders signal with the Bid variant and no order. -/
theorem BalanceAccountBalance_branch_21_order_witness :
    apiCalls (BalanceAccountBalance_worker formatWorld fundedBaseExchange).trace =
      [Event.GetTicker,
        Event.CreateOrder "ASK" 1527665262168391000 "m1" "99.0000" "0.50000000"] ∧
    (7 : ℚ) < sevenBaseFundedExchange.baseAvaiable ∧
    apiCalls (BalanceAccountBalance_worker formatWorld sevenBaseFundedExchange).trace =
      [Event.GetTicker,
        Event.CreateOrder "ASK" 1527665262168391000 "m1" "99.0000" "7.00000000"] ∧
    sevenBaseExchange.baseAvaiable <
      fmul sevenBaseExchange.config.ExchangeAmount sevenBaseExchange.balancePercent ∧
    (BalanceAccountBalance_worker formatWorld sevenBaseExchange).trace =
      [Event.send Chan.cancelOrderChan BidOrderType, Event.balanceTimeChan] := by
  have h := (BalanceAccountBalance_branch_21_order formatWorld fundedBaseExchange
    ⟨"m1", some ⟨"99", "1"⟩, some ⟨"100", "1"⟩⟩ ⟨"99", "1"⟩ (by decide!)
    (Or.inr ⟨by decide!, by decide!⟩) rfl rfl (by decide)).2.1
  have g := (BalanceAccountBalance_branch_21_order formatWorld sevenBaseFundedExchange
    ⟨"m1", some ⟨"99", "1"⟩, some ⟨"100", "1"⟩⟩ ⟨"99", "1"⟩ (by decide!)
    (Or.inl (by decide!)) rfl rfl (by decide)).2.1
  refine ⟨?_, by decide!, ?_, by decide!, by decide!⟩
  · rw [h]; decide!
  · rw [g]; decide!

/-! ## Formatting -/

theorem digitChar_isDigit (k : Nat) (h : k < 10) : (Nat.digitChar k).isDigit = true := by
  interval_cases k <;> decide

theorem digitChar_value (k : Nat) (h : k < 10) : (Nat.digitChar k).toNat - '0'.toNat = k := by
  interval_cases k <;> decide

theorem isDigit_ne_point (c : Char) (h : c.isDigit = true) : (c != '.') = true := by
  have hp : ('.' : Char).isDigit = false := by decide
  by_cases hc : c = '.'
  · rw [hc, hp] at h
    cases h
  · simp [hc]

theorem digitsFuel_isDigit (fuel m : Nat) : ∀ c ∈ digitsFuel fuel m, c.isDigit = true := by
  induction fuel generalizing m with
  | zero => simp [digitsFuel]
  | succ fuel ih =>
    intro c hc
    unfold digitsFuel at hc
    by_cases h : m < 10
    · rw [if_pos h] at hc
      rw [List.mem_singleton] at hc
      rw [hc]
      exact digitChar_isDigit m h
    · rw [if_neg h] at hc
      rcases List.mem_append.mp hc with h1 | h1
      · exact ih _ c h1
      · rw [List.mem_singleton] at h1
        rw [h1]
        exact digitChar_isDigit _ (Nat.mod_lt _ (by norm_num))

theorem parsenum_append (a : Nat) (xs ys : List Char) :
    parsenum a (xs ++ ys) = (parsenum a xs).bind (fun v => parsenum v ys) := by
  induction xs generalizing a with
  | nil => simp [parsenum]
  | cons c rest ih =>
    rw [List.cons_append]
    rw [parsenum, parsenum]
    by_cases h : a > 1000000
    · simp [h]
    · rw [if_neg h, if_neg h]
      exact ih _

theorem parsenum_digitsFuel (fuel m : Nat) (hfuel : m < fuel) (hm : m / 10 ≤ 1000000) :
    parsenum 0 (digitsFuel fuel m) = some m := by
  induction fuel generalizing m with
  | zero => omega
  | succ fuel ih =>
    unfold digitsFuel
    by_cases h : m < 10
    · rw [if_pos h]
      have hd := digitChar_value m h
      simp only [parsenum]
      rw [if_neg (by omega), hd]
      simp
    · rw [if_neg h, parsenum_append, ih (m / 10) (by omega) (by omega)]
      have hd := digitChar_value (m % 10) (Nat.mod_lt _ (by norm_num))
      simp only [Option.some_bind, parsenum]
      rw [if_neg (by omega), hd]
      congr 1
      omega

theorem takeWhile_digits (ds rest : List Char) (hds : ∀ c ∈ ds, c.isDigit = true)
    (hrest : rest.head?.map Char.isDigit ≠ some true) :
    (ds ++ rest).takeWhile Char.isDigit = ds ∧ (ds ++ rest).dropWhile Char.isDigit = rest := by
  induction ds with
  | nil =>
    cases rest with
    | nil => simp
    | cons c r =>
      have hc : c.isDigit = false := by
        cases h : c.isDigit with
        | false => rfl
        | true => simp [h] at hrest
      simp [List.takeWhile, List.dropWhile, hc]
  | cons d ds ih =>
    have hd : d.isDigit = true := hds d (List.mem_cons_self _ _)
    have := ih (fun c hc => hds c (List.mem_cons_of_mem _ hc))
    simp [List.takeWhile, List.dropWhile, hd, this.1, this.2]

theorem Sprintf_fixedFormat (n : Nat) (hn : n ≤ 10000009) (x : ℚ) :
    Sprintf (fixedFormat (n : Int)) x = formatFixed n x := by
  have hint : intChars (n : Int) = natChars n := by
    simp [intChars]
  have hd := digitsFuel_isDigit (n + 1) n
  have htw := takeWhile_digits (natChars n) ['f'] hd (by decide)
  have hp : parsenum 0 (natChars n) = some n :=
    parsenum_digitsFuel (n + 1) n (by omega) (by omega)
  unfold Sprintf fixedFormat
  rw [hint]
  simp only [List.cons_append, List.nil_append]
  rw [htw.1, htw.2, hp]
  rfl

theorem dropWhile_not_point (l r : List Char) (hl : ∀ c ∈ l, (c != '.') = true) :
    (l ++ r).dropWhile (fun c => c != '.') = r.dropWhile (fun c => c != '.') := by
  induction l with
  | nil => rfl
  | cons c l ih =>
    have hc := hl c (List.mem_cons_self _ _)
    simp only [List.cons_append, List.dropWhile_cons, hc, if_true]
    exact ih (fun d hd => hl d (List.mem_cons_of_mem _ hd))

theorem fracChars_length (n m : Nat) : (fracChars n m).length = n := by
  induction n generalizing m with
  | zero => rfl
  | succ n ih => simp [fracChars, ih]

theorem decimalPlaces_formatFixed (n : Nat) (x : ℚ) : decimalPlaces (formatFixed n x) = n := by
  unfold decimalPlaces formatFixed
  simp only
  have hsign : ∀ c ∈ (if x < 0 then ['-'] else []), (c != '.') = true := by
    intro c hc
    by_cases hx : x < 0
    · rw [if_pos hx, List.mem_singleton] at hc
      rw [hc]
      decide
    · rw [if_neg hx] at hc
      cases hc
  have hint : ∀ m, ∀ c ∈ natChars m, (c != '.') = true := fun m c hc =>
    isDigit_ne_point c (digitsFuel_isDigit _ _ c hc)
  rw [List.append_assoc, dropWhile_not_point _ _ hsign, dropWhile_not_point _ _ (hint _)]
  by_cases h0 : n = 0
  · simp [h0]
  · rw [if_neg h0]
    simp [List.dropWhile, fracChars_length]

/-! ## Trader -/

theorem NewExchange_formats (cfg : Configuration) (markets : Option (List SymbolPair))
    (lmt : Option ℚ) (ex : Exchange) (h : NewExchange cfg markets lmt = some ex) :
    ex.priceFormat = fixedFormat ex.symbolPair.BaseScale ∧
      ex.amountFormat = fixedFormat ex.symbolPair.QuoteScale := by
  unfold NewExchange at h
  cases markets with
  | none => simp at h
  | some data =>
    dsimp only at h
    cases hs : (data.filter (fun m => decide (m.Name = ToUpper cfg.SymbolPair))).getLast? with
    | none => simp [hs] at h
    | some sp =>
      cases lmt with
      | none => simp [hs] at h
      | some l =>
        simp only [hs, Option.some.injEq] at h
        rw [← h]
        exact ⟨rfl, rfl⟩

theorem Exchange_worker_no_ticker (w : World) (code : Int) (p : Exchange)
    (htk : w.GetTicker = none) :
    Exchange_worker w code p = ⟨p, [Event.GetTicker, Event.exchangeTimeChan], false⟩ := by
  simp [Exchange_worker, htk]

theorem Exchange_worker_no_parse (w : World) (code : Int) (p : Exchange) (data : Ticker)
    (ask : PriceAmount) (htk : w.GetTicker = some ⟨some data⟩) (hask : data.Ask = some ask)
    (hap : (w.ParseFloat ask.Price).2 = true) :
    Exchange_worker w code p = ⟨p, [Event.GetTicker, Event.exchangeTimeChan], false⟩ := by
  simp [Exchange_worker, htk, hask, hap]

/-- C16: for a state whose formats are those NewExchange builds from scales that fmt
accepts as a precision (0 to 10000009), and with the renderings of fmt.Sprintf, the
Trader worker uses the scale factor 1 for the NormalExchange variant and the float64
quotient BalanceExchangePercent / 100 otherwise; both its orders carry the price
|ask - expectedSpread|, the absolute value of the float64 difference, which is never
negative, rendered with exactly BaseScale decimal places, and the amount, the float64
product tradeAmount * a, rendered with exactly QuoteScale decimal places; and it issues
no order when the ticker fetch or the ask-price parse fails. -/
theorem Exchange_worker_parameters (w : World) (code : Int) (p : Exchange)
    (hprice : p.priceFormat = fixedFormat p.symbolPair.BaseScale)
    (hamount : p.amountFormat = fixedFormat p.symbolPair.QuoteScale)
    (hfmt : w.Sprintf = Sprintf)
    (hbase : 0 ≤ p.symbolPair.BaseScale ∧ p.symbolPair.BaseScale ≤ 10000009)
    (hquote : 0 ≤ p.symbolPair.QuoteScale ∧ p.symbolPair.QuoteScale ≤ 10000009) :
    (∀ cfg markets lmt ex, NewExchange cfg markets lmt = some ex →
      ex.priceFormat = fixedFormat ex.symbolPair.BaseScale ∧
        ex.amountFormat = fixedFormat ex.symbolPair.QuoteScale) ∧
    (∀ (data : Ticker) (ask : PriceAmount),
      w.GetTicker = some ⟨some data⟩ → data.Ask = some ask →
      (w.ParseFloat ask.Price).2 = false →
      ((Exchange_worker w code p).trace.filter Event.isCreateOrder).map
          (fun e => match e with
            | Event.CreateOrder side _ _ price amount => (side, price, amount)
            | _ => ("", "", "")) =
        [("BID",
            formatFixed p.symbolPair.BaseScale.toNat
              |fsub (w.ParseFloat ask.Price).1 p.config.ExpectDiffrentValue|,
            formatFixed p.symbolPair.QuoteScale.toNat
              (fmul p.config.ExchangeAmount
                (if code = NormalExchangeType then ofInt 1
                  else fdiv (ofInt p.config.BalanceExchangePercent) 100))),
          ("ASK",
            formatFixed p.symbolPair.BaseScale.toNat
              |fsub (w.ParseFloat ask.Price).1 p.config.ExpectDiffrentValue|,
            formatFixed p.symbolPair.QuoteScale.toNat
              (fmul p.config.ExchangeAmount
                (if code = NormalExchangeType then ofInt 1
                  else fdiv (ofInt p.config.BalanceExchangePercent) 100)))] ∧
        0 ≤ |fsub (w.ParseFloat ask.Price).1 p.config.ExpectDiffrentValue| ∧
        ∀ e ∈ (Exchange_worker w code p).trace,
          match e with
          | Event.CreateOrder _ _ _ price amount =>
            (decimalPlaces price : Int) = p.symbolPair.BaseScale ∧
              (decimalPlaces amount : Int) = p.symbolPair.QuoteScale
          | _ => True) ∧
    ((if NormalExchangeType = NormalExchangeType then ofInt 1
        else fdiv (ofInt p.config.BalanceExchangePercent) 100) = 1 ∧
      (if BalanceExchangeType = NormalExchangeType then ofInt 1
        else fdiv (ofInt p.config.BalanceExchangePercent) 100) =
          fdiv (ofInt p.config.BalanceExchangePercent) 100) ∧
    (w.GetTicker = none →
      (Exchange_worker w code p).trace.filter Event.isCreateOrder = []) ∧
    (∀ (data : Ticker) (ask : PriceAmount),
      w.GetTicker = some ⟨some data⟩ → data.Ask = some ask →
      (w.ParseFloat ask.Price).2 = true →
      (Exchange_worker w code p).trace.filter Event.isCreateOrder = []) := by
  have hb : ((p.symbolPair.BaseScale.toNat : Nat) : Int) = p.symbolPair.BaseScale :=
    Int.toNat_of_nonneg hbase.1
  have hq : ((p.symbolPair.QuoteScale.toNat : Nat) : Int) = p.symbolPair.QuoteScale :=
    Int.toNat_of_nonneg hquote.1
  have fb : ∀ x, Sprintf (fixedFormat p.symbolPair.BaseScale) x =
      formatFixed p.symbolPair.BaseScale.toNat x := by
    intro x
    rw [← Sprintf_fixedFormat _ (by omega), hb]
  have fq : ∀ x, Sprintf (fixedFormat p.symbolPair.QuoteScale) x =
      formatFixed p.symbolPair.QuoteScale.toNat x := by
    intro x
    rw [← Sprintf_fixedFormat _ (by omega), hq]
  refine ⟨fun cfg markets lmt ex h => NewExchange_formats cfg markets lmt ex h, ?_, ?_, ?_, ?_⟩
  · intro data ask htk hask hap
    rw [Exchange_worker_ok w code p data ask htk hask hap, hprice, hamount, hfmt]
    simp only [fb, fq]
    refine ⟨by simp [Event.isCreateOrder], abs_nonneg _, ?_⟩
    intro e he
    simp only [List.mem_cons, List.mem_singleton, List.not_mem_nil, or_false] at he
    rcases he with he | he | he | he <;> subst he <;>
      simp only [decimalPlaces_formatFixed, hb, hq, and_self]
  · constructor
    · rw [if_pos rfl]
      decide!
    · have : ¬ (BalanceExchangeType = NormalExchangeType) := by decide
      rw [if_neg this]
  · intro htk
    rw [Exchange_worker_no_ticker w code p htk]
    simp [Event.isCreateOrder]
  · intro data ask htk hask hap
    rw [Exchange_worker_no_parse w code p data ask htk hask hap]
    simp [Event.isCreateOrder]

/-- C16 at a concrete state: the state NewExchange builds for a pair with scales 4 and
8, an ask of 100, no spread and a trade amount of 1, gives for the Normal variant two
orders at 100.0000 for 1.00000000, and for the BalanceExchange variant, at 50 percent,
two orders at 100.0000 for 0.50000000. -/
theorem Exchange_worker_parameters_witness :
    NewExchange exampleConfig
        (some [⟨"m1", 8, ⟨"q1", "USDT", "Tether"⟩, "ONE-USDT", 4, ⟨"b1", "ONE", "One"⟩⟩])
        (some 2400) = some exampleExchange ∧
    ((Exchange_worker formatWorld NormalExchangeType exampleExchange).trace.filter
        Event.isCreateOrder).map
      (fun e => match e with
        | Event.CreateOrder side _ _ price amount => (side, price, amount)
        | _ => ("", "", "")) =
      [("BID", "100.0000", "1.00000000"), ("ASK", "100.0000", "1.00000000")] ∧
    ((Exchange_worker formatWorld BalanceExchangeType exampleExchange).trace.filter
        Event.isCreateOrder).map
      (fun e => match e with
        | Event.CreateOrder side _ _ price amount => (side, price, amount)
        | _ => ("", "", "")) =
      [("BID", "100.0000", "0.50000000"), ("ASK", "100.0000", "0.50000000")] ∧
    decimalPlaces "100.0000" = 4 ∧ decimalPlaces "0.50000000" = 8 := by
  have h := (Exchange_worker_parameters formatWorld NormalExchangeType exampleExchange
    (by decide) (by decide) rfl (by decide) (by decide)).2.1
    ⟨"m1", some ⟨"99", "1"⟩, some ⟨"100", "1"⟩⟩ ⟨"100", "1"⟩ rfl rfl (by decide)
  have g := (Exchange_worker_parameters formatWorld BalanceExchangeType exampleExchange
    (by decide) (by decide) rfl (by decide) (by decide)).2.1
    ⟨"m1", some ⟨"99", "1"⟩, some ⟨"100", "1"⟩⟩ ⟨"100", "1"⟩ rfl rfl (by decide)
  refine ⟨by decide!, ?_, ?_, by decide, by decide⟩
  · rw [h.1]; decide!
  · rw [g.1]; decide!

/-- C17: a Trader cycle whose ticker fetch and ask-price parse succeed, with a nonce n
in the 64-bit range, issues exactly two create-order calls, both for the pair's
market: a BID with nonce n and an ASK with nonce n + 1 taken with 64-bit wrap-around;
both carry the same price string and the same amount string; and the two nonces are
distinct, also when n + 1 wraps. -/
theorem Exchange_worker_paired_orders (w : World) (code : Int) (p : Exchange) (data : Ticker)
    (ask : PriceAmount) (htk : w.GetTicker = some ⟨some data⟩) (hask : data.Ask = some ask)
    (hap : (w.ParseFloat ask.Price).2 = false)
    (hlow : -9223372036854775808 ≤ w.now) (hhigh : w.now < 9223372036854775808) :
    (Exchange_worker w code p).trace.filter Event.isCreateOrder =
      [Event.CreateOrder "BID" w.now p.symbolPair.UUID
          (w.Sprintf p.priceFormat
            |fsub (w.ParseFloat ask.Price).1 p.config.ExpectDiffrentValue|)
          (w.Sprintf p.amountFormat (fmul p.config.ExchangeAmount
            (if code = NormalExchangeType then ofInt 1
              else fdiv (ofInt p.config.BalanceExchangePercent) 100))),
        Event.CreateOrder "ASK" (wrap64 (w.now + 1)) p.symbolPair.UUID
          (w.Sprintf p.priceFormat
            |fsub (w.ParseFloat ask.Price).1 p.config.ExpectDiffrentValue|)
          (w.Sprintf p.amountFormat (fmul p.config.ExchangeAmount
            (if code = NormalExchangeType then ofInt 1
              else fdiv (ofInt p.config.BalanceExchangePercent) 100)))] ∧
    wrap64 (w.now + 1) ≠ w.now ∧
    (w.now < 9223372036854775807 → wrap64 (w.now + 1) = w.now + 1) ∧
    (w.now = 9223372036854775807 → wrap64 (w.now + 1) = -9223372036854775808) := by
  refine ⟨?_, ?_, ?_, ?_⟩
  · rw [Exchange_worker_ok w code p data ask htk hask hap]
    simp [Event.isCreateOrder]
  · unfold wrap64
    omega
  · intro h
    unfold wrap64
    omega
  · intro h
    unfold wrap64
    omega

/-- C17 at a concrete cycle: the nonces are 1527665262168391000 and
1527665262168391001. -/
theorem Exchange_worker_paired_orders_witness :
    ((Exchange_worker formatWorld NormalExchangeType exampleExchange).trace.filter
        Event.isCreateOrder).map
      (fun e => match e with
        | Event.CreateOrder side nonce market _ _ => (side, nonce, market)
        | _ => ("", 0, "")) =
      [("BID", 1527665262168391000, "m1"), ("ASK", 1527665262168391001, "m1")] := by
  have h := Exchange_worker_paired_orders formatWorld NormalExchangeType exampleExchange
    ⟨"m1", some ⟨"99", "1"⟩, some ⟨"100", "1"⟩⟩ ⟨"100", "1"⟩ rfl rfl (by decide) (by decide)
    (by decide)
  rw [h.1, h.2.2.1 (by decide)]
  rfl

/-! ## Balance Checker: a cycle that fails -/

theorem CheckAccountBalance_ticker_signals (w : World) (p : Exchange) :
    signals (CheckAccountBalance_ticker w p).trace = [] ∨
      ∃ data ask bid, w.GetTicker = some ⟨some data⟩ ∧ data.Ask = some ask ∧
        data.Bid = some bid ∧ (w.ParseFloat ask.Price).2 = false ∧
        (w.ParseFloat bid.Price).2 = false := by
  unfold CheckAccountBalance_ticker
  cases hT : w.GetTicker with
  | none => left; simp [signals, Event.isSignal]
  | some tk =>
    obtain ⟨d⟩ := tk
    cases d with
    | none => left; simp [signals, Event.isSignal]
    | some data =>
      obtain ⟨m, b, a⟩ := data
      cases a with
      | none => left; simp [signals, Event.isSignal]
      | some ask =>
        by_cases hap : (w.ParseFloat ask.Price).2 = true
        · left; simp [hap, signals, Event.isSignal]
        · cases b with
          | none => left; simp [hap, signals, Event.isSignal]
          | some bid =>
            by_cases hbp : (w.ParseFloat bid.Price).2 = true
            · left; simp [hap, hbp, signals, Event.isSignal]
            · right
              exact ⟨⟨m, some bid, some ask⟩, ask, bid, rfl, rfl, rfl, by simpa using hap,
                by simpa using hbp⟩

theorem CheckAccountBalance_balances_signals (w : World) (p : Exchange) :
    signals (CheckAccountBalance_balances w p).trace = [] ∨ cycleSucceeds w p := by
  unfold CheckAccountBalance_balances
  cases hA : w.GetAccounts with
  | none => left; rfl
  | some account =>
    dsimp only
    cases hB : mapGet (storeBalances p.currentBalances account.Data)
        p.symbolPair.BaseAsset.UUID with
    | none => left; rfl
    | some base =>
      dsimp only
      by_cases hbt : (w.ParseFloat base.Balance).2 = true
      · left; rw [if_pos hbt]; rfl
      rw [if_neg hbt]
      by_cases hbl : (w.ParseFloat base.LockedBalance).2 = true
      · left; rw [if_pos hbl]; rfl
      rw [if_neg hbl]
      cases hQ : mapGet (storeBalances p.currentBalances account.Data)
          p.symbolPair.QuoteAsset.UUID with
      | none => left; rfl
      | some quote =>
        dsimp only
        by_cases hqt : (w.ParseFloat quote.Balance).2 = true
        · left; rw [if_pos hqt]; rfl
        rw [if_neg hqt]
        by_cases hql : (w.ParseFloat quote.LockedBalance).2 = true
        · left; rw [if_pos hql]; rfl
        rw [if_neg hql]
        rcases CheckAccountBalance_ticker_signals w
          { p with
            currentBalances := storeBalances p.currentBalances account.Data,
            baseBalance := (w.ParseFloat base.Balance).1,
            quoteBalance := (w.ParseFloat quote.Balance).1,
            baseAvaiable := fsub (w.ParseFloat base.Balance).1 (w.ParseFloat base.LockedBalance).1,
            quoteAvaiable :=
              fsub (w.ParseFloat quote.Balance).1 (w.ParseFloat quote.LockedBalance).1 }
          with h | ⟨data, ask, bid, h1, h2, h3, h4, h5⟩
        · left; exact h
        · right
          exact ⟨account, base, quote, data, ask, bid, hA,
            (mapGet_storeBalances _ _ _).symm.trans hB,
            (mapGet_storeBalances _ _ _).symm.trans hQ, by simpa using hbt,
            by simpa using hbl, by simpa using hqt, by simpa using hql, h1, h2, h3, h4, h5⟩

theorem CheckAccountBalance_ticker_frame (w : World) (p : Exchange) :
    (CheckAccountBalance_ticker w p).state.currentBalances = p.currentBalances ∧
    (CheckAccountBalance_ticker w p).state.config = p.config ∧
    (CheckAccountBalance_ticker w p).state.keepRunning = p.keepRunning ∧
    (CheckAccountBalance_ticker w p).state.stat = p.stat := by
  unfold CheckAccountBalance_ticker
  cases hT : w.GetTicker with
  | none => simp
  | some tk =>
    obtain ⟨d⟩ := tk
    cases d with
    | none => simp
    | some data =>
      obtain ⟨m, b, a⟩ := data
      cases a with
      | none => simp
      | some ask =>
        by_cases hap : (w.ParseFloat ask.Price).2 = true
        · simp [hap]
        · cases b with
          | none => simp [hap]
          | some bid =>
            by_cases hbp : (w.ParseFloat bid.Price).2 = true
            · simp [hap, hbp]
            · by_cases h3 : w.elapsed < p.config.CheckBalanceRelayTime
              · by_cases h5 : NewTicker_panics
                  (wrap64 (p.config.CheckBalanceRelayTime - w.elapsed)) = true <;>
                  simp [hap, hbp, h3, h5]
              · simp [hap, hbp, h3]

theorem CheckAccountBalance_balances_frame (w : World) (p : Exchange) :
    (∀ account, w.GetAccounts = some account →
      (CheckAccountBalance_balances w p).state.currentBalances =
        storeBalances p.currentBalances account.Data) ∧
    (CheckAccountBalance_balances w p).state.config = p.config ∧
    (CheckAccountBalance_balances w p).state.keepRunning = p.keepRunning ∧
    (CheckAccountBalance_balances w p).state.stat = p.stat := by
  unfold CheckAccountBalance_balances
  cases hA : w.GetAccounts with
  | none => simp
  | some account =>
    dsimp only
    cases hB : mapGet (storeBalances p.currentBalances account.Data)
        p.symbolPair.BaseAsset.UUID with
    | none => simp
    | some base =>
      dsimp only
      by_cases hbt : (w.ParseFloat base.Balance).2 = true
      · rw [if_pos hbt]; simp
      rw [if_neg hbt]
      by_cases hbl : (w.ParseFloat base.LockedBalance).2 = true
      · rw [if_pos hbl]; simp
      rw [if_neg hbl]
      cases hQ : mapGet (storeBalances p.currentBalances account.Data)
          p.symbolPair.QuoteAsset.UUID with
      | none => simp
      | some quote =>
        dsimp only
        by_cases hqt : (w.ParseFloat quote.Balance).2 = true
        · rw [if_pos hqt]; simp
        rw [if_neg hqt]
        by_cases hql : (w.ParseFloat quote.LockedBalance).2 = true
        · rw [if_pos hql]; simp
        rw [if_neg hql]
        have h := CheckAccountBalance_ticker_frame w
          { p with
            currentBalances := storeBalances p.currentBalances account.Data,
            baseBalance := (w.ParseFloat base.Balance).1,
            quoteBalance := (w.ParseFloat quote.Balance).1,
            baseAvaiable := fsub (w.ParseFloat base.Balance).1 (w.ParseFloat base.LockedBalance).1,
            quoteAvaiable :=
              fsub (w.ParseFloat quote.Balance).1 (w.ParseFloat quote.LockedBalance).1 }
        refine ⟨fun acc hacc => ?_, h.2.1, h.2.2.1, h.2.2.2⟩
        have : acc = account := (Option.some.inj hacc).symm
        rw [this]
        exact h.1

/-- C11 refuted as stated: in a cycle whose parse of the base total fails, no signal
is emitted, but the balance map, empty before, holds the fetched balances after, and
the base total, 1 before, holds the value 0 the failed parse returned. -/
theorem CheckAccountBalance_failure_writes :
    (badTotalWorld.ParseFloat "abc").2 = true ∧
    signals (CheckAccountBalance_step badTotalWorld boundaryExchange).trace = [] ∧
    boundaryExchange.currentBalances = [] ∧
    (CheckAccountBalance_step badTotalWorld boundaryExchange).state.currentBalances =
      [("q1", ⟨"q1", "1000", "0"⟩), ("b1", ⟨"b1", "abc", "0"⟩)] ∧
    boundaryExchange.baseBalance = 1 ∧
    (CheckAccountBalance_step badTotalWorld boundaryExchange).state.baseBalance = 0 := by
  have hb : mapGet (storeBalances boundaryExchange.currentBalances
      [⟨"b1", "abc", "0"⟩, ⟨"q1", "1000", "0"⟩]) boundaryExchange.symbolPair.BaseAsset.UUID =
      some ⟨"b1", "abc", "0"⟩ := by decide
  have hp : (badTotalWorld.ParseFloat "abc").2 = true := by decide
  have hs : CheckAccountBalance_step badTotalWorld boundaryExchange =
      ⟨{ boundaryExchange with
          currentBalances := [("q1", ⟨"q1", "1000", "0"⟩), ("b1", ⟨"b1", "abc", "0"⟩)],
          baseBalance := (badTotalWorld.ParseFloat "abc").1 },
        [Event.GetAccounts, Event.checkBalanceTimeChan], false⟩ := by
    have hk : boundaryExchange.keepRunning = true := rfl
    have ha : badTotalWorld.GetAccounts = some ⟨[⟨"b1", "abc", "0"⟩, ⟨"q1", "1000", "0"⟩]⟩ := rfl
    simp only [CheckAccountBalance_step, hk, CheckAccountBalance_worker,
      CheckAccountBalance_balances, ha, hb, hp]
    simp
    decide
  refine ⟨hp, ?_, rfl, ?_, rfl, ?_⟩
  · rw [hs]
    decide
  · rw [hs]
  · rw [hs]
    simp [badTotalWorld, exampleWorld, exampleParseFloat]

theorem CheckAccountBalance_state_base (w : World) (p : Exchange)
    (account : AccountResponeBody) (base : Balance)
    (hacc : w.GetAccounts = some account)
    (hbase : fetchedBalance p.currentBalances account.Data p.symbolPair.BaseAsset.UUID =
      some base)
    (hfail : (w.ParseFloat base.Balance).2 = true ∨ (w.ParseFloat base.LockedBalance).2 = true) :
    CheckAccountBalance_worker w p =
      ⟨{ p with
          currentBalances := storeBalances p.currentBalances account.Data,
          baseBalance := (w.ParseFloat base.Balance).1 },
        [Event.GetAccounts, Event.checkBalanceTimeChan], false⟩ := by
  rw [← mapGet_storeBalances] at hbase
  by_cases hbt : (w.ParseFloat base.Balance).2 = true
  · simp [CheckAccountBalance_worker, CheckAccountBalance_balances, hacc, hbase, hbt]
  · have hbl : (w.ParseFloat base.LockedBalance).2 = true := hfail.resolve_left hbt
    simp [CheckAccountBalance_worker, CheckAccountBalance_balances, hacc, hbase, hbt, hbl]

theorem CheckAccountBalance_state_quote (w : World) (p : Exchange)
    (account : AccountResponeBody) (base quote : Balance)
    (hacc : w.GetAccounts = some account)
    (hbase : fetchedBalance p.currentBalances account.Data p.symbolPair.BaseAsset.UUID =
      some base)
    (hquote : fetchedBalance p.currentBalances account.Data p.symbolPair.QuoteAsset.UUID =
      some quote)
    (hbt : (w.ParseFloat base.Balance).2 = false)
    (hbl : (w.ParseFloat base.LockedBalance).2 = false)
    (hfail : (w.ParseFloat quote.Balance).2 = true ∨
      (w.ParseFloat quote.LockedBalance).2 = true) :
    CheckAccountBalance_worker w p =
      ⟨{ p with
          currentBalances := storeBalances p.currentBalances account.Data,
          baseBalance := (w.ParseFloat base.Balance).1,
          quoteBalance := (w.ParseFloat quote.Balance).1 },
        [Event.GetAccounts, Event.checkBalanceTimeChan], false⟩ := by
  rw [← mapGet_storeBalances] at hbase hquote
  by_cases hqt : (w.ParseFloat quote.Balance).2 = true
  · simp [CheckAccountBalance_worker, CheckAccountBalance_balances, hacc, hbase, hquote, hbt,
      hbl, hqt]
  · have hql : (w.ParseFloat quote.LockedBalance).2 = true := hfail.resolve_left hqt
    simp [CheckAccountBalance_worker, CheckAccountBalance_balances, hacc, hbase, hquote, hbt,
      hbl, hqt, hql]

theorem CheckAccountBalance_state_ticker (w : World) (p : Exchange)
    (account : AccountResponeBody) (base quote : Balance)
    (hacc : w.GetAccounts = some account)
    (hbase : fetchedBalance p.currentBalances account.Data p.symbolPair.BaseAsset.UUID =
      some base)
    (hquote : fetchedBalance p.currentBalances account.Data p.symbolPair.QuoteAsset.UUID =
      some quote)
    (hbt : (w.ParseFloat base.Balance).2 = false)
    (hbl : (w.ParseFloat base.LockedBalance).2 = false)
    (hqt : (w.ParseFloat quote.Balance).2 = false)
    (hql : (w.ParseFloat quote.LockedBalance).2 = false) :
    (w.GetTicker = none →
      CheckAccountBalance_worker w p =
        ⟨{ p with
            currentBalances := storeBalances p.currentBalances account.Data,
            baseBalance := (w.ParseFloat base.Balance).1,
            quoteBalance := (w.ParseFloat quote.Balance).1,
            baseAvaiable :=
              fsub (w.ParseFloat base.Balance).1 (w.ParseFloat base.LockedBalance).1,
            quoteAvaiable :=
              fsub (w.ParseFloat quote.Balance).1 (w.ParseFloat quote.LockedBalance).1,
            currentTicker := none },
          [Event.GetAccounts, Event.GetTicker, Event.checkBalanceTimeChan], false⟩) ∧
    (∀ (data : Ticker) (ask : PriceAmount),
      w.GetTicker = some ⟨some data⟩ → data.Ask = some ask →
      (w.ParseFloat ask.Price).2 = true →
      CheckAccountBalance_worker w p =
        ⟨{ p with
            currentBalances := storeBalances p.currentBalances account.Data,
            baseBalance := (w.ParseFloat base.Balance).1,
            quoteBalance := (w.ParseFloat quote.Balance).1,
            baseAvaiable :=
              fsub (w.ParseFloat base.Balance).1 (w.ParseFloat base.LockedBalance).1,
            quoteAvaiable :=
              fsub (w.ParseFloat quote.Balance).1 (w.ParseFloat quote.LockedBalance).1,
            currentTicker := some ⟨some data⟩,
            askPrice := (w.ParseFloat ask.Price).1 },
          [Event.GetAccounts, Event.GetTicker, Event.checkBalanceTimeChan], false⟩) ∧
    (∀ (data : Ticker) (ask bid : PriceAmount),
      w.GetTicker = some ⟨some data⟩ → data.Ask = some ask → data.Bid = some bid →
      (w.ParseFloat ask.Price).2 = false → (w.ParseFloat bid.Price).2 = true →
      CheckAccountBalance_worker w p =
        ⟨{ p with
            currentBalances := storeBalances p.currentBalances account.Data,
            baseBalance := (w.ParseFloat base.Balance).1,
            quoteBalance := (w.ParseFloat quote.Balance).1,
            baseAvaiable :=
              fsub (w.ParseFloat base.Balance).1 (w.ParseFloat base.LockedBalance).1,
            quoteAvaiable :=
              fsub (w.ParseFloat quote.Balance).1 (w.ParseFloat quote.LockedBalance).1,
            currentTicker := some ⟨some data⟩,
            askPrice := (w.ParseFloat ask.Price).1,
            bidPrice := (w.ParseFloat bid.Price).1 },
          [Event.GetAccounts, Event.GetTicker, Event.checkBalanceTimeChan], false⟩) := by
  rw [← mapGet_storeBalances] at hbase hquote
  refine ⟨fun htk => ?_, fun data ask htk hask hap => ?_,
    fun data ask bid htk hask hbid hap hbp => ?_⟩
  · simp [CheckAccountBalance_worker, CheckAccountBalance_balances, CheckAccountBalance_ticker,
      hacc, hbase, hquote, hbt, hbl, hqt, hql, htk]
  · simp [CheckAccountBalance_worker, CheckAccountBalance_balances, CheckAccountBalance_ticker,
      hacc, hbase, hquote, hbt, hbl, hqt, hql, htk, hask, hap]
  · simp [CheckAccountBalance_worker, CheckAccountBalance_balances, CheckAccountBalance_ticker,
      hacc, hbase, hquote, hbt, hbl, hqt, hql, htk, hask, hbid, hap, hbp]

/-- C11 as the code has it: a cycle in which any step fails emits no signal.  When the
account fetch fails the shared state is exactly the one before the cycle.  When a
later step fails, the balance map holds the fetched balances, for every asset the last
entry of the reply and the stored entry where the reply has none, and every field the
cycle assigned before the failing step holds its new value while every field it would
have assigned after keeps its old one: the base total is the value its parse returned
(also when that parse is the one that failed); so is the quote total once the two base
parses succeeded; the two available amounts are the rounded differences once the four
balance parses succeeded; the cached ticker is the reply of the ticker fetch, absent
when that fetch failed; the ask price is the value its parse returned, and so is the
bid price.  In every case the trade amount and the rest of the configuration,
keepRunning and the quota statistics are those before the cycle. -/
theorem CheckAccountBalance_failure (w : World) (p : Exchange) (hfail : ¬ cycleSucceeds w p) :
    signals (CheckAccountBalance_worker w p).trace = [] ∧
    (w.GetAccounts = none → (CheckAccountBalance_worker w p).state = p) ∧
    (∀ account, w.GetAccounts = some account →
      (∀ k, mapGet (CheckAccountBalance_worker w p).state.currentBalances k =
        fetchedBalance p.currentBalances account.Data k) ∧
      ∀ base,
        fetchedBalance p.currentBalances account.Data p.symbolPair.BaseAsset.UUID = some base →
        (((w.ParseFloat base.Balance).2 = true ∨ (w.ParseFloat base.LockedBalance).2 = true) →
          (CheckAccountBalance_worker w p).state =
            { p with
              currentBalances := (CheckAccountBalance_worker w p).state.currentBalances,
              baseBalance := (w.ParseFloat base.Balance).1 }) ∧
        ∀ quote,
          fetchedBalance p.currentBalances account.Data p.symbolPair.QuoteAsset.UUID =
            some quote →
          (w.ParseFloat base.Balance).2 = false → (w.ParseFloat base.LockedBalance).2 = false →
          (((w.ParseFloat quote.Balance).2 = true ∨
              (w.ParseFloat quote.LockedBalance).2 = true) →
            (CheckAccountBalance_worker w p).state =
              { p with
                currentBalances := (CheckAccountBalance_worker w p).state.currentBalances,
                baseBalance := (w.ParseFloat base.Balance).1,
                quoteBalance := (w.ParseFloat quote.Balance).1 }) ∧
          ((w.ParseFloat quote.Balance).2 = false →
            (w.ParseFloat quote.LockedBalance).2 = false →
            (w.GetTicker = none →
              (CheckAccountBalance_worker w p).state =
                { p with
                  currentBalances := (CheckAccountBalance_worker w p).state.currentBalances,
                  baseBalance := (w.ParseFloat base.Balance).1,
                  quoteBalance := (w.ParseFloat quote.Balance).1,
                  baseAvaiable :=
                    fsub (w.ParseFloat base.Balance).1 (w.ParseFloat base.LockedBalance).1,
                  quoteAvaiable :=
                    fsub (w.ParseFloat quote.Balance).1 (w.ParseFloat quote.LockedBalance).1,
                  currentTicker := none }) ∧
            (∀ (data : Ticker) (ask : PriceAmount),
              w.GetTicker = some ⟨some data⟩ → data.Ask = some ask →
              (w.ParseFloat ask.Price).2 = true →
              (CheckAccountBalance_worker w p).state =
                { p with
                  currentBalances := (CheckAccountBalance_worker w p).state.currentBalances,
                  baseBalance := (w.ParseFloat base.Balance).1,
                  quoteBalance := (w.ParseFloat quote.Balance).1,
                  baseAvaiable :=
                    fsub (w.ParseFloat base.Balance).1 (w.ParseFloat base.LockedBalance).1,
                  quoteAvaiable :=
                    fsub (w.ParseFloat quote.Balance).1 (w.ParseFloat quote.LockedBalance).1,
                  currentTicker := some ⟨some data⟩,
                  askPrice := (w.ParseFloat ask.Price).1 }) ∧
            (∀ (data : Ticker) (ask bid : PriceAmount),
              w.GetTicker = some ⟨some data⟩ → data.Ask = some ask → data.Bid = some bid →
              (w.ParseFloat ask.Price).2 = false → (w.ParseFloat bid.Price).2 = true →
              (CheckAccountBalance_worker w p).state =
                { p with
                  currentBalances := (CheckAccountBalance_worker w p).state.currentBalances,
                  baseBalance := (w.ParseFloat base.Balance).1,
                  quoteBalance := (w.ParseFloat quote.Balance).1,
                  baseAvaiable :=
                    fsub (w.ParseFloat base.Balance).1 (w.ParseFloat base.LockedBalance).1,
                  quoteAvaiable :=
                    fsub (w.ParseFloat quote.Balance).1 (w.ParseFloat quote.LockedBalance).1,
                  currentTicker := some ⟨some data⟩,
                  askPrice := (w.ParseFloat ask.Price).1,
                  bidPrice := (w.ParseFloat bid.Price).1 }))) ∧
    (CheckAccountBalance_worker w p).state.config = p.config ∧
    (CheckAccountBalance_worker w p).state.keepRunning = p.keepRunning ∧
    (CheckAccountBalance_worker w p).state.stat = p.stat := by
  have hf := CheckAccountBalance_balances_frame w p
  refine ⟨?_, ?_, ?_, hf.2.1, hf.2.2.1, hf.2.2.2⟩
  · rcases CheckAccountBalance_balances_signals w p with h | h
    · have e : signals (CheckAccountBalance_worker w p).trace =
          signals (CheckAccountBalance_balances w p).trace := by
        simp [CheckAccountBalance_worker, signals, Event.isSignal]
      rw [e, h]
    · exact absurd h hfail
  · intro hnone
    simp [CheckAccountBalance_worker, CheckAccountBalance_balances, hnone]
  · intro account hacc
    refine ⟨fun k => ?_, fun base hbase => ⟨fun hb => ?_, fun quote hquote hbt hbl =>
      ⟨fun hq => ?_, fun hqt hql => ?_⟩⟩⟩
    · have hm : (CheckAccountBalance_worker w p).state.currentBalances =
          storeBalances p.currentBalances account.Data := hf.1 account hacc
      rw [hm, mapGet_storeBalances]
    · rw [CheckAccountBalance_state_base w p account base hacc hbase hb]
    · rw [CheckAccountBalance_state_quote w p account base quote hacc hbase hquote hbt hbl hq]
    · have h := CheckAccountBalance_state_ticker w p account base quote hacc hbase hquote hbt
        hbl hqt hql
      refine ⟨fun htk => ?_, fun data ask htk hask hap => ?_,
        fun data ask bid htk hask hbid hap hbp => ?_⟩
      · rw [h.1 htk]
      · rw [h.2.1 data ask htk hask hap]
      · rw [h.2.2 data ask bid htk hask hbid hap hbp]

/-- C11 as the code has it, at two failing cycles.  A failing account fetch: no signal
and the state as before.  A bid price that does not parse, the last step, from a state
whose balance map holds 1000 base and no quote: no signal, the map holds the fetched
balances, 0.5 base and 1000 quote, and the totals, the available amounts, the cached
ticker and the ask price are the new ones, the bid price the 0 the failed parse
returned. -/
theorem CheckAccountBalance_failure_witness :
    signals (CheckAccountBalance_worker noAccountWorld boundaryExchange).trace = [] ∧
    (CheckAccountBalance_worker noAccountWorld boundaryExchange).state = boundaryExchange ∧
    signals (CheckAccountBalance_worker badBidWorld staleExchange).trace = [] ∧
    mapGet staleExchange.currentBalances "b1" = some ⟨"b1", "1000", "0"⟩ ∧
    mapGet (CheckAccountBalance_worker badBidWorld staleExchange).state.currentBalances "b1" =
      some ⟨"b1", "0.5", "0"⟩ ∧
    mapGet (CheckAccountBalance_worker badBidWorld staleExchange).state.currentBalances "q1" =
      some ⟨"q1", "1000", "0"⟩ ∧
    (CheckAccountBalance_worker badBidWorld staleExchange).state =
      { staleExchange with
        currentBalances :=
          (CheckAccountBalance_worker badBidWorld staleExchange).state.currentBalances,
        baseBalance := 1 / 2, quoteBalance := 1000, baseAvaiable := 1 / 2,
        quoteAvaiable := 1000, currentTicker := badBidWorld.GetTicker, askPrice := 100,
        bidPrice := 0 } := by
  have hfail : ¬ cycleSucceeds noAccountWorld boundaryExchange := by
    rintro ⟨account, _, _, _, _, _, h, _⟩
    exact absurd h (by simp [noAccountWorld])
  have h := CheckAccountBalance_failure noAccountWorld boundaryExchange hfail
  have gfail : ¬ cycleSucceeds badBidWorld staleExchange := by
    rintro ⟨account, base, quote, data, ask, bid, _, _, _, _, _, _, _, h1, h2, h3, _, h5⟩
    have e1 : data = ⟨"m1", some ⟨"abc", "1"⟩, some ⟨"100", "1"⟩⟩ := by
      have := Option.some.inj h1
      injection this with hd
      exact (Option.some.inj hd).symm
    subst e1
    have e2 : bid = ⟨"abc", "1"⟩ := (Option.some.inj h3).symm
    subst e2
    exact absurd h5 (by decide)
  have g := CheckAccountBalance_failure badBidWorld staleExchange gfail
  have gacc := g.2.2.1 ⟨[⟨"b1", "0.5", "0"⟩, ⟨"q1", "1000", "0"⟩]⟩ rfl
  have gstate := ((((gacc.2 ⟨"b1", "0.5", "0"⟩ (by decide)).2 ⟨"q1", "1000", "0"⟩ (by decide)
    (by decide) (by decide)).2 (by decide) (by decide)).2.2
    ⟨"m1", some ⟨"abc", "1"⟩, some ⟨"100", "1"⟩⟩ ⟨"100", "1"⟩ ⟨"abc", "1"⟩ rfl rfl rfl
    (by decide) (by decide))
  refine ⟨h.1, h.2.1 rfl, g.1, by decide, ?_, ?_, ?_⟩
  · rw [gacc.1]; decide
  · rw [gacc.1]; decide
  · rw [gstate]
    decide!

/-! ## Quota Monitor: the first fetch -/

/-- C22 at the failing input: a Check whose fetch fails while the stored record is
still the empty one NewExchange creates panics on the nil data: the step returns
nothing and keepRunning is not set. -/
theorem CheckOneLimitation_first_fetch_fails :
    (∀ (p : Exchange) (k : Bool),
      CheckOneLimitation_step none CheckLimitationType { p with stat := ⟨none⟩ } k = none) ∧
    NewExchange exampleConfig
        (some [⟨"m1", 8, ⟨"q1", "USDT", "Tether"⟩, "ONE-USDT", 4, ⟨"b1", "ONE", "One"⟩⟩])
        (some 2400) = some exampleExchange ∧
    exampleExchange.stat = ⟨none⟩ ∧
    CheckOneLimitation exampleExchange [(CheckLimitationType, none)] = none := by
  refine ⟨fun p k => ?_, ?_, rfl, ?_⟩
  · simp [CheckOneLimitation_step]
  · decide!
  · simp [CheckOneLimitation, CheckOneLimitation_loop, CheckOneLimitation_step, exampleExchange]

/-! ## Lock discipline -/

/-- C21 refuted as stated: the workers of the Balance Checker, the Trader and the
Balancer and the status handler read and write cross-duty fields without the mutex;
the Balance Checker worker writes the base total, and the Balancer reads it, both
without the mutex. -/
theorem lock_discipline_broken :
    disciplined CheckAccountBalance_worker_accesses = false ∧
    disciplined Exchange_worker_accesses = false ∧
    disciplined (BalanceAccountBalance_accesses 11 false) = false ∧
    disciplined ServeHTTP_accesses = false ∧
    Access.write Field.baseBalance ∈ unguarded Held.free CheckAccountBalance_worker_accesses ∧
    Access.read Field.baseBalance ∈
      unguarded Held.free (BalanceAccountBalance_accesses 12 true) ∧
    Access.write Field.ExchangeAmount ∈
      unguarded Held.free (BalanceAccountBalance_accesses 11 false) ∧
    Access.read Field.ExchangeAmount ∈ unguarded Held.free Exchange_worker_accesses := by
  refine ⟨by decide, by decide, by decide, by decide, by decide, by decide, by decide,
    by decide⟩

theorem BalanceAccountBalance_unguarded (code : Int) (short : Bool) :
    unguarded Held.free (BalanceAccountBalance_accesses code short) =
      (BalanceAccountBalance_accesses code short).filter Access.crossDuty := by
  unfold BalanceAccountBalance_accesses
  by_cases h12 : code = 12
  · subst h12
    cases short <;> decide
  by_cases h22 : code = 22
  · subst h22
    cases short <;> decide
  by_cases h21 : code = 21
  · subst h21
    cases short <;> decide
  by_cases h11 : code = 11
  · subst h11
    cases short <;> decide
  rw [if_neg h12, if_neg h22, if_neg h21, if_neg h11]
  decide

theorem CheckOneLimitation_unguarded (sign : Int) (fetchFailed : Bool) :
    unguarded Held.free (CheckOneLimitation_accesses sign fetchFailed) =
      if sign = CheckLimitationType then [] else [Access.write Field.keepRunning] := by
  unfold CheckOneLimitation_accesses
  by_cases h : sign = CheckLimitationType
  · rw [if_pos h, if_pos h]
    cases fetchFailed <;> decide
  · rw [if_neg h, if_neg h]
    cases fetchFailed <;> decide

/-- C21 as the code has it: the mutex is held for two accesses, the read of
keepRunning by the Balance Checker and the write of keepRunning that ends every step
of the Quota Monitor, so a step for a Check signal keeps the discipline; every read
and write of the balance map, the totals, the available amounts, the ask and bid
price and the trade amount by the workers of the Balance Checker, the Trader and the
Balancer, in every branch, is made without the mutex. -/
theorem lock_discipline (code : Int) (short fetchFailed : Bool) :
    disciplined CheckAccountBalance_gate_accesses = true ∧
    disciplined (CheckOneLimitation_accesses CheckLimitationType fetchFailed) = true ∧
    unguarded Held.free CheckAccountBalance_worker_accesses =
      CheckAccountBalance_worker_accesses.filter Access.crossDuty ∧
    unguarded Held.free Exchange_worker_accesses =
      Exchange_worker_accesses.filter Access.crossDuty ∧
    unguarded Held.free (BalanceAccountBalance_accesses code short) =
      (BalanceAccountBalance_accesses code short).filter Access.crossDuty ∧
    unguarded Held.free ServeHTTP_accesses =
      [Access.read Field.baseBalance, Access.read Field.quoteBalance,
        Access.read Field.baseAvaiable, Access.read Field.quoteAvaiable,
        Access.read Field.askPrice, Access.read Field.bidPrice,
        Access.read Field.keepRunning] := by
  refine ⟨by decide, ?_, by decide, by decide, BalanceAccountBalance_unguarded code short,
    by decide⟩
  unfold disciplined
  rw [CheckOneLimitation_unguarded]
  rfl

/-! ## The Balancer's messages to the Canceller -/

theorem cancellerMsgs_lock_wrap (tr : List Event) :
    cancellerMsgs ([Event.cancelOrderLockChan true] ++ tr ++ [Event.balanceTimeChan] ++
        [Event.cancelOrderLockChan false]) =
      [Msg.lock true] ++ cancellerMsgs tr ++ [Msg.lock false] := by
  simp [cancellerMsgs, Event.cancellerMsg]

theorem BalanceAccountBalance_worker_msgs (w : World) (p : Exchange)
    (hlock : p.config.BalanceLockCancelOrder = true) :
    cancellerMsgs (BalanceAccountBalance_worker w p).trace =
      [Msg.lock true] ++ cancellerMsgs (BalanceAccountBalance_switch w p).trace ++
        [Msg.lock false] := by
  simp only [BalanceAccountBalance_worker, hlock, if_true]
  exact cancellerMsgs_lock_wrap _

/-- C23: with BalanceLockCancelOrder set, the messages a Balancer worker sends to the
Canceller in branch 12 with quote-available below the target are lock = true,
cancel-orders(Ask), lock = false, and in branch 21 with base-available below the
target lock = true, cancel-orders(Bid), lock = false, the targets being the float64
products the program computes; a Canceller loop that starts
unlocked and consumes them in this order starts no worker, so it makes no API call;
in branch 22 the messages are lock = true, lock = false, cancel-orders(All),
lock = false, and the same loop starts one worker, for the All variant. -/
theorem BalanceAccountBalance_cancel_under_lock (w w2 : World) (p p2 : Exchange)
    (hlock : p.config.BalanceLockCancelOrder = true) :
    (BalanceAccountBalance_code p = 12 →
      p.quoteAvaiable < fmul (fmul p.askPrice p.config.ExchangeAmount) p.balancePercent →
      cancellerMsgs (BalanceAccountBalance_worker w p).trace =
          [Msg.lock true, Msg.trigger AskOrderType, Msg.lock false] ∧
        (CancelOrders (cancellerMsgs (BalanceAccountBalance_worker w p).trace)).1 = [] ∧
        CancelOrders_apiCalls w2 p2 (cancellerMsgs (BalanceAccountBalance_worker w p).trace) =
          []) ∧
    (BalanceAccountBalance_code p = 21 →
      p.baseAvaiable < fmul p.config.ExchangeAmount p.balancePercent →
      cancellerMsgs (BalanceAccountBalance_worker w p).trace =
          [Msg.lock true, Msg.trigger BidOrderType, Msg.lock false] ∧
        (CancelOrders (cancellerMsgs (BalanceAccountBalance_worker w p).trace)).1 = [] ∧
        CancelOrders_apiCalls w2 p2 (cancellerMsgs (BalanceAccountBalance_worker w p).trace) =
          []) ∧
    (BalanceAccountBalance_code p = 22 →
      cancellerMsgs (BalanceAccountBalance_worker w p).trace =
          [Msg.lock true, Msg.lock false, Msg.trigger AllOrderType, Msg.lock false] ∧
        (CancelOrders (cancellerMsgs (BalanceAccountBalance_worker w p).trace)).1 =
          [AllOrderType] ∧
        CancelOrders_apiCalls w2 p2 (cancellerMsgs (BalanceAccountBalance_worker w p).trace) =
          apiCalls (CancelOrders_worker w2 AllOrderType p2).trace) := by
  have hm := BalanceAccountBalance_worker_msgs w p hlock
  refine ⟨fun hcode hshort => ?_, fun hcode hshort => ?_, fun hcode => ?_⟩
  · have ht := BalanceAccountBalance_switch_12_short w p hcode hshort
    have e : cancellerMsgs (BalanceAccountBalance_worker w p).trace =
        [Msg.lock true, Msg.trigger AskOrderType, Msg.lock false] := by
      rw [hm, ht]
      simp [cancellerMsgs, Event.cancellerMsg]
    refine ⟨e, ?_, ?_⟩
    · rw [e]
      rfl
    · rw [e]
      rfl
  · have ht := BalanceAccountBalance_switch_21_short w p hcode hshort
    have e : cancellerMsgs (BalanceAccountBalance_worker w p).trace =
        [Msg.lock true, Msg.trigger BidOrderType, Msg.lock false] := by
      rw [hm, ht]
      simp [cancellerMsgs, Event.cancellerMsg]
    refine ⟨e, ?_, ?_⟩
    · rw [e]
      rfl
    · rw [e]
      rfl
  · have hs := BalanceAccountBalance_switch_22 w p hcode
    have e : cancellerMsgs (BalanceAccountBalance_worker w p).trace =
        [Msg.lock true, Msg.lock false, Msg.trigger AllOrderType, Msg.lock false] := by
      rw [hm, hs]
      simp [cancellerMsgs, Event.cancellerMsg, hlock]
    refine ⟨e, ?_, ?_⟩
    · rw [e]
      rfl
    · rw [e]
      simp [CancelOrders_apiCalls, CancelOrders, CancelOrders_loop, CancelOrders_step]

/-- C23 at concrete states: in branch 12 with nothing available the Canceller starts
no worker; in branch 22 it starts one, which fetches the orders and the server time
and cancels the stale order. -/
theorem BalanceAccountBalance_cancel_under_lock_witness :
    cancellerMsgs (BalanceAccountBalance_worker exampleWorld lockingShortExchange).trace =
      [Msg.lock true, Msg.trigger AskOrderType, Msg.lock false] ∧
    CancelOrders_apiCalls sellWorld exampleExchange
      (cancellerMsgs (BalanceAccountBalance_worker exampleWorld lockingShortExchange).trace) =
      [] ∧
    cancellerMsgs (BalanceAccountBalance_worker exampleWorld lockingAboveExchange).trace =
      [Msg.lock true, Msg.lock false, Msg.trigger AllOrderType, Msg.lock false] ∧
    CancelOrders_apiCalls sellWorld exampleExchange
      (cancellerMsgs (BalanceAccountBalance_worker exampleWorld lockingAboveExchange).trace) =
      [Event.GetOrders "PENDING", Event.Ping, Event.CancelOrder "o1"] := by
  have h12 : BalanceAccountBalance_code lockingShortExchange = 12 := by decide!
  have hshort : lockingShortExchange.quoteAvaiable <
      fmul (fmul lockingShortExchange.askPrice lockingShortExchange.config.ExchangeAmount)
        lockingShortExchange.balancePercent := by decide!
  have h22 : BalanceAccountBalance_code lockingAboveExchange = 22 := by decide!
  have a := (BalanceAccountBalance_cancel_under_lock exampleWorld sellWorld lockingShortExchange
    exampleExchange rfl).1 h12 hshort
  have b := (BalanceAccountBalance_cancel_under_lock exampleWorld sellWorld lockingAboveExchange
    exampleExchange rfl).2.2 h22
  refine ⟨a.1, a.2.2, b.1, ?_⟩
  rw [b.2.2]
  decide

end B1Exchange
